import Mathlib

/-!
# Monitoring_Go: health-check engine, history log and statistics

A shallow embedding of `models/history.go`, `models/history_store.go`,
`models/store.go`, `models/service.go`, `models/alerts.go`, `models/system.go`,
of the checks and `UpdateServiceStatus` of `services/monitor.go`, of
`checkResourceAlerts` of `services/system.go`, of the handlers of
`handlers/service_handler.go`, of the configuration, masking, escaping and
sending code of `services/telegram.go` and of `readCPUStats` of
`agent/metrics_cpu.go`.

Conventions of the embedding
* `time.Time` is an integer count of nanoseconds since the zero `time.Time`
  (so `IsZero` is equality with `0`); `time.Duration` is an integer count of
  nanoseconds.  Go's `int`, `int64` and `Duration` are unbounded integers here:
  timestamps come from the wall clock and the sums taken over a bounded log stay
  far inside the 64-bit range.
* A finite `float64` is the rational number it stands for, and every float64
  operation rounds its exact result to the nearest float64, ties to even (see
  the section on float64 arithmetic).  `Duration.Seconds()`, `Duration.Hours()`
  and the uptime percentage are computed that way; the conversion `int64(..)` of
  a float64 is truncation toward zero.  The percentages of a resource snapshot
  are only compared with thresholds.
* `time.Until` on the expiry time of a certificate saturates at the ends of the
  64-bit range of nanoseconds, as `Time.Sub` does.
* A Go map is an association list read by its first matching key.
* A `go func() { ... }()` statement is recorded as a dispatched notification, in
  program order.
* A run-time panic is the value `none`.
* What the network, the clock and the UUID generator answer is a parameter of
  the function that asks.
* Where single bytes matter (`escapeMarkdown`, `maskToken`) a Go string is the
  list of its bytes; the content of `/proc/stat` is a text of characters.
* Two calls running at once are followed along one given schedule, the body of
  the call being cut where it holds no lock.
-/

namespace Monitoring

/-! ## models/service.go -/

abbrev Time := Int
abbrev Duration := Int

/-- The method `time.Time.IsZero`. -/
def IsZero (t : Time) : Bool := t == 0

abbrev ServiceStatus := String

def StatusUp : ServiceStatus := "up"
def StatusDown : ServiceStatus := "down"
def StatusUnknown : ServiceStatus := "unknown"

abbrev CheckType := String

def CheckTypeHTTP : CheckType := "http"
def CheckTypeTCP : CheckType := "tcp"
def CheckTypeUDP : CheckType := "udp"

/-- The struct `MonitoredService`. -/
structure MonitoredService where
  ID : String
  Name : String
  CheckType : CheckType
  URL : String
  Host : String
  Port : Int
  CheckInterval : Int
  Timeout : Int
  Status : ServiceStatus
  LastCheck : Time
  LastUptime : Time
  LastDowntime : Time
  ResponseTime : Int
  ErrorMessage : String
  CreatedAt : Time
  SSLCertExpiry : Time
  SSLCertIssuer : String
  SSLDaysLeft : Int
  SSLAlertSent : Bool
  TelegramBotToken : String
  TelegramChatID : String
  TelegramEnabled : Option Bool
  deriving DecidableEq, Repr

/-- The struct `HealthCheckResult`. -/
structure HealthCheckResult where
  ServiceID : String
  Status : ServiceStatus
  ResponseTime : Int
  ErrorMessage : String
  CheckedAt : Time
  SSLCertExpiry : Time
  SSLCertIssuer : String
  SSLDaysLeft : Int
  deriving DecidableEq, Repr

/-! ## Go maps keyed by strings -/

/-- A Go `map[string]V`: an association list, read at the first matching key. -/
abbrev GoMap (V : Type) := List (String × V)

/-- The map read `m[k]` with its `exists` flag. -/
def GoMap.get? {V : Type} : GoMap V → String → Option V
  | [], _ => none
  | (k', v) :: m, k => if k' = k then some v else GoMap.get? m k

/-- The map write `m[k] = v`. -/
def GoMap.set {V : Type} : GoMap V → String → V → GoMap V
  | [], k, v => [(k, v)]
  | (k', v') :: m, k, v => if k' = k then (k, v) :: m else (k', v') :: GoMap.set m k v

/-! ## models/history.go -/

/-- The struct `HealthCheckRecord`. -/
structure HealthCheckRecord where
  Timestamp : Time
  Status : ServiceStatus
  ResponseTime : Int
  ErrorMessage : String
  deriving DecidableEq, Repr

/-- The struct `ServiceHistory`. -/
structure ServiceHistory where
  ServiceID : String
  Checks : List HealthCheckRecord
  MaxChecks : Int
  deriving DecidableEq, Repr

/-- The struct `ServiceStatistics`. -/
structure ServiceStatistics where
  ServiceID : String
  TotalChecks : Nat
  UpCount : Nat
  DownCount : Nat
  UptimePercentage : ℚ
  AverageResponseTime : Int
  CurrentUptime : Int
  CurrentDowntime : Int
  TotalUptime : Int
  TotalDowntime : Int
  Last24Hours : List HealthCheckRecord
  deriving DecidableEq

/-- The function `NewServiceHistory`. -/
def NewServiceHistory (serviceID : String) (maxChecks : Int) : ServiceHistory :=
  { ServiceID := serviceID
    Checks := []
    MaxChecks := if maxChecks = 0 then 100 else maxChecks }

/-- The slice expression `s[lo:]`: it panics unless `0 ≤ lo ≤ len(s)`. -/
def sliceFrom {α : Type} (s : List α) (lo : Int) : Option (List α) :=
  if 0 ≤ lo ∧ lo ≤ (s.length : Int) then some (s.drop lo.toNat) else none

/-- The method `ServiceHistory.AddCheck`; `none` is the slice-bounds panic. -/
def ServiceHistory.AddCheck (h : ServiceHistory) (record : HealthCheckRecord) :
    Option ServiceHistory :=
  let checks := h.Checks ++ [record]
  if (checks.length : Int) > h.MaxChecks then
    match sliceFrom checks ((checks.length : Int) - h.MaxChecks) with
    | some kept => some { h with Checks := kept }
    | none => none
  else
    some { h with Checks := checks }

/-- What the range-loop variable `check` of `GetStatistics` denotes once the loop
is over.  `uptimeStart = &check.Timestamp` takes the address of a field of the
loop variable: from Go 1.22 on every iteration has a variable of its own
(`perIteration`), before that one variable is shared by all iterations and holds
the last element at the end (`shared`). -/
inductive LoopVar where
  | perIteration
  | shared
  deriving DecidableEq, Repr

/-- The local variables of the first loop of `GetStatistics`.  A start pointer
holds the timestamp the loop variable had when its address was taken. -/
structure StatsAcc where
  totalResponseTime : Int
  upCount : Nat
  downCount : Nat
  uptimeStart : Option Time
  downtimeStart : Option Time
  totalUptime : Duration
  totalDowntime : Duration
  deriving DecidableEq, Repr

def StatsAcc.zero : StatsAcc :=
  { totalResponseTime := 0, upCount := 0, downCount := 0, uptimeStart := none,
    downtimeStart := none, totalUptime := 0, totalDowntime := 0 }

/-- The first half of the loop body: counting and the start pointers. -/
def countCheck (check : HealthCheckRecord) (a : StatsAcc) : StatsAcc :=
  if check.Status = StatusUp then
    { a with
      upCount := a.upCount + 1
      totalResponseTime := a.totalResponseTime + check.ResponseTime
      uptimeStart := if a.uptimeStart.isNone then some check.Timestamp else a.uptimeStart }
  else if check.Status = StatusDown then
    { a with
      downCount := a.downCount + 1
      downtimeStart :=
        if a.downtimeStart.isNone then some check.Timestamp else a.downtimeStart }
  else a

/-- The second half of the loop body (`if i > 0`): `prev` is `h.Checks[i-1]`,
absent at `i = 0`. -/
def trackPeriod (prev : Option HealthCheckRecord) (check : HealthCheckRecord)
    (a : StatsAcc) : StatsAcc :=
  match prev with
  | none => a
  | some prevCheck =>
    let duration : Duration := check.Timestamp - prevCheck.Timestamp
    if prevCheck.Status = StatusUp then { a with totalUptime := a.totalUptime + duration }
    else if prevCheck.Status = StatusDown then
      { a with totalDowntime := a.totalDowntime + duration }
    else a

/-- The loop `for i, check := range h.Checks` of `GetStatistics`. -/
def statsLoop : Option HealthCheckRecord → List HealthCheckRecord → StatsAcc → StatsAcc
  | _, [], a => a
  | prev, check :: rest, a =>
    statsLoop (some check) rest (trackPeriod prev check (countCheck check a))

/-- Dereferencing a start pointer after the loop. -/
def derefStart (lv : LoopVar) (taken : Time) (final : Time) : Time :=
  match lv with
  | LoopVar.perIteration => taken
  | LoopVar.shared => final

/-- The statement after the loop that sets `currentUptime` and `currentDowntime`
(`if lastCheck.Status == StatusUp && uptimeStart != nil ... else if ...`); `now` is
the clock read by `time.Since`. -/
def currentPeriods (lv : LoopVar) (now : Time) (lastCheck : HealthCheckRecord)
    (a : StatsAcc) : Duration × Duration :=
  match (if lastCheck.Status = StatusUp then a.uptimeStart else none) with
  | some t => (now - derefStart lv t lastCheck.Timestamp, 0)
  | none =>
    match (if lastCheck.Status = StatusDown then a.downtimeStart else none) with
    | some t => (0, now - derefStart lv t lastCheck.Timestamp)
    | none => (0, 0)

/-! ## float64 arithmetic

A finite float64 is the rational number it stands for.  Every float64 operation
gives the float64 nearest to the exact result, a tie going to the even mantissa
(IEEE 754 round to nearest even, mantissa of 53 bits, exponents down to the
subnormal `2 ^ (-1074)`).  Overflow to infinity is left out: no operand below
exceeds a 64-bit integer in size. -/

/-- The integer nearest to `t`, the even one of the two at a tie. -/
def roundHalfEven (t : ℚ) : Int :=
  let f := ⌊t⌋
  if t - f < 1 / 2 then f
  else if 1 / 2 < t - f then f + 1
  else if f % 2 = 0 then f else f + 1

/-- The exponent of the unit in the last place of the float64 nearest to `x`:
52 below the exponent of `x`, and never below the subnormal `-1074`. -/
def f64Exp (x : ℚ) : Int := max (Int.log 2 |x| - 52) (-1074)

/-- The float64 nearest to the real number `x`. -/
def f64Round (x : ℚ) : ℚ := (roundHalfEven (x / 2 ^ f64Exp x) : ℚ) * 2 ^ f64Exp x

/-- The conversion `float64(n)` of an integer. -/
def f64OfInt (n : Int) : ℚ := f64Round (n : ℚ)

/-- The float64 sum `a + b`. -/
def f64Add (a b : ℚ) : ℚ := f64Round (a + b)

/-- The float64 product `a * b`. -/
def f64Mul (a b : ℚ) : ℚ := f64Round (a * b)

/-- The float64 quotient `a / b` (`b` not zero). -/
def f64Div (a b : ℚ) : ℚ := f64Round (a / b)

/-- The conversion `int64(x)` or `int(x)` of a float64: truncation toward zero. -/
def truncate (x : ℚ) : Int := if 0 ≤ x then ⌊x⌋ else ⌈x⌉

/-- The method `Duration.Seconds`:
`float64(d / Second) + float64(d % Second) / 1e9`. -/
def Seconds (d : Duration) : ℚ :=
  f64Add (f64OfInt (Int.tdiv d 1000000000))
    (f64Div (f64OfInt (Int.tmod d 1000000000)) 1000000000)

/-- The method `Duration.Hours`:
`float64(d / Hour) + float64(d % Hour) / (60 * 60 * 1e9)`. -/
def Hours (d : Duration) : ℚ :=
  f64Add (f64OfInt (Int.tdiv d 3600000000000))
    (f64Div (f64OfInt (Int.tmod d 3600000000000)) 3600000000000)

/-- The conversion `int64(d.Seconds())`. -/
def wholeSeconds (d : Duration) : Int := truncate (Seconds d)

/-- The constant `24 * time.Hour`. -/
def day : Duration := 24 * 3600 * 1000000000

/-- The method `ServiceHistory.GetStatistics`.  `now` is the clock read by
`time.Since`, `now24` the clock read by the later `time.Now()`. -/
def ServiceHistory.GetStatistics (lv : LoopVar) (now now24 : Time) (h : ServiceHistory) :
    ServiceStatistics :=
  let stats : ServiceStatistics :=
    { ServiceID := h.ServiceID, TotalChecks := h.Checks.length, UpCount := 0, DownCount := 0,
      UptimePercentage := 0, AverageResponseTime := 0, CurrentUptime := 0,
      CurrentDowntime := 0, TotalUptime := 0, TotalDowntime := 0, Last24Hours := [] }
  match h.Checks.getLast? with
  | none => stats
  | some lastCheck =>
    let a := statsLoop none h.Checks StatsAcc.zero
    let current := currentPeriods lv now lastCheck a
    { stats with
      UpCount := a.upCount
      DownCount := a.downCount
      UptimePercentage :=
        if a.upCount > 0 then
          f64Mul (f64Div (f64OfInt (a.upCount : Int)) (f64OfInt (h.Checks.length : Int))) 100
        else 0
      AverageResponseTime :=
        if a.upCount > 0 then Int.tdiv a.totalResponseTime (a.upCount : Int) else 0
      CurrentUptime := wholeSeconds current.1
      CurrentDowntime := wholeSeconds current.2
      TotalUptime := wholeSeconds a.totalUptime
      TotalDowntime := wholeSeconds a.totalDowntime
      Last24Hours := h.Checks.filter (fun check => decide (check.Timestamp > now24 - day)) }

/-! ## models/history_store.go -/

/-- The struct `HistoryStore` (its mutex left out). -/
structure HistoryStore where
  histories : GoMap ServiceHistory
  maxChecks : Int
  deriving DecidableEq, Repr

/-- The function `NewHistoryStore`. -/
def NewHistoryStore (maxChecks : Int) : HistoryStore :=
  { histories := [], maxChecks := if maxChecks = 0 then 100 else maxChecks }

/-- The method `HistoryStore.AddCheckResult`; `none` is the panic of `AddCheck`.
The log is entered into the map before `AddCheck` runs on it. -/
def HistoryStore.AddCheckResult (s : HistoryStore) (serviceID : String)
    (record : HealthCheckRecord) : Option HistoryStore :=
  let history :=
    match s.histories.get? serviceID with
    | some history => history
    | none => NewServiceHistory serviceID s.maxChecks
  match history.AddCheck record with
  | some history' => some { s with histories := s.histories.set serviceID history' }
  | none => none

/-- The method `HistoryStore.GetHistory`. -/
def HistoryStore.GetHistory (s : HistoryStore) (serviceID : String) : Option ServiceHistory :=
  s.histories.get? serviceID

/-- The method `HistoryStore.GetStatistics`. -/
def HistoryStore.GetStatistics (lv : LoopVar) (now now24 : Time) (s : HistoryStore)
    (serviceID : String) : ServiceStatistics :=
  match s.histories.get? serviceID with
  | none =>
    { ServiceID := serviceID, TotalChecks := 0, UpCount := 0, DownCount := 0,
      UptimePercentage := 0, AverageResponseTime := 0, CurrentUptime := 0,
      CurrentDowntime := 0, TotalUptime := 0, TotalDowntime := 0, Last24Hours := [] }
  | some history => history.GetStatistics lv now now24

/-! ## models/store.go -/

/-- The error values of `models/store.go`. -/
inductive StoreError where
  | ErrServiceNotFound
  | ErrServiceExists
  deriving DecidableEq, Repr

/-- The struct `ServiceStore` (its mutex left out).  `hasOnSave` says whether the
`onSave` callback is set, `saves` counts the `go s.onSave()` statements run. -/
structure ServiceStore where
  services : GoMap MonitoredService
  hasOnSave : Bool
  saves : Nat
  deriving DecidableEq, Repr

/-- The function `NewServiceStore`. -/
def NewServiceStore : ServiceStore :=
  { services := [], hasOnSave := false, saves := 0 }

/-- The method `ServiceStore.triggerSave`. -/
def ServiceStore.triggerSave (s : ServiceStore) : ServiceStore :=
  if s.hasOnSave then { s with saves := s.saves + 1 } else s

/-- The method `ServiceStore.Get`. -/
def ServiceStore.Get (s : ServiceStore) (id : String) : Except StoreError MonitoredService :=
  match s.services.get? id with
  | some service => Except.ok service
  | none => Except.error StoreError.ErrServiceNotFound

/-- The method `ServiceStore.Update`: the returned error (`none` is `nil`) and the
store afterwards. -/
def ServiceStore.Update (s : ServiceStore) (service : MonitoredService) :
    Option StoreError × ServiceStore :=
  match s.services.get? service.ID with
  | none => (some StoreError.ErrServiceNotFound, s)
  | some _ =>
    (none, ServiceStore.triggerSave { s with services := s.services.set service.ID service })

/-! ## services/monitor.go -/

/-- The Telegram calls that `UpdateServiceStatus` starts in goroutines; each
carries the `ID` field of the service it is given. -/
inductive Notification where
  | SendSSLExpiryAlert (id : String)
  | SendServiceUpAlert (id : String)
  | SendServiceDownAlert (id : String)
  deriving DecidableEq, Repr

/-- The struct `MonitorService`: the two stores it points to. -/
structure MonitorService where
  store : ServiceStore
  history : HistoryStore
  deriving DecidableEq, Repr

/-- What a call of `UpdateServiceStatus` leaves behind: the returned error
(`none` is `nil`), the stores afterwards and the notifications dispatched, in
program order. -/
structure Outcome where
  err : Option StoreError
  state : MonitorService
  sent : List Notification
  deriving DecidableEq, Repr

/-- Lines 225-250 of `UpdateServiceStatus`: the writes to the stored service up
to the SSL block, and the SSL-expiry notification if one is dispatched. -/
def applySSL (service : MonitoredService) (result : HealthCheckResult) :
    MonitoredService × List Notification :=
  let service : MonitoredService :=
    { service with
      Status := result.Status
      LastCheck := result.CheckedAt
      ResponseTime := result.ResponseTime
      ErrorMessage := result.ErrorMessage }
  if !IsZero result.SSLCertExpiry then
    let service : MonitoredService :=
      { service with
        SSLCertExpiry := result.SSLCertExpiry
        SSLCertIssuer := result.SSLCertIssuer
        SSLDaysLeft := result.SSLDaysLeft }
    if result.SSLDaysLeft ≤ 30 ∧ result.SSLDaysLeft > 0 ∧ service.SSLAlertSent = false then
      ({ service with SSLAlertSent := true }, [Notification.SendSSLExpiryAlert service.ID])
    else if result.SSLDaysLeft > 30 then
      ({ service with SSLAlertSent := false }, [])
    else (service, [])
  else (service, [])

/-- Lines 260-280 of `UpdateServiceStatus`: the last-up/last-down timestamps and
the status notification if one is dispatched. -/
def applyTransition (previousStatus : ServiceStatus) (service : MonitoredService)
    (result : HealthCheckResult) : MonitoredService × List Notification :=
  if result.Status = StatusUp then
    let service : MonitoredService := { service with LastUptime := result.CheckedAt }
    if previousStatus = StatusDown then
      (service, [Notification.SendServiceUpAlert service.ID])
    else (service, [])
  else if result.Status = StatusDown then
    let service : MonitoredService := { service with LastDowntime := result.CheckedAt }
    if previousStatus = StatusUp ∨ previousStatus = StatusUnknown then
      (service, [Notification.SendServiceDownAlert service.ID])
    else (service, [])
  else (service, [])

/-- The method `MonitorService.UpdateServiceStatus`; `none` is the panic of
`AddCheck`.  `Get` hands out the stored pointer, so every write to `service`
is a write to the map entry under `result.ServiceID`, whatever `Update` returns
afterwards. -/
def MonitorService.UpdateServiceStatus (m : MonitorService) (result : HealthCheckResult) :
    Option Outcome :=
  match m.store.Get result.ServiceID with
  | Except.error err => some { err := some err, state := m, sent := [] }
  | Except.ok service =>
    let previousStatus := service.Status
    let (service1, sslSent) := applySSL service result
    match m.history.AddCheckResult result.ServiceID
        { Timestamp := result.CheckedAt, Status := result.Status,
          ResponseTime := result.ResponseTime, ErrorMessage := result.ErrorMessage } with
    | none => none
    | some history' =>
      let (service2, statusSent) := applyTransition previousStatus service1 result
      let written : ServiceStore :=
        { m.store with services := m.store.services.set result.ServiceID service2 }
      let (err, store') := written.Update service2
      some { err := err, state := { store := store', history := history' },
             sent := sslSent ++ statusSent }

/-- Calls of `UpdateServiceStatus` one after another, as `CheckAll` makes them:
a returned error is printed and the run goes on.  The result is the final state
and, call by call, the result applied and the notifications it dispatched. -/
def applyResults (m : MonitorService) :
    List HealthCheckResult → Option (MonitorService × List (HealthCheckResult × List Notification))
  | [] => some (m, [])
  | result :: rest =>
    match m.UpdateServiceStatus result with
    | none => none
    | some out =>
      match applyResults out.state rest with
      | none => none
      | some (m', trace) => some (m', (result, out.sent) :: trace)

/-- Calls of `AddCheckResult` one after another. -/
def addCheckResults (s : HistoryStore) : List (String × HealthCheckRecord) → Option HistoryStore
  | [] => some s
  | (serviceID, record) :: rest =>
    match s.AddCheckResult serviceID record with
    | none => none
    | some s' => addCheckResults s' rest

/-! ## Predicates and reference definitions used in the statements -/

/-- Every limit of the history store is non-negative, so that no `AddCheck` on it
runs into the slice-bounds panic. -/
def HistoryStore.NonNegative (s : HistoryStore) : Prop :=
  0 ≤ s.maxChecks ∧ ∀ p ∈ s.histories, 0 ≤ p.2.MaxChecks

instance (s : HistoryStore) : Decidable s.NonNegative :=
  inferInstanceAs (Decidable (_ ∧ _))

/-- Every entry of the service store is kept under its own `ID`, as `Add` and
`Update` enter it. -/
def ServiceStore.WellKeyed (s : ServiceStore) : Prop :=
  ∀ p ∈ s.services, p.2.ID = p.1

instance (s : ServiceStore) : Decidable s.WellKeyed :=
  inferInstanceAs (Decidable (∀ p ∈ s.services, p.2.ID = p.1))

/-- The invariant of a history store with limit `L`: every log has `MaxChecks = L`
and at most `L` records. -/
def HistoryStore.Bounded (L : Int) (s : HistoryStore) : Prop :=
  s.maxChecks = L ∧ ∀ p ∈ s.histories, p.2.MaxChecks = L ∧ (p.2.Checks.length : Int) ≤ L

/-- The up records of a log, in order. -/
def upRecords (checks : List HealthCheckRecord) : List HealthCheckRecord :=
  checks.filter (fun c => decide (c.Status = StatusUp))

/-- The consecutive pairs `(c_{i-1}, c_i)` of a log, in order. -/
def consecutivePairs (checks : List HealthCheckRecord) :
    List (HealthCheckRecord × HealthCheckRecord) :=
  checks.zip checks.tail

/-- The sum, over the consecutive pairs whose earlier record has status `st`, of
the time from the earlier record to the later one. -/
def periodSum (st : ServiceStatus) (checks : List HealthCheckRecord) : Duration :=
  (((consecutivePairs checks).filter (fun p => decide (p.1.Status = st))).map
    (fun p => p.2.Timestamp - p.1.Timestamp)).sum

/-- A record of the examples, with times in seconds. -/
def sampleRecord (seconds : Int) (status : ServiceStatus) (responseTime : Int) :
    HealthCheckRecord :=
  { Timestamp := seconds * 1000000000, Status := status, ResponseTime := responseTime,
    ErrorMessage := "" }

/-- A log of the examples: up at 0 s, down at 10 s, up at 20 s, up at 25 s. -/
def sampleHistory : ServiceHistory :=
  { ServiceID := "a"
    Checks := [sampleRecord 0 StatusUp 10, sampleRecord 10 StatusDown 500,
      sampleRecord 20 StatusUp 21, sampleRecord 25 StatusUp 30]
    MaxChecks := 100 }

/-- A history store of the examples: an all-up log under "a", an all-down log
under "b", an empty log under "c". -/
def sampleHistoryStore : HistoryStore :=
  { histories :=
      [("a", { ServiceID := "a", Checks := [sampleRecord 0 StatusUp 10, sampleRecord 30 StatusUp 20],
               MaxChecks := 100 }),
       ("b", { ServiceID := "b", Checks := [sampleRecord 0 StatusDown 10], MaxChecks := 100 }),
       ("c", { ServiceID := "c", Checks := [], MaxChecks := 100 })]
    maxChecks := 100 }

/-- From the claim's words: the maximal run of consecutive records with the
status of the last record that ends at the last record. -/
def trailingRun (checks : List HealthCheckRecord) : List HealthCheckRecord :=
  match checks.getLast? with
  | none => []
  | some lastCheck =>
    (checks.reverse.takeWhile (fun c => decide (c.Status = lastCheck.Status))).reverse

/-- From the claim's words: the whole seconds from the first record of the
trailing run to `now`. -/
def sinceTrailingRun (now : Time) (checks : List HealthCheckRecord) : Int :=
  match (trailingRun checks).head? with
  | none => 0
  | some first => wholeSeconds (now - first.Timestamp)

/-- A log with the response time of every record that is not up replaced by
`g` of the record. -/
def withOtherResponseTimes (g : HealthCheckRecord → Int) (h : ServiceHistory) :
    ServiceHistory :=
  { h with
    Checks := h.Checks.map
      (fun c => if c.Status = StatusUp then c else { c with ResponseTime := g c }) }

/-- A "down" notification. -/
def Notification.isDown : Notification → Bool
  | Notification.SendServiceDownAlert _ => true
  | _ => false

/-- A "recovered" notification. -/
def Notification.isUp : Notification → Bool
  | Notification.SendServiceUpAlert _ => true
  | _ => false

/-- An SSL-expiry notification. -/
def Notification.isSSL : Notification → Bool
  | Notification.SendSSLExpiryAlert _ => true
  | _ => false

/-- The stored service after a completed call of `UpdateServiceStatus` that found
`service` under the result's ID. -/
def updatedService (service : MonitoredService) (result : HealthCheckResult) :
    MonitoredService :=
  (applyTransition service.Status (applySSL service result).1 result).1

/-- The notifications dispatched by a completed call of `UpdateServiceStatus` that
found `service` under the result's ID. -/
def dispatched (service : MonitoredService) (result : HealthCheckResult) :
    List Notification :=
  (applySSL service result).2 ++ (applyTransition service.Status (applySSL service result).1 result).2

/-- A service of the examples, not yet checked. -/
def sampleService : MonitoredService :=
  { ID := "a", Name := "site", CheckType := CheckTypeHTTP, URL := "https://example.org",
    Host := "", Port := 0, CheckInterval := 60, Timeout := 10, Status := StatusUnknown,
    LastCheck := 0, LastUptime := 0, LastDowntime := 0, ResponseTime := 0, ErrorMessage := "",
    CreatedAt := 1, SSLCertExpiry := 0, SSLCertIssuer := "", SSLDaysLeft := 0,
    SSLAlertSent := false, TelegramBotToken := "", TelegramChatID := "",
    TelegramEnabled := none }

/-- A monitor of the examples: `sampleService` stored under "a", no history yet. -/
def sampleMonitor : MonitorService :=
  { store := { services := [("a", sampleService)], hasOnSave := true, saves := 0 }
    history := NewHistoryStore 100 }

/-- A check result of the examples for service "a", without TLS info. -/
def sampleResult (status : ServiceStatus) : HealthCheckResult :=
  { ServiceID := "a", Status := status, ResponseTime := 12, ErrorMessage := "",
    CheckedAt := 5000000000, SSLCertExpiry := 0, SSLCertIssuer := "", SSLDaysLeft := 0 }

/-- A check result of the examples for service "a" that carries TLS info with
`daysLeft` days left. -/
def sampleTLSResult (daysLeft : Int) : HealthCheckResult :=
  { ServiceID := "a", Status := StatusUp, ResponseTime := 12, ErrorMessage := "",
    CheckedAt := 5000000000, SSLCertExpiry := 900000000000, SSLCertIssuer := "CA",
    SSLDaysLeft := daysLeft }

/-- The trace of calls of `UpdateServiceStatus` for one stored endpoint, one after
another: call by call the result applied and the notifications dispatched. -/
def traceFrom : MonitoredService → List HealthCheckResult →
    List (HealthCheckResult × List Notification)
  | _, [] => []
  | service, r :: rest => (r, dispatched service r) :: traceFrom (updatedService service r) rest

/-- The two kinds of status notification. -/
inductive AlertKind where
  | down
  | recovered
  deriving DecidableEq, Repr

/-- The status notifications among the notifications of a call, by kind. -/
def statusAlerts (sent : List Notification) : List AlertKind :=
  sent.filterMap (fun n =>
    match n with
    | Notification.SendServiceDownAlert _ => some AlertKind.down
    | Notification.SendServiceUpAlert _ => some AlertKind.recovered
    | Notification.SendSSLExpiryAlert _ => none)

/-- The other kind of status notification. -/
def AlertKind.flip : AlertKind → AlertKind
  | AlertKind.down => AlertKind.recovered
  | AlertKind.recovered => AlertKind.down

/-- A list of status notifications alternates, beginning with `next`. -/
def alternating : AlertKind → List AlertKind → Bool
  | _, [] => true
  | next, k :: ks => decide (k = next) && alternating next.flip ks

/-- From the claim's words: what each result of a sequence of up/down results
dispatches, `prev` being the status of the result before it (`none` before the
first): a down notification on a down result that does not follow a down
result, a recovered notification on an up result that follows a down result,
nothing otherwise. -/
def expectedAlerts : Option ServiceStatus → List ServiceStatus → List (List AlertKind)
  | _, [] => []
  | prev, st :: rest =>
    (if st = StatusDown ∧ prev ≠ some StatusDown then [AlertKind.down]
      else if st = StatusUp ∧ prev = some StatusDown then [AlertKind.recovered]
      else []) :: expectedAlerts (some st) rest

/-- The result carries TLS info. -/
def carriesTLS (r : HealthCheckResult) : Prop := IsZero r.SSLCertExpiry = false

instance (r : HealthCheckResult) : Decidable (carriesTLS r) :=
  inferInstanceAs (Decidable (IsZero r.SSLCertExpiry = false))

/-- The number of SSL-expiry notifications in a trace. -/
def sslCount (trace : List (HealthCheckResult × List Notification)) : Nat :=
  (trace.map (fun p => (p.2.filter Notification.isSSL).length)).sum

/-- The last `n` elements of a list. -/
def lastN {α : Type} (n : Nat) (l : List α) : List α := l.drop (l.length - n)


/-- The record that `UpdateServiceStatus` logs for a result (lines 253-258). -/
def checkRecord (result : HealthCheckResult) : HealthCheckRecord :=
  { Timestamp := result.CheckedAt, Status := result.Status,
    ResponseTime := result.ResponseTime, ErrorMessage := result.ErrorMessage }

/-- Every limit of the history store is at least 1. -/
def HistoryStore.Positive (s : HistoryStore) : Prop :=
  1 ≤ s.maxChecks ∧ ∀ p ∈ s.histories, 1 ≤ p.2.MaxChecks

instance (s : HistoryStore) : Decidable s.Positive :=
  inferInstanceAs (Decidable (_ ∧ _))


/-! ## models/store.go and models/history_store.go: the other operations -/

/-- The statement `delete(m, k)`. -/
def GoMap.erase {V : Type} (m : GoMap V) (k : String) : GoMap V :=
  m.filter (fun p => decide (p.1 ≠ k))

/-- The entries of the association list that are not shadowed by an earlier entry
with the same key and whose key is not in `seen`. -/
def GoMap.entriesAux {V : Type} : List String → GoMap V → List (String × V)
  | _, [] => []
  | seen, (k, v) :: m =>
    if k ∈ seen then GoMap.entriesAux seen m else (k, v) :: GoMap.entriesAux (k :: seen) m

/-- The entries that a `range` over the map visits: one per key.  (Go leaves the
order of the visit open; here it is the order of the association list.) -/
def GoMap.entries {V : Type} (m : GoMap V) : List (String × V) :=
  GoMap.entriesAux [] m

/-- The method `ServiceStore.Add`: the returned error (`none` is `nil`) and the
store afterwards. -/
def ServiceStore.Add (s : ServiceStore) (service : MonitoredService) :
    Option StoreError × ServiceStore :=
  match s.services.get? service.ID with
  | some _ => (some StoreError.ErrServiceExists, s)
  | none =>
    (none, ServiceStore.triggerSave { s with services := s.services.set service.ID service })

/-- The method `ServiceStore.Delete`: the returned error (`none` is `nil`) and the
store afterwards. -/
def ServiceStore.Delete (s : ServiceStore) (id : String) : Option StoreError × ServiceStore :=
  match s.services.get? id with
  | none => (some StoreError.ErrServiceNotFound, s)
  | some _ => (none, ServiceStore.triggerSave { s with services := s.services.erase id })

/-- The comparison handed to `sort.Slice` in `GetAll`:
`services[i].CreatedAt.After(services[j].CreatedAt)`. -/
def createdAfter (a b : MonitoredService) : Prop := a.CreatedAt > b.CreatedAt

instance : DecidableRel createdAfter :=
  fun a b => inferInstanceAs (Decidable (a.CreatedAt > b.CreatedAt))

/-- The order that `sort.Slice` leaves behind for the comparison `createdAfter`:
`a` may stand before `b` when `b` does not have to come before `a`. -/
def mayPrecede (a b : MonitoredService) : Prop := ¬ createdAfter b a

instance : DecidableRel mayPrecede :=
  fun a b => inferInstanceAs (Decidable (¬ createdAfter b a))

/-- The method `ServiceStore.GetAll`.  `sort.Slice` belongs to the standard
library; it is stood in for by insertion sort.  Which of the orderings allowed
by the comparison Go returns for entries created at the same instant is open
(map iteration order, unstable sort). -/
def ServiceStore.GetAll (s : ServiceStore) : List MonitoredService :=
  List.insertionSort mayPrecede ((GoMap.entries s.services).map (fun p => p.2))

/-- The method `HistoryStore.DeleteHistory`. -/
def HistoryStore.DeleteHistory (s : HistoryStore) (serviceID : String) : HistoryStore :=
  { s with histories := s.histories.erase serviceID }

/-! ## services/monitor.go: the checks -/

/-- What `client.Get(service.URL)` returns: an error, or a response with its
status code. -/
inductive HTTPReply where
  | failed (err : String)
  | response (statusCode : Int)
  deriving DecidableEq, Repr

/-- How far `checkUDPPort` gets: the step that fails with its error text, or a
reply read.  For a failed read, `timeout` says whether the error is a
`net.Error` whose `Timeout()` is true. -/
inductive UDPReply where
  | resolveFailed (err : String)
  | dialFailed (err : String)
  | writeFailed (err : String)
  | readFailed (err : String) (timeout : Bool)
  | replied
  deriving DecidableEq, Repr

/-- What the network and the clock answer during one check: the milliseconds
measured by `time.Since(start).Milliseconds()`, the answers to the HTTP, TCP
(`none` is a connection) and UDP probes, the `NotAfter` and issuer of the peer's
first certificate (`none` when the URL does not parse, the TLS dial fails or no
certificate is presented), and the clock read by `time.Until`. -/
structure Probe where
  elapsed : Int
  http : HTTPReply
  tcp : Option String
  udp : UDPReply
  cert : Option (Time × String)
  certNow : Time
  deriving DecidableEq, Repr

/-- The duration that `Time.Sub` returns for the exact difference `d` of two
times: the difference kept inside the range of an `int64` count of
nanoseconds. -/
def saturate (d : Int) : Duration := max (-9223372036854775808) (min d 9223372036854775807)

/-- The function `time.Until` at the clock reading `now`: `t.Sub(time.Now())`. -/
def Until (now t : Time) : Duration := saturate (t - now)

/-- The method `checkSSLCertificate`. -/
def checkSSLCertificate (probe : Probe) (result : HealthCheckResult) : HealthCheckResult :=
  match probe.cert with
  | none => result
  | some (notAfter, issuer) =>
    { result with
      SSLCertExpiry := notAfter
      SSLCertIssuer := issuer
      SSLDaysLeft := truncate (f64Div (Hours (Until probe.certNow notAfter)) 24) }

/-- The method `checkHTTP` (the timeout only shapes the request). -/
def checkHTTP (service : MonitoredService) (result : HealthCheckResult) (probe : Probe) :
    HealthCheckResult :=
  let result : HealthCheckResult := { result with ResponseTime := probe.elapsed }
  match probe.http with
  | HTTPReply.failed err => { result with Status := StatusDown, ErrorMessage := err }
  | HTTPReply.response statusCode =>
    let result : HealthCheckResult :=
      if statusCode ≥ 200 ∧ statusCode < 400 then { result with Status := StatusUp }
      else
        { result with
          Status := StatusDown
          ErrorMessage := "HTTP status code: " ++ toString statusCode }
    if "https://".isPrefixOf service.URL.toLower then checkSSLCertificate probe result
    else result

/-- The method `checkTCPPort`. -/
def checkTCPPort (result : HealthCheckResult) (probe : Probe) : HealthCheckResult :=
  let result : HealthCheckResult := { result with ResponseTime := probe.elapsed }
  match probe.tcp with
  | some err =>
    { result with Status := StatusDown, ErrorMessage := "TCP connection failed: " ++ err }
  | none => { result with Status := StatusUp }

/-- The method `checkUDPPort`. -/
def checkUDPPort (result : HealthCheckResult) (probe : Probe) : HealthCheckResult :=
  match probe.udp with
  | UDPReply.resolveFailed err =>
    { result with
      Status := StatusDown
      ErrorMessage := "UDP address resolution failed: " ++ err }
  | UDPReply.dialFailed err =>
    { result with
      ResponseTime := probe.elapsed
      Status := StatusDown
      ErrorMessage := "UDP connection failed: " ++ err }
  | UDPReply.writeFailed err =>
    { result with
      ResponseTime := probe.elapsed
      Status := StatusDown
      ErrorMessage := "UDP write failed: " ++ err }
  | UDPReply.readFailed err timeout =>
    if timeout then
      { result with
        ResponseTime := probe.elapsed
        Status := StatusUp
        ErrorMessage := "UDP port is open (no response received, which is normal)" }
    else
      { result with
        ResponseTime := probe.elapsed
        Status := StatusDown
        ErrorMessage := "UDP check failed: " ++ err }
  | UDPReply.replied => { result with ResponseTime := probe.elapsed, Status := StatusUp }

/-- The method `MonitorService.CheckService`; `now` is the clock read for
`CheckedAt`. -/
def CheckService (service : MonitoredService) (now : Time) (probe : Probe) :
    HealthCheckResult :=
  let result : HealthCheckResult :=
    { ServiceID := service.ID, Status := "", ResponseTime := 0, ErrorMessage := "",
      CheckedAt := now, SSLCertExpiry := 0, SSLCertIssuer := "", SSLDaysLeft := 0 }
  let checkType := if service.CheckType = "" then CheckTypeHTTP else service.CheckType
  if checkType = CheckTypeTCP then checkTCPPort result probe
  else if checkType = CheckTypeUDP then checkUDPPort result probe
  else checkHTTP service result probe


/-! ## handlers/service_handler.go -/

/-- What a handler leaves behind: the HTTP status code, the service in the JSON
body (if the body is a service), the stores afterwards and the notifications
dispatched. -/
structure HandlerResult where
  code : Nat
  body : Option MonitoredService
  state : MonitorService
  sent : List Notification
  deriving DecidableEq, Repr

/-- Lines 38-49 of `CreateService`: the defaults set on the bound request; `id`
is the fresh UUID, `now` the clock. -/
def createDefaults (req : MonitoredService) (id : String) (now : Time) : MonitoredService :=
  let req : MonitoredService := { req with ID := id, Status := StatusUnknown, CreatedAt := now }
  let req : MonitoredService :=
    if req.CheckInterval = 0 then { req with CheckInterval := 60 } else req
  if req.Timeout = 0 then { req with Timeout := 10 } else req

/-- The handler `CreateService`.  `bound` is what `c.ShouldBindJSON(&req)` yields
(`none` when binding fails), `id` the fresh UUID, `now` the clock read for
`CreatedAt`, `checkedAt` and `probe` the clock and the network of the first
check; `none` is the panic of `AddCheck`. -/
def ServiceHandler.CreateService (st : MonitorService) (bound : Option MonitoredService)
    (id : String) (now checkedAt : Time) (probe : Probe) : Option HandlerResult :=
  match bound with
  | none => some { code := 400, body := none, state := st, sent := [] }
  | some req =>
    let req := createDefaults req id now
    match st.store.Add req with
    | (some _, _) => some { code := 500, body := none, state := st, sent := [] }
    | (none, store') =>
      let result := CheckService req checkedAt probe
      match MonitorService.UpdateServiceStatus { st with store := store' } result with
      | none => none
      | some out =>
        match out.err with
        | some _ => some { code := 500, body := none, state := out.state, sent := out.sent }
        | none =>
          some { code := 201, body := out.state.store.services.get? req.ID,
                 state := out.state, sent := out.sent }

/-- The handler `UpdateService`; `bound` is what `c.ShouldBindJSON(&req)` yields
(`none` when binding fails). -/
def ServiceHandler.UpdateService (st : MonitorService) (id : String)
    (bound : Option MonitoredService) : HandlerResult :=
  match st.store.Get id with
  | Except.error _ => { code := 404, body := none, state := st, sent := [] }
  | Except.ok existing =>
    match bound with
    | none => { code := 400, body := none, state := st, sent := [] }
    | some req =>
      let req : MonitoredService :=
        { req with
          ID := existing.ID
          CreatedAt := existing.CreatedAt
          Status := existing.Status
          LastCheck := existing.LastCheck }
      match st.store.Update req with
      | (some _, _) => { code := 500, body := none, state := st, sent := [] }
      | (none, store') =>
        { code := 200, body := some req, state := { st with store := store' }, sent := [] }

/-- The handler `DeleteService`. -/
def ServiceHandler.DeleteService (st : MonitorService) (id : String) : HandlerResult :=
  match st.store.Delete id with
  | (some _, _) => { code := 404, body := none, state := st, sent := [] }
  | (none, store') =>
    { code := 200, body := none,
      state := { store := store', history := st.history.DeleteHistory id }, sent := [] }

/-- The handler `GetService`. -/
def ServiceHandler.GetService (st : MonitorService) (id : String) : HandlerResult :=
  match st.store.Get id with
  | Except.error _ => { code := 404, body := none, state := st, sent := [] }
  | Except.ok service => { code := 200, body := some service, state := st, sent := [] }

/-- The handler `GetServiceHistory`: the HTTP status code and the history in the
body. -/
def ServiceHandler.GetServiceHistory (st : MonitorService) (id : String) :
    Nat × Option ServiceHistory :=
  match st.store.Get id with
  | Except.error _ => (404, none)
  | Except.ok _ =>
    match st.history.GetHistory id with
    | none => (200, some { ServiceID := id, Checks := [], MaxChecks := 0 })
    | some history => (200, some history)

/-- A request body of the examples. -/
def sampleRequest : MonitoredService :=
  { ID := "chosen", Name := "new site", CheckType := CheckTypeHTTP,
    URL := "http://example.org", Host := "", Port := 0, CheckInterval := 0, Timeout := 25,
    Status := StatusUp, LastCheck := 77, LastUptime := 0, LastDowntime := 0, ResponseTime := 0,
    ErrorMessage := "", CreatedAt := 99, SSLCertExpiry := 0, SSLCertIssuer := "",
    SSLDaysLeft := 0, SSLAlertSent := false, TelegramBotToken := "", TelegramChatID := "",
    TelegramEnabled := none }


/-- A probe of the examples: an HTTP response with status code 200 after 12 ms. -/
def sampleProbe : Probe :=
  { elapsed := 12, http := HTTPReply.response 200, tcp := none, udp := UDPReply.replied,
    cert := none, certNow := 0 }


/-! ## models/alerts.go, models/system.go and services/system.go -/

/-- The struct `SystemAlertConfig`. -/
structure SystemAlertConfig where
  DiskSpaceThreshold : ℚ
  CPUThreshold : ℚ
  MemoryThreshold : ℚ
  Enabled : Bool
  deriving DecidableEq

/-- The struct `AlertState`. -/
structure AlertState where
  DiskAlertSent : Bool
  CPUAlertSent : Bool
  MemoryAlertSent : Bool
  deriving DecidableEq, Repr

/-- The struct `CPUInfo`. -/
structure CPUInfo where
  Cores : Int
  UsagePercent : ℚ
  deriving DecidableEq

/-- The struct `MemoryInfo`. -/
structure MemoryInfo where
  Total : Nat
  Used : Nat
  Available : Nat
  UsedPercent : ℚ
  deriving DecidableEq

/-- The struct `DiskInfo`. -/
structure DiskInfo where
  Device : String
  Mountpoint : String
  Total : Nat
  Used : Nat
  Free : Nat
  UsedPercent : ℚ
  deriving DecidableEq

/-- The struct `SystemInfo`. -/
structure SystemInfo where
  Hostname : String
  Platform : String
  OS : String
  Uptime : Nat
  CPUInfo : CPUInfo
  MemoryInfo : MemoryInfo
  DiskInfo : List DiskInfo
  deriving DecidableEq

/-- A dispatched `go s.telegram.SendSystemAlert(alertType, device, currentValue,
threshold)`. -/
structure SystemAlertCall where
  alertType : String
  device : String
  currentValue : ℚ
  threshold : ℚ
  deriving DecidableEq

/-- The body of the disk loop of `checkResourceAlerts`, on the alert state and the
alerts dispatched so far. -/
def checkDisk (config : SystemAlertConfig) (acc : AlertState × List SystemAlertCall)
    (diskInfo : DiskInfo) : AlertState × List SystemAlertCall :=
  if diskInfo.Mountpoint = "/" ∨ diskInfo.Mountpoint = "/home" then
    if diskInfo.UsedPercent > config.DiskSpaceThreshold ∧ acc.1.DiskAlertSent = false then
      ({ acc.1 with DiskAlertSent := true },
        acc.2 ++ [{ alertType := "disk", device := diskInfo.Mountpoint,
                    currentValue := diskInfo.UsedPercent,
                    threshold := config.DiskSpaceThreshold }])
    else if diskInfo.UsedPercent ≤ config.DiskSpaceThreshold ∧ acc.1.DiskAlertSent = true then
      ({ acc.1 with DiskAlertSent := false }, acc.2)
    else acc
  else acc

/-- The CPU block of `checkResourceAlerts` (lines 123-129). -/
def checkCPU (config : SystemAlertConfig) (acc : AlertState × List SystemAlertCall)
    (info : SystemInfo) : AlertState × List SystemAlertCall :=
  if info.CPUInfo.UsagePercent > config.CPUThreshold ∧ acc.1.CPUAlertSent = false then
    ({ acc.1 with CPUAlertSent := true },
      acc.2 ++ [{ alertType := "cpu", device := "", currentValue := info.CPUInfo.UsagePercent,
                  threshold := config.CPUThreshold }])
  else if info.CPUInfo.UsagePercent ≤ config.CPUThreshold ∧ acc.1.CPUAlertSent = true then
    ({ acc.1 with CPUAlertSent := false }, acc.2)
  else acc

/-- The memory block of `checkResourceAlerts` (lines 131-137). -/
def checkMemory (config : SystemAlertConfig) (acc : AlertState × List SystemAlertCall)
    (info : SystemInfo) : AlertState × List SystemAlertCall :=
  if info.MemoryInfo.UsedPercent > config.MemoryThreshold ∧ acc.1.MemoryAlertSent = false then
    ({ acc.1 with MemoryAlertSent := true },
      acc.2 ++ [{ alertType := "memory", device := "",
                  currentValue := info.MemoryInfo.UsedPercent,
                  threshold := config.MemoryThreshold }])
  else if info.MemoryInfo.UsedPercent ≤ config.MemoryThreshold ∧
      acc.1.MemoryAlertSent = true then
    ({ acc.1 with MemoryAlertSent := false }, acc.2)
  else acc

/-- The method `SystemService.checkResourceAlerts`: the alert state afterwards and
the alerts dispatched, in program order. -/
def checkResourceAlerts (config : SystemAlertConfig) (state : AlertState) (info : SystemInfo) :
    AlertState × List SystemAlertCall :=
  checkMemory config (checkCPU config (info.DiskInfo.foldl (checkDisk config) (state, [])) info)
    info

/-- Calls of `checkResourceAlerts` one after another under one configuration:
snapshot by snapshot, the alert state before, the alerts dispatched and the
alert state after. -/
def resourceTrace (config : SystemAlertConfig) :
    AlertState → List SystemInfo → List (AlertState × List SystemAlertCall × AlertState)
  | _, [] => []
  | state, info :: rest =>
    (state, (checkResourceAlerts config state info).2,
      (checkResourceAlerts config state info).1) ::
      resourceTrace config (checkResourceAlerts config state info).1 rest

/-- The cpu alerts among the alerts of a call. -/
def cpuAlerts (sent : List SystemAlertCall) : List SystemAlertCall :=
  sent.filter (fun a => decide (a.alertType = "cpu"))

/-- From the claim's words: the cpu alerts of a sequence of CPU usages against the
threshold `t`, `flag` being the cpu flag before the first: an alert on a usage
above `t` met with the flag clear, and after each usage the flag says whether
the usage is above `t`. -/
def expectedCPUAlerts (t : ℚ) : Bool → List ℚ → List (List SystemAlertCall)
  | _, [] => []
  | flag, usage :: rest =>
    (if usage > t ∧ flag = false then
        [{ alertType := "cpu", device := "", currentValue := usage, threshold := t }]
      else []) :: expectedCPUAlerts t (decide (usage > t)) rest

/-- A snapshot of the examples with the given CPU usage. -/
def sampleSnapshot (cpu : ℚ) : SystemInfo :=
  { Hostname := "host", Platform := "linux", OS := "linux", Uptime := 1000,
    CPUInfo := { Cores := 4, UsagePercent := cpu },
    MemoryInfo := { Total := 100, Used := 50, Available := 50, UsedPercent := 50 },
    DiskInfo := [{ Device := "sda1", Mountpoint := "/", Total := 100, Used := 95, Free := 5,
                   UsedPercent := 95 }] }

/-- The alert configuration that `NewSystemService` starts with. -/
def defaultAlertConfig : SystemAlertConfig :=
  { DiskSpaceThreshold := 80, CPUThreshold := 90, MemoryThreshold := 90, Enabled := true }


/-- The disk alerts among the alerts of a call. -/
def diskAlerts (sent : List SystemAlertCall) : List SystemAlertCall :=
  sent.filter (fun a => decide (a.alertType = "disk"))

/-- The mount points that `checkResourceAlerts` looks at. -/
def alertableMount (d : DiskInfo) : Bool :=
  decide (d.Mountpoint = "/" ∨ d.Mountpoint = "/home")

/-- A snapshot of the examples: "/" at 95 % and "/home" at 10 %. -/
def twoMountSnapshot : SystemInfo :=
  { Hostname := "host", Platform := "linux", OS := "linux", Uptime := 1000,
    CPUInfo := { Cores := 4, UsagePercent := 10 },
    MemoryInfo := { Total := 100, Used := 50, Available := 50, UsedPercent := 50 },
    DiskInfo :=
      [{ Device := "sda1", Mountpoint := "/", Total := 100, Used := 95, Free := 5,
         UsedPercent := 95 },
       { Device := "sda2", Mountpoint := "/home", Total := 100, Used := 10, Free := 90,
         UsedPercent := 10 }] }


/-- The method `HistoryStore.LoadFromMap`; `none` is a nil map. -/
def HistoryStore.LoadFromMap (s : HistoryStore) (histories : Option (GoMap ServiceHistory)) :
    HistoryStore :=
  match histories with
  | some loaded => { s with histories := loaded }
  | none => s

/-- The down records of a log, in order. -/
def downRecords (checks : List HealthCheckRecord) : List HealthCheckRecord :=
  checks.filter (fun c => decide (c.Status = StatusDown))

/-- The sum, over the consecutive pairs whose earlier record is neither up nor
down, of the time from the earlier record to the later one. -/
def otherPeriodSum (checks : List HealthCheckRecord) : Duration :=
  (((consecutivePairs checks).filter
      (fun p => decide (¬ p.1.Status = StatusUp ∧ ¬ p.1.Status = StatusDown))).map
    (fun p => p.2.Timestamp - p.1.Timestamp)).sum


/-- The request that `UpdateService` stores: the bound body with the four
preserved fields put back (lines 104-108). -/
def preserveFields (existing req : MonitoredService) : MonitoredService :=
  { req with
    ID := existing.ID
    CreatedAt := existing.CreatedAt
    Status := existing.Status
    LastCheck := existing.LastCheck }


/-- A monitor of the examples whose endpoint "a" has had its SSL alert sent. -/
def flaggedMonitor : MonitorService :=
  { store := { services := [("a", { sampleService with SSLAlertSent := true })],
               hasOnSave := true, saves := 0 }
    history := NewHistoryStore 100 }


/-! ## services/telegram.go -/

/-- A Go string where its bytes matter: the list of its bytes, each a natural
number below 256. -/
abbrev GoString := List Nat

/-- The bytes (UTF-8) of a text. -/
def utf8 (s : String) : GoString :=
  s.toList.flatMap (fun c => (String.utf8EncodeChar c).map (fun b => b.toNat))

/-- The conversion `string(b)` of a byte `b`: the UTF-8 encoding of the code point
`b`, one byte below 128 and two bytes from 128 on. -/
def byteToString (b : Nat) : GoString :=
  if b < 128 then [b] else [192 + b / 64, 128 + b % 64]

/-- The loop of `replaceAll` on what is left of `s` from the index `i` on, for a
non-empty `old`; `skip` counts the bytes that `i += len(old) - 1` steps over. -/
def replaceAllLoop (old new : GoString) : Nat → GoString → GoString
  | _, [] => []
  | skip + 1, _ :: rest => replaceAllLoop old new skip rest
  | 0, b :: rest =>
    if old <+: b :: rest then new ++ replaceAllLoop old new (old.length - 1) rest
    else byteToString b ++ replaceAllLoop old new 0 rest

/-- The function `replaceAll`.  With an empty `old` and a non-empty `s` the loop
never moves on (`i += len(old) - 1` undoes `i++`): that is `none`. -/
def replaceAll (s old new : GoString) : Option GoString :=
  if old = [] then (if s = [] then some [] else none)
  else some (replaceAllLoop old new 0 s)

/-- The 18 characters of the table of `escapeMarkdown`, in its order:
underscore, asterisk, square brackets, parentheses, tilde, backquote, greater
than, hash, plus, minus, equals, bar, braces, dot, exclamation mark. -/
def reservedBytes : List Nat :=
  [95, 42, 91, 93, 40, 41, 126, 96, 62, 35, 43, 45, 61, 124, 123, 125, 46, 33]

/-- The table `replacer` of `escapeMarkdown` as pairs: each character and the
character after a backslash (byte 92). -/
def replacer : List (GoString × GoString) :=
  reservedBytes.map (fun b => ([b], [92, b]))

/-- The function `escapeMarkdown`. -/
def escapeMarkdown (text : GoString) : Option GoString :=
  replacer.foldlM (fun result p => replaceAll result p.1 p.2) text

/-- The function `maskToken`; "***" is `[42, 42, 42]` and "..." is
`[46, 46, 46]`. -/
def maskToken (token : GoString) : GoString :=
  if token = [] then []
  else if token.length < 10 then [42, 42, 42]
  else token.take 5 ++ [46, 46, 46] ++ token.drop (token.length - 5)

/-- The struct `TelegramConfig`. -/
structure TelegramConfig where
  BotToken : String
  ChatID : String
  Enabled : Bool
  deriving DecidableEq, Repr

/-- The copy that `GetConfig` returns: its token is the masked byte string. -/
structure MaskedConfig where
  BotToken : GoString
  ChatID : String
  Enabled : Bool
  deriving DecidableEq, Repr

/-- The method `TelegramService.GetConfig`. -/
def GetConfig (config : TelegramConfig) : MaskedConfig :=
  { BotToken := maskToken (utf8 config.BotToken), ChatID := config.ChatID,
    Enabled := config.Enabled }

/-- The method `TelegramService.getEffectiveConfig`. -/
def getEffectiveConfig (config : TelegramConfig) (service : MonitoredService) :
    String × String × Bool :=
  let botToken :=
    if service.TelegramBotToken ≠ "" then service.TelegramBotToken else config.BotToken
  let chatID := if service.TelegramChatID ≠ "" then service.TelegramChatID else config.ChatID
  let enabled :=
    match service.TelegramEnabled with
    | some value => value
    | none => config.Enabled
  (botToken, chatID, enabled)

/-- The method `TelegramService.isEnabledForService`. -/
def isEnabledForService (config : TelegramConfig) (service : MonitoredService) : Bool :=
  (getEffectiveConfig config service).2.2 &&
    decide ((getEffectiveConfig config service).1 ≠ "") &&
    decide ((getEffectiveConfig config service).2.1 ≠ "")

/-- A request posted to the Telegram API. -/
structure TelegramPost where
  url : String
  chatID : String
  text : GoString
  deriving DecidableEq, Repr

/-- What `http.Post` returns: an error, or a response with its status code. -/
inductive PostReply where
  | failed (err : String)
  | status (code : Int)
  deriving DecidableEq, Repr

/-- What a send operation leaves behind: the request posted, if any, and the
returned error (`none` is `nil`). -/
structure SendResult where
  posted : Option TelegramPost
  err : Option String
  deriving DecidableEq, Repr

/-- The method `sendMessageWithConfig`. -/
def sendMessageWithConfig (message : GoString) (botToken chatID : String)
    (reply : PostReply) : SendResult :=
  { posted := some
      { url := "https://api.telegram.org/bot" ++ botToken ++ "/sendMessage",
        chatID := chatID, text := message }
    err :=
      match reply with
      | PostReply.failed err => some ("failed to send message: " ++ err)
      | PostReply.status code =>
        if code ≠ 200 then some ("telegram API returned status code: " ++ toString code)
        else none }

/-- The message of `SendServiceDownAlert`; `timeText` is the text of
`service.LastCheck.Format("2006-01-02 15:04:05")`. -/
def downAlertMessage (service : MonitoredService) (timeText : String) : Option GoString :=
  match escapeMarkdown (utf8 service.Name), escapeMarkdown (utf8 service.URL),
      escapeMarkdown (utf8 service.ErrorMessage) with
  | some name, some url, some errorText =>
    some (utf8 "🔴 *Service Down Alert*\n\n*Service:* " ++ name ++ utf8 "\n*URL:* " ++ url ++
      utf8 "\n*Status:* DOWN\n*Error:* " ++ errorText ++ utf8 "\n*Time:* " ++ utf8 timeText)
  | _, _, _ => none

/-- The method `SendServiceDownAlert`; `none` would be an `escapeMarkdown` that
does not return. -/
def SendServiceDownAlert (config : TelegramConfig) (service : MonitoredService)
    (timeText : String) (reply : PostReply) : Option SendResult :=
  if !isEnabledForService config service then some { posted := none, err := none }
  else
    match downAlertMessage service timeText with
    | none => none
    | some message =>
      some (sendMessageWithConfig message (getEffectiveConfig config service).1
        (getEffectiveConfig config service).2.1 reply)

/-- A Telegram configuration of the examples. -/
def sampleTelegramConfig : TelegramConfig :=
  { BotToken := "123456:ABCDEF", ChatID := "42", Enabled := true }


/-- Every byte of the string is a byte of a multi-byte UTF-8 sequence (128 to
255). -/
def highBytes (s : GoString) : Prop := ∀ b ∈ s, 128 ≤ b ∧ b < 256

instance (s : GoString) : Decidable (highBytes s) :=
  inferInstanceAs (Decidable (∀ b ∈ s, 128 ≤ b ∧ b < 256))


/-! ## UpdateServiceStatus in two steps -/

/-- Lines 227-283 of `UpdateServiceStatus`: the rest of the call once the pointer
and `previousStatus` have been read (lines 219-225).  `service` is what the
pointer holds when the rest runs, `m` the stores at that moment.  No lock is
held between the two parts. -/
def finishUpdate (previousStatus : ServiceStatus) (service : MonitoredService)
    (m : MonitorService) (result : HealthCheckResult) : Option Outcome :=
  let (service1, sslSent) := applySSL service result
  match m.history.AddCheckResult result.ServiceID
      { Timestamp := result.CheckedAt, Status := result.Status,
        ResponseTime := result.ResponseTime, ErrorMessage := result.ErrorMessage } with
  | none => none
  | some history' =>
    let (service2, statusSent) := applyTransition previousStatus service1 result
    let written : ServiceStore :=
      { m.store with services := m.store.services.set result.ServiceID service2 }
    let (err, store') := written.Update service2
    some { err := err, state := { store := store', history := history' },
           sent := sslSent ++ statusSent }

/-- One schedule of two concurrent calls of `UpdateServiceStatus` for results `rA`
and `rB`: call A looks the endpoint up and reads `previousStatus` (lines
219-225), then call B runs from start to end, then call A runs its remaining
lines on the endpoint as B left it.  The outcome of B and the outcome of A;
`none` when a lookup fails or `AddCheck` panics. -/
def interleavedUpdates (m : MonitorService) (rA rB : HealthCheckResult) :
    Option (Outcome × Outcome) :=
  match m.store.Get rA.ServiceID with
  | Except.error _ => none
  | Except.ok pointed =>
    let previousStatusA := pointed.Status
    match m.UpdateServiceStatus rB with
    | none => none
    | some outB =>
      match outB.state.store.Get rA.ServiceID with
      | Except.error _ => none
      | Except.ok current =>
        match finishUpdate previousStatusA current outB.state rA with
        | none => none
        | some outA => some (outB, outA)

/-- A monitor of the examples whose endpoint "a" is up. -/
def upMonitor : MonitorService :=
  { store := { services := [("a", { sampleService with Status := StatusUp })],
               hasOnSave := true, saves := 0 }
    history := NewHistoryStore 100 }


/-! ## agent/metrics_cpu.go -/

/-- The counters of `cpuStats`, each a uint64. -/
structure cpuStats where
  user : Nat
  system : Nat
  idle : Nat
  total : Nat
  deriving DecidableEq, Repr

/-- The `strings.Split(s, "\n")` of the text `s`: the pieces between line feeds,
never an empty slice. -/
def splitLines : List Char → List (List Char)
  | [] => [[]]
  | c :: rest =>
    if c.toNat = 10 then [] :: splitLines rest
    else
      match splitLines rest with
      | [] => [[c]]
      | l :: ls => (c :: l) :: ls

/-- The white space of `unicode.IsSpace`. -/
def isSpace (c : Char) : Bool :=
  let n := c.toNat
  (9 ≤ n && n ≤ 13) || n == 32 || n == 133 || n == 160 || n == 5760 ||
    (8192 ≤ n && n ≤ 8202) || n == 8232 || n == 8233 || n == 8239 || n == 8287 ||
    n == 12288

/-- The `strings.Fields` of a text: the maximal runs of characters that are not
white space, in order. -/
def strFields : List Char → List (List Char)
  | [] => []
  | [c] => if isSpace c then [] else [[c]]
  | c :: d :: rest =>
    if isSpace c then strFields (d :: rest)
    else if isSpace d then [c] :: strFields (d :: rest)
    else
      match strFields (d :: rest) with
      | [] => [[c]]
      | w :: ws => (c :: w) :: ws

/-- The value of `strconv.ParseUint(s, 10, 64)`, its error dropped: 0 for the
empty text and for a text with a character that is no decimal digit, the
largest uint64 for a number out of range. -/
def parseUint (s : List Char) : Nat :=
  if s = [] then 0
  else if s.all (fun c => 48 ≤ c.toNat && c.toNat ≤ 57) then
    min (s.foldl (fun acc c => 10 * acc + (c.toNat - 48)) 0) (2 ^ 64 - 1)
  else 0

/-- The function `readCPUStats` on the answer of `os.ReadFile("/proc/stat")`
(`none` for an error, else the content as text).  The outer `none` is the
run-time panic of an index out of range, `some none` is the nil pointer. -/
def readCPUStats (file : Option String) : Option (Option cpuStats) :=
  match file with
  | none => some (some { user := 0, system := 0, idle := 0, total := 1 })
  | some data =>
    match splitLines data.toList with
    | [] => some none
    | line :: _ =>
      let fields := strFields line
      if fields.length < 5 ∨ fields[0]? ≠ some "cpu".toList then some none
      else do
        let user := parseUint (← fields[1]?)
        let nice := parseUint (← fields[2]?)
        let system := parseUint (← fields[3]?)
        let idle := parseUint (← fields[4]?)
        let iowait := parseUint (← fields[5]?)
        let total := (user + nice + system + idle + iowait) % 2 ^ 64
        let total ←
          if fields.length > 6 then do
            let irq := parseUint (← fields[6]?)
            pure ((total + irq) % 2 ^ 64)
          else pure total
        let total ←
          if fields.length > 7 then do
            let softirq := parseUint (← fields[7]?)
            pure ((total + softirq) % 2 ^ 64)
          else pure total
        pure (some { user := user, system := system, idle := idle, total := total })


/-- A log of the examples: 7 up records and 93 down records. -/
def sevenOfHundred : ServiceHistory :=
  { ServiceID := "a"
    Checks := List.replicate 7 (sampleRecord 0 StatusUp 10) ++
      List.replicate 93 (sampleRecord 0 StatusDown 10)
    MaxChecks := 100 }

/-- A log of the examples: two up records 16777216.999999999 s apart. -/
def longGapHistory : ServiceHistory :=
  { ServiceID := "a"
    Checks := [{ Timestamp := 0, Status := StatusUp, ResponseTime := 10, ErrorMessage := "" },
      { Timestamp := 16777216999999999, Status := StatusUp, ResponseTime := 10,
        ErrorMessage := "" }]
    MaxChecks := 100 }

end Monitoring

namespace Monitoring

/-! ## float64 arithmetic -/

theorem rhe_abs (t : ℚ) : |(roundHalfEven t : ℚ) - t| ≤ 1 / 2 := by
  unfold roundHalfEven
  have h1 := Int.floor_le t
  have h2 := Int.lt_floor_add_one t
  simp only []
  split_ifs <;> push_cast <;> rw [abs_le] <;> constructor <;> linarith

theorem rhe_intCast (n : Int) : roundHalfEven (n : ℚ) = n := by
  unfold roundHalfEven
  simp

theorem rhe_floor_le (t : ℚ) : ⌊t⌋ ≤ roundHalfEven t := by
  unfold roundHalfEven
  simp only []
  split_ifs <;> omega

theorem rhe_le_floor_succ (t : ℚ) : roundHalfEven t ≤ ⌊t⌋ + 1 := by
  unfold roundHalfEven
  simp only []
  split_ifs <;> omega

theorem rhe_ge (n : Int) (t : ℚ) (h : (n : ℚ) ≤ t) : n ≤ roundHalfEven t :=
  le_trans (Int.le_floor.mpr h) (rhe_floor_le t)

theorem rhe_le (n : Int) (t : ℚ) (h : t ≤ (n : ℚ)) : roundHalfEven t ≤ n := by
  rcases eq_or_lt_of_le h with h | h
  · rw [h, rhe_intCast]
  · have : ⌊t⌋ < n := Int.floor_lt.mpr h
    have := rhe_le_floor_succ t
    omega

theorem rhe_eq_of_abs_lt (t : ℚ) (m : Int) (h : |t - m| < 1 / 2) : roundHalfEven t = m := by
  have h1 := rhe_abs t
  rw [abs_lt] at h
  rw [abs_le] at h1
  have h3 : ((roundHalfEven t : ℚ)) - m < 1 := by linarith
  have h4 : (m : ℚ) - roundHalfEven t < 1 := by linarith
  have h5 : roundHalfEven t - m < 1 := by exact_mod_cast h3
  have h6 : m - roundHalfEven t < 1 := by exact_mod_cast h4
  omega

theorem rhe_neg (t : ℚ) : roundHalfEven (-t) = -roundHalfEven t := by
  by_cases hint : (⌊t⌋ : ℚ) = t
  · rw [← hint, ← Int.cast_neg, rhe_intCast, rhe_intCast]
  · have hlt : (⌊t⌋ : ℚ) < t := lt_of_le_of_ne (Int.floor_le t) hint
    have h2 := Int.lt_floor_add_one t
    have hfl : ⌊-t⌋ = -⌊t⌋ - 1 := by
      rw [Int.floor_eq_iff]
      push_cast
      constructor <;> linarith
    unfold roundHalfEven
    simp only [hfl]
    push_cast
    split_ifs <;> first | omega | (exfalso; linarith)

theorem two_zpow_pos (e : Int) : (0 : ℚ) < 2 ^ e := zpow_pos (by norm_num) e

theorem f64Round_mul_inv (x : ℚ) :
    f64Round x / 2 ^ f64Exp x = (roundHalfEven (x / 2 ^ f64Exp x) : ℚ) := by
  unfold f64Round
  rw [mul_div_assoc, div_self (ne_of_gt (two_zpow_pos _)), mul_one]

/-- The error of one rounding is at most half a unit in the last place. -/
theorem f64Round_err (x : ℚ) : |f64Round x - x| ≤ 2 ^ f64Exp x / 2 := by
  have hp := two_zpow_pos (f64Exp x)
  have h := rhe_abs (x / 2 ^ f64Exp x)
  have e : f64Round x - x = ((roundHalfEven (x / 2 ^ f64Exp x) : ℚ) - x / 2 ^ f64Exp x)
      * 2 ^ f64Exp x := by
    unfold f64Round
    field_simp
  rw [e, abs_mul, abs_of_pos hp]
  calc |(roundHalfEven (x / 2 ^ f64Exp x) : ℚ) - x / 2 ^ f64Exp x| * 2 ^ f64Exp x
      ≤ 1 / 2 * 2 ^ f64Exp x := mul_le_mul_of_nonneg_right h (le_of_lt hp)
    _ = 2 ^ f64Exp x / 2 := by ring

/-- A multiple of a power of two at or above the unit in the last place of `x`
bounds the rounded value as it bounds `x`. -/
theorem f64Round_ge_grid (x : ℚ) (n : Int) (g : Int) (hg : f64Exp x ≤ g)
    (h : (n : ℚ) * 2 ^ g ≤ x) : (n : ℚ) * 2 ^ g ≤ f64Round x := by
  have hp := two_zpow_pos (f64Exp x)
  obtain ⟨k, hk⟩ : ∃ k : ℕ, g = f64Exp x + k := ⟨(g - f64Exp x).toNat, by omega⟩
  have e : (n : ℚ) * 2 ^ g = ((n * 2 ^ k : Int) : ℚ) * 2 ^ f64Exp x := by
    rw [hk, zpow_add₀ (by norm_num : (2 : ℚ) ≠ 0), zpow_natCast]
    push_cast
    ring
  rw [e] at h ⊢
  have h1 : ((n * 2 ^ k : Int) : ℚ) ≤ x / 2 ^ f64Exp x := by
    rw [le_div_iff₀ hp]
    exact h
  have h2 := rhe_ge _ _ h1
  unfold f64Round
  exact mul_le_mul_of_nonneg_right (by exact_mod_cast h2) (le_of_lt hp)

theorem f64Round_le_grid (x : ℚ) (n : Int) (g : Int) (hg : f64Exp x ≤ g)
    (h : x ≤ (n : ℚ) * 2 ^ g) : f64Round x ≤ (n : ℚ) * 2 ^ g := by
  have hp := two_zpow_pos (f64Exp x)
  obtain ⟨k, hk⟩ : ∃ k : ℕ, g = f64Exp x + k := ⟨(g - f64Exp x).toNat, by omega⟩
  have e : (n : ℚ) * 2 ^ g = ((n * 2 ^ k : Int) : ℚ) * 2 ^ f64Exp x := by
    rw [hk, zpow_add₀ (by norm_num : (2 : ℚ) ≠ 0), zpow_natCast]
    push_cast
    ring
  rw [e] at h ⊢
  have h1 : x / 2 ^ f64Exp x ≤ ((n * 2 ^ k : Int) : ℚ) := by
    rw [div_le_iff₀ hp]
    exact h
  have h2 := rhe_le _ _ h1
  unfold f64Round
  exact mul_le_mul_of_nonneg_right (by exact_mod_cast h2) (le_of_lt hp)

/-- A multiple of a power of two at or above the unit in the last place is a
float64 and rounds to itself. -/
theorem f64Round_grid (x : ℚ) (n : Int) (g : Int) (hg : f64Exp x ≤ g)
    (h : x = (n : ℚ) * 2 ^ g) : f64Round x = x :=
  le_antisymm (by
      have := f64Round_le_grid x n g hg (le_of_eq h)
      rwa [← h] at this)
    (by
      have := f64Round_ge_grid x n g hg (le_of_eq h.symm)
      rwa [← h] at this)

theorem f64Exp_neg (x : ℚ) : f64Exp (-x) = f64Exp x := by
  unfold f64Exp
  rw [abs_neg]

theorem f64Round_neg (x : ℚ) : f64Round (-x) = -f64Round x := by
  unfold f64Round
  rw [f64Exp_neg, neg_div, rhe_neg]
  push_cast
  ring

/-- The unit in the last place of a value below `2 ^ k` in size. -/
theorem f64Exp_le (x : ℚ) (k : Int) (hk : 1 ≤ k) (h : |x| < 2 ^ k) :
    f64Exp x ≤ k - 53 := by
  unfold f64Exp
  rcases eq_or_lt_of_le (abs_nonneg x) with h0 | h0
  · rw [← h0]
    simp
    omega
  · have := (Int.lt_zpow_iff_log_lt (by norm_num : 1 < 2) h0).mp (by exact_mod_cast h)
    simp only [max_le_iff]
    constructor <;> omega

theorem f64Exp_eq (x : ℚ) (k : Int) (hk : -1022 ≤ k) (h1 : 2 ^ k ≤ |x|) (h2 : |x| < 2 ^ (k + 1)) :
    f64Exp x = k - 52 := by
  have h0 : 0 < |x| := lt_of_lt_of_le (two_zpow_pos k) h1
  have hl : Int.log 2 |x| = k := by
    apply le_antisymm
    · have := (Int.lt_zpow_iff_log_lt (by norm_num : 1 < 2) h0).mp (by exact_mod_cast h2)
      omega
    · exact (Int.zpow_le_iff_le_log (by norm_num : 1 < 2) h0).mp (by exact_mod_cast h1)
  unfold f64Exp
  rw [hl]
  exact max_eq_left (by omega)

/-- The value of one rounding, from the binade of `x` and the nearest multiple. -/
theorem f64Round_eq (x : ℚ) (k : Int) (m : Int) (hk : -1022 ≤ k) (h1 : 2 ^ k ≤ |x|)
    (h2 : |x| < 2 ^ (k + 1)) (hm : |x / 2 ^ (k - 52) - m| < 1 / 2) :
    f64Round x = m * 2 ^ (k - 52) := by
  unfold f64Round
  rw [f64Exp_eq x k hk h1 h2, rhe_eq_of_abs_lt _ m hm]

/-- The relative error of one rounding in the normal range. -/
theorem f64Round_rel (x : ℚ) (h : 2 ^ (-1022 : Int) ≤ |x|) :
    |f64Round x - x| ≤ |x| / 2 ^ 53 := by
  have h0 : 0 < |x| := lt_of_lt_of_le (two_zpow_pos _) h
  have hl : -1022 ≤ Int.log 2 |x| :=
    (Int.zpow_le_iff_le_log (by norm_num : 1 < 2) h0).mp (by exact_mod_cast h)
  have he : f64Exp x = Int.log 2 |x| - 52 := by
    unfold f64Exp
    exact max_eq_left (by omega)
  have hle : (2 : ℚ) ^ Int.log 2 |x| ≤ |x| := by
    have := Int.zpow_log_le_self (by norm_num : 1 < 2) h0
    exact_mod_cast this
  have herr := f64Round_err x
  rw [he, zpow_sub₀ (by norm_num : (2 : ℚ) ≠ 0)] at herr
  calc |f64Round x - x| ≤ 2 ^ Int.log 2 |x| / 2 ^ (52 : Int) / 2 := herr
    _ = 2 ^ Int.log 2 |x| / 2 ^ 53 := by norm_num; ring
    _ ≤ |x| / 2 ^ 53 := by
      apply div_le_div_of_nonneg_right hle
      positivity

theorem f64Round_zero : f64Round 0 = 0 := by
  unfold f64Round
  simp [rhe_intCast, roundHalfEven]

theorem f64Exp_le_of_pos (x : ℚ) (k : Int) (hk : -1021 ≤ k) (h0 : 0 < |x|) (h : |x| < 2 ^ k) :
    f64Exp x ≤ k - 53 := by
  unfold f64Exp
  have := (Int.lt_zpow_iff_log_lt (by norm_num : 1 < 2) h0).mp (by exact_mod_cast h)
  simp only [max_le_iff]
  constructor <;> omega

/-- An integer of at most 53 bits is a float64. -/
theorem f64Round_intCast (n : Int) (h : |n| < 2 ^ 53) : f64Round (n : ℚ) = n := by
  apply f64Round_grid (n : ℚ) n 0
  · have h' : |(n : ℚ)| < 2 ^ (53 : Int) := by
      rw [← Int.cast_abs]
      have h1 : ((|n| : Int) : ℚ) < ((2 ^ 53 : Int) : ℚ) := by exact_mod_cast h
      have h2 : (2 : ℚ) ^ (53 : Int) = ((2 ^ 53 : Int) : ℚ) := by norm_num
      rw [h2]
      exact h1
    have := f64Exp_le (n : ℚ) 53 (by norm_num) h'
    omega
  · simp

theorem truncate_neg (x : ℚ) : truncate (-x) = -truncate x := by
  unfold truncate
  rcases lt_trichotomy x 0 with h | h | h
  · have h1 : (0 : ℚ) ≤ -x := by linarith
    have h2 : ¬ (0 : ℚ) ≤ x := by linarith
    simp only [h1, h2, if_true, if_false]
    rw [Int.floor_neg]
  · subst h
    simp
  · have h1 : ¬ (0 : ℚ) ≤ -x := by linarith
    have h2 : (0 : ℚ) ≤ x := by linarith
    simp only [h1, h2, if_true, if_false]
    rw [Int.ceil_neg]

theorem tmod_neg_left (a b : Int) : (-a).tmod b = -(a.tmod b) := by
  rw [Int.tmod_def, Int.tmod_def, Int.neg_tdiv]
  ring

theorem Seconds_neg (d : Int) : Seconds (-d) = -Seconds d := by
  unfold Seconds f64Add f64Div f64OfInt
  rw [Int.neg_tdiv, tmod_neg_left]
  push_cast
  rw [f64Round_neg, f64Round_neg, neg_div, f64Round_neg, ← neg_add, f64Round_neg]

theorem wholeSeconds_neg (d : Int) : wholeSeconds (-d) = -wholeSeconds d := by
  unfold wholeSeconds
  rw [Seconds_neg, truncate_neg]

theorem wholeSeconds_nonneg_small (d : Int) (h0 : 0 ≤ d) (h : d < 2 ^ 24 * 1000000000) :
    wholeSeconds d = Int.tdiv d 1000000000 := by
  have hq : Int.tdiv d 1000000000 = d / 1000000000 := Int.tdiv_eq_ediv h0 (by norm_num)
  have hr : Int.tmod d 1000000000 = d % 1000000000 := Int.tmod_eq_emod h0 (by norm_num)
  have hs0 : 0 ≤ d / 1000000000 := Int.ediv_nonneg h0 (by norm_num)
  have hs1 : d / 1000000000 < 2 ^ 24 := by
    apply Int.ediv_lt_of_lt_mul (by norm_num)
    exact h
  have hn0 : 0 ≤ d % 1000000000 := Int.emod_nonneg d (by norm_num)
  have hn1 : d % 1000000000 < 1000000000 := Int.emod_lt_of_pos d (by norm_num)
  unfold wholeSeconds Seconds f64Add f64Div f64OfInt
  rw [hq, hr]
  generalize d / 1000000000 = sec at hs0 hs1
  generalize d % 1000000000 = nsec at hn0 hn1
  rw [f64Round_intCast sec (by rw [abs_of_nonneg hs0]; omega),
    f64Round_intCast nsec (by rw [abs_of_nonneg hn0]; omega)]
  have hnq0 : (0 : ℚ) ≤ (nsec : ℚ) / 1000000000 := by
    have : (0 : ℚ) ≤ (nsec : ℚ) := by exact_mod_cast hn0
    positivity
  have hnq1 : (nsec : ℚ) / 1000000000 ≤ 999999999 / 1000000000 := by
    have : (nsec : ℚ) ≤ 999999999 := by
      have : nsec ≤ 999999999 := by omega
      exact_mod_cast this
    apply div_le_div_of_nonneg_right this (by norm_num)
  generalize hu : (nsec : ℚ) / 1000000000 = u at hnq0 hnq1
  have hf0 : (0 : ℚ) ≤ f64Round u := by
    have := f64Round_ge_grid u 0 (f64Exp u) (le_refl _) (by simpa using hnq0)
    simpa using this
  have hf1 : f64Round u ≤ u + 1 / 18014398509481984 := by
    rcases eq_or_lt_of_le hnq0 with h0 | h0
    · rw [← h0, f64Round_zero]
      norm_num
    · have hab : |u| = u := abs_of_pos h0
      have he := f64Exp_le_of_pos u 0 (by norm_num) (by rw [hab]; exact h0)
        (by rw [hab]; norm_num; linarith)
      have herr := (abs_le.mp (f64Round_err u)).2
      have hz : (2 : ℚ) ^ f64Exp u ≤ 2 ^ (-53 : Int) :=
        zpow_le_zpow_right₀ (by norm_num) (by omega)
      have h53 : (2 : ℚ) ^ (-53 : Int) = 1 / 9007199254740992 := by norm_num
      rw [h53] at hz
      linarith
  have hsq0 : (0 : ℚ) ≤ (sec : ℚ) := by exact_mod_cast hs0
  have hsq1 : (sec : ℚ) + 1 ≤ 16777216 := by
    have : sec + 1 ≤ 16777216 := by omega
    exact_mod_cast this
  generalize hx : (sec : ℚ) + f64Round u = x
  have hx0 : (sec : ℚ) ≤ x := by rw [← hx]; linarith
  have hx1 : x ≤ (sec : ℚ) + 999999999 / 1000000000 + 1 / 18014398509481984 := by
    rw [← hx]; linarith
  have he : f64Exp x ≤ -29 := by
    have h24 : (2 : ℚ) ^ (24 : Int) = 16777216 := by norm_num
    have := f64Exp_le x 24 (by norm_num) (by
      rw [abs_of_nonneg (by linarith), h24]
      linarith)
    omega
  have hy0 : (sec : ℚ) ≤ f64Round x := by
    have := f64Round_ge_grid x sec 0 (by omega) (by simpa using hx0)
    simpa using this
  have hy1 : f64Round x < (sec : ℚ) + 1 := by
    have herr := (abs_le.mp (f64Round_err x)).2
    have hz : (2 : ℚ) ^ f64Exp x ≤ 2 ^ (-29 : Int) :=
      zpow_le_zpow_right₀ (by norm_num) he
    have h29 : (2 : ℚ) ^ (-29 : Int) = 1 / 536870912 := by norm_num
    rw [h29] at hz
    linarith
  unfold truncate
  rw [if_pos (by linarith)]
  rw [Int.floor_eq_iff]
  exact ⟨hy0, hy1⟩

/-- Below `2 ^ 24` seconds the conversion `int64(d.Seconds())` is the truncated
count of whole seconds. -/
theorem wholeSeconds_small (d : Int) (h : |d| < 2 ^ 24 * 1000000000) :
    wholeSeconds d = Int.tdiv d 1000000000 := by
  rcases le_total 0 d with h0 | h0
  · exact wholeSeconds_nonneg_small d h0 (by rwa [abs_of_nonneg h0] at h)
  · have h1 := wholeSeconds_nonneg_small (-d) (by omega) (by rwa [abs_of_nonpos h0] at h)
    rw [wholeSeconds_neg, Int.neg_tdiv] at h1
    omega

theorem wholeSeconds_zero : wholeSeconds 0 = 0 := by
  rw [wholeSeconds_small 0 (by norm_num)]
  rfl

theorem f64Round_pos (x : ℚ) (h : 1 ≤ x) : 0 < f64Round x := by
  have hx : |x| = x := abs_of_pos (by linarith)
  have h0 : 0 < |x| := by rw [hx]; linarith
  have hl : 0 ≤ Int.log 2 |x| :=
    (Int.zpow_le_iff_le_log (by norm_num : 1 < 2) h0).mp (by rw [hx]; simpa using h)
  have hle : (2 : ℚ) ^ Int.log 2 |x| ≤ x := by
    have := Int.zpow_log_le_self (by norm_num : 1 < 2) h0
    rw [hx] at this ⊢
    exact_mod_cast this
  have hg : f64Exp x ≤ Int.log 2 |x| := by
    unfold f64Exp
    simp only [max_le_iff]
    constructor <;> omega
  have := f64Round_ge_grid x 1 (Int.log 2 |x|) hg (by simpa using hle)
  have hp := two_zpow_pos (Int.log 2 |x|)
  simp only [Int.cast_one, one_mul] at this
  linarith

/-- The percentage of an all-up log: `float64(n) / float64(n) * 100` is 100. -/
theorem percentage_all (n : Nat) (h : 1 ≤ n) :
    f64Mul (f64Div (f64OfInt (n : Int)) (f64OfInt (n : Int))) 100 = 100 := by
  have hn : (1 : ℚ) ≤ ((n : Int) : ℚ) := by exact_mod_cast h
  have hpos := f64Round_pos _ hn
  unfold f64Mul f64Div f64OfInt
  rw [div_self (ne_of_gt hpos)]
  have h1 : f64Round 1 = 1 := by
    have := f64Round_intCast 1 (by norm_num)
    simpa using this
  have h100 : f64Round 100 = 100 := by
    have := f64Round_intCast 100 (by norm_num)
    simpa using this
  rw [h1, one_mul, h100]

/-- The percentage `float64(up) / float64(n) * 100` is within the relative error
`2 ^ (-51)` of `100 * up / n` (two roundings), for counts of at most 53 bits. -/
theorem percentage_near (up n : Nat) (h1 : 1 ≤ up) (h2 : up ≤ n) (h3 : n < 2 ^ 53) :
    |f64Mul (f64Div (f64OfInt (up : Int)) (f64OfInt (n : Int))) 100
        - 100 * (up : ℚ) / (n : ℚ)| ≤ 100 * (up : ℚ) / (n : ℚ) / 2 ^ 51 := by
  have ha : f64Round ((up : Int) : ℚ) = (up : ℚ) := by
    have := f64Round_intCast (up : Int) (by rw [abs_of_nonneg (by omega)]; omega)
    simpa using this
  have hb : f64Round ((n : Int) : ℚ) = (n : ℚ) := by
    have := f64Round_intCast (n : Int) (by rw [abs_of_nonneg (by omega)]; omega)
    simpa using this
  unfold f64Mul f64Div f64OfInt
  rw [ha, hb]
  have hn0 : (0 : ℚ) < (n : ℚ) := by
    have : 0 < n := by omega
    exact_mod_cast this
  have hu1 : (1 : ℚ) ≤ (up : ℚ) := by exact_mod_cast h1
  have hn53 : (n : ℚ) ≤ 9007199254740992 := by
    have : n ≤ 9007199254740992 := by omega
    exact_mod_cast this
  generalize hr : (up : ℚ) / (n : ℚ) = r
  have hrlo : 1 / 9007199254740992 ≤ r := by
    rw [← hr, div_le_div_iff₀ (by norm_num) hn0]
    linarith
  have hr0 : 0 < r := by linarith
  have hsmall : (2 : ℚ) ^ (-1022 : Int) ≤ 1 / 18014398509481984 := by
    have h54 : (1 : ℚ) / 18014398509481984 = 2 ^ (-54 : Int) := by norm_num
    rw [h54]
    exact zpow_le_zpow_right₀ (by norm_num) (by norm_num)
  have hq := abs_le.mp (f64Round_rel r (by rw [abs_of_pos hr0]; exact le_trans hsmall (by linarith)))
  have e53 : r / 2 ^ 53 = r / 9007199254740992 := by norm_num
  rw [abs_of_pos hr0, e53] at hq
  generalize f64Round r = q at hq
  obtain ⟨hq1, hq2⟩ := hq
  have hqlo : 1 / 18014398509481984 ≤ q := by linarith
  have hq0 : 0 < q * 100 := by linarith
  have hp := abs_le.mp (f64Round_rel (q * 100) (by rw [abs_of_pos hq0]; exact le_trans hsmall (by linarith)))
  have e53q : q * 100 / 2 ^ 53 = q * 100 / 9007199254740992 := by norm_num
  rw [abs_of_pos hq0, e53q] at hp
  generalize f64Round (q * 100) = pct at hp
  obtain ⟨hp1, hp2⟩ := hp
  have e1 : 100 * (up : ℚ) / (n : ℚ) = 100 * r := by rw [← hr]; ring
  have e51 : 100 * r / 2 ^ 51 = 100 * r / 2251799813685248 := by norm_num
  rw [e1, abs_le, e51]
  constructor <;> linarith

/-- The value of one rounding of a positive number, from its binade and the
nearest multiple of the unit in the last place. -/
theorem f64Round_eq_pos (x : ℚ) (k : Int) (m : Int) (hk : -1022 ≤ k) (h1 : 2 ^ k ≤ x)
    (h2 : x < 2 ^ (k + 1)) (hm : |x / 2 ^ (k - 52) - m| < 1 / 2) :
    f64Round x = m * 2 ^ (k - 52) := by
  have hx : |x| = x := abs_of_pos (lt_of_lt_of_le (two_zpow_pos k) h1)
  exact f64Round_eq x k m hk (by rw [hx]; exact h1) (by rw [hx]; exact h2) hm

theorem truncate_intCast (n : Int) : truncate (n : ℚ) = n := by
  unfold truncate
  split <;> simp

/-- The float64 computation `7 / 100 * 100` gives `7 + 2 ^ (-50)`. -/
theorem percentage_seven_of_hundred :
    f64Mul (f64Div (f64OfInt 7) (f64OfInt 100)) 100 = 7 + 1 / 2 ^ 50 := by
  have h7 : f64OfInt 7 = 7 := by
    have := f64Round_intCast 7 (by norm_num)
    simpa [f64OfInt] using this
  have h100 : f64OfInt 100 = 100 := by
    have := f64Round_intCast 100 (by norm_num)
    simpa [f64OfInt] using this
  have hq : f64Div 7 100 = 5044031582654956 * 2 ^ (-56 : Int) := by
    have := f64Round_eq_pos (7 / 100) (-4) 5044031582654956 (by norm_num) (by norm_num)
      (by norm_num) (by rw [abs_lt]; norm_num)
    simpa [f64Div] using this
  have hp : f64Mul (5044031582654956 * 2 ^ (-56 : Int)) 100
      = 7881299347898369 * 2 ^ (-50 : Int) := by
    have := f64Round_eq_pos (5044031582654956 * 2 ^ (-56 : Int) * 100) 2 7881299347898369
      (by norm_num) (by norm_num) (by norm_num) (by rw [abs_lt]; norm_num)
    simpa [f64Mul] using this
  rw [h7, h100, hq, hp]
  norm_num

/-- The conversion `int64(d.Seconds())` of 16777216.999999999 s gives 16777217. -/
theorem wholeSeconds_long_gap : wholeSeconds 16777216999999999 = 16777217 := by
  have hs : Int.tdiv 16777216999999999 1000000000 = 16777216 := by decide
  have hn : Int.tmod 16777216999999999 1000000000 = 999999999 := by decide
  have h1 : f64OfInt 16777216 = 16777216 := by
    have := f64Round_intCast 16777216 (by norm_num)
    simpa [f64OfInt] using this
  have h2 : f64OfInt 999999999 = 999999999 := by
    have := f64Round_intCast 999999999 (by norm_num)
    simpa [f64OfInt] using this
  have hf : f64Div 999999999 1000000000 = 9007199245733793 * 2 ^ (-53 : Int) := by
    have := f64Round_eq_pos (999999999 / 1000000000) (-1) 9007199245733793 (by norm_num)
      (by norm_num) (by norm_num) (by rw [abs_lt]; norm_num)
    simpa [f64Div] using this
  have hx : f64Add 16777216 (9007199245733793 * 2 ^ (-53 : Int)) = ((16777217 : Int) : ℚ) := by
    have := f64Round_eq_pos (16777216 + 9007199245733793 * 2 ^ (-53 : Int)) 24
      4503599895805952 (by norm_num) (by norm_num) (by norm_num) (by rw [abs_lt]; norm_num)
    rw [f64Add, this]
    norm_num
  unfold wholeSeconds Seconds
  rw [hs, hn, h1, h2, hf, hx, truncate_intCast]

/-! ## Go maps -/

theorem GoMap.get?_set_self {V : Type} (m : GoMap V) (k : String) (v : V) :
    (m.set k v).get? k = some v := by
  induction m with
  | nil => simp [GoMap.set, GoMap.get?]
  | cons p m ih =>
    obtain ⟨k', v'⟩ := p
    by_cases hk : k' = k
    · simp [GoMap.set, GoMap.get?, hk]
    · simp [GoMap.set, GoMap.get?, hk, ih]

theorem GoMap.get?_set_other {V : Type} (m : GoMap V) (k k' : String) (v : V) (hne : k ≠ k') :
    (m.set k v).get? k' = m.get? k' := by
  induction m with
  | nil => simp [GoMap.set, GoMap.get?, hne]
  | cons p m ih =>
    obtain ⟨k0, v0⟩ := p
    by_cases hk : k0 = k
    · subst hk
      simp [GoMap.set, GoMap.get?, hne]
    · simp [GoMap.set, GoMap.get?, hk, ih]

theorem GoMap.mem_of_get? {V : Type} (m : GoMap V) (k : String) (v : V)
    (hget : m.get? k = some v) : (k, v) ∈ m := by
  induction m with
  | nil => simp [GoMap.get?] at hget
  | cons p m ih =>
    obtain ⟨k0, v0⟩ := p
    by_cases hk : k0 = k
    · simp [GoMap.get?, hk] at hget
      simp [hk, hget]
    · simp [GoMap.get?, hk] at hget
      exact List.mem_cons_of_mem _ (ih hget)

theorem GoMap.mem_set {V : Type} (m : GoMap V) (k : String) (v : V) (p : String × V)
    (hp : p ∈ m.set k v) : p ∈ m ∨ p = (k, v) := by
  induction m with
  | nil =>
    simp [GoMap.set] at hp
    exact Or.inr hp
  | cons q m ih =>
    obtain ⟨k0, v0⟩ := q
    by_cases hk : k0 = k
    · simp [GoMap.set, hk] at hp
      rcases hp with hp | hp
      · exact Or.inr hp
      · exact Or.inl (List.mem_cons_of_mem _ hp)
    · simp [GoMap.set, hk] at hp
      rcases hp with hp | hp
      · exact Or.inl (by simp [hp])
      · rcases ih hp with h1 | h1
        · exact Or.inl (List.mem_cons_of_mem _ h1)
        · exact Or.inr h1

/-! ## The bounded history log -/

theorem sliceFrom_of_le {α : Type} (s : List α) (lo : Int) (h0 : 0 ≤ lo)
    (h1 : lo ≤ (s.length : Int)) : sliceFrom s lo = some (s.drop lo.toNat) := by
  simp [sliceFrom, h0, h1]

/-- With a non-negative limit `AddCheck` returns, and it keeps the last
`MaxChecks` records of the log extended by the new one. -/
theorem AddCheck_eq (h : ServiceHistory) (r : HealthCheckRecord) (hmax : 0 ≤ h.MaxChecks) :
    h.AddCheck r = some { h with Checks := lastN h.MaxChecks.toNat (h.Checks ++ [r]) } := by
  unfold ServiceHistory.AddCheck lastN
  by_cases hgt : ((h.Checks ++ [r]).length : Int) > h.MaxChecks
  · have h1 : 0 ≤ ((h.Checks ++ [r]).length : Int) - h.MaxChecks := by omega
    have h2 : ((h.Checks ++ [r]).length : Int) - h.MaxChecks ≤ ((h.Checks ++ [r]).length : Int) := by
      omega
    have h3 : (((h.Checks ++ [r]).length : Int) - h.MaxChecks).toNat
        = (h.Checks ++ [r]).length - h.MaxChecks.toNat := by omega
    simp only [hgt, if_true, sliceFrom_of_le _ _ h1 h2, h3]
  · have h3 : (h.Checks ++ [r]).length - h.MaxChecks.toNat = 0 := by omega
    simp only [hgt, if_false, h3, List.drop_zero]

theorem lastN_length_le {α : Type} (n : Nat) (l : List α) : (lastN n l).length ≤ n := by
  unfold lastN
  simp only [List.length_drop]
  omega

theorem AddCheck_checks (h : ServiceHistory) (r : HealthCheckRecord) (hmax : 1 ≤ h.MaxChecks) :
    h.AddCheck r = some { h with
      Checks := h.Checks.drop (h.Checks.length + 1 - h.MaxChecks.toNat) ++ [r] } := by
  rw [AddCheck_eq h r (by omega)]
  have hk : h.Checks.length + 1 - h.MaxChecks.toNat ≤ h.Checks.length := by omega
  simp only [lastN, List.length_append, List.length_singleton,
    List.drop_append_of_le_length hk]

/-- C6: for a history with `MaxChecks ≥ 1` whose log is not longer than
`MaxChecks`, `AddCheck r` returns, and the log afterwards is the last
`min(len+1, MaxChecks)` elements of the old log followed by `r`: `r` is its last
element, the kept records are a suffix of the extended log (so their order is
unchanged), nothing is evicted while the log is not full, and a full log loses
exactly its first record. -/
theorem AddCheck_keeps_newest (h : ServiceHistory) (r : HealthCheckRecord)
    (hmax : 1 ≤ h.MaxChecks) (hlen : (h.Checks.length : Int) ≤ h.MaxChecks) :
    ∃ h', h.AddCheck r = some h' ∧
      h'.ServiceID = h.ServiceID ∧ h'.MaxChecks = h.MaxChecks ∧
      h'.Checks = lastN (min (h.Checks.length + 1) h.MaxChecks.toNat) (h.Checks ++ [r]) ∧
      h'.Checks.getLast? = some r ∧
      h'.Checks <:+ h.Checks ++ [r] ∧
      ((h.Checks.length : Int) < h.MaxChecks → h'.Checks = h.Checks ++ [r]) ∧
      ((h.Checks.length : Int) = h.MaxChecks → h'.Checks = h.Checks.drop 1 ++ [r]) := by
  refine ⟨_, AddCheck_checks h r hmax, rfl, rfl, ?_, ?_, ?_, ?_, ?_⟩
  · have hk : h.Checks.length + 1 - h.MaxChecks.toNat ≤ h.Checks.length := by omega
    have he : (h.Checks ++ [r]).length - min (h.Checks.length + 1) h.MaxChecks.toNat
        = h.Checks.length + 1 - h.MaxChecks.toNat := by
      simp only [List.length_append, List.length_singleton]
      omega
    simp only [lastN, he, List.drop_append_of_le_length hk]
  · simp
  · have hk : h.Checks.length + 1 - h.MaxChecks.toNat ≤ h.Checks.length := by omega
    show h.Checks.drop (h.Checks.length + 1 - h.MaxChecks.toNat) ++ [r] <:+ h.Checks ++ [r]
    rw [← List.drop_append_of_le_length hk]
    exact List.drop_suffix _ _
  · intro hlt
    have he : h.Checks.length + 1 - h.MaxChecks.toNat = 0 := by omega
    simp only [he, List.drop_zero]
  · intro heq
    have he : h.Checks.length + 1 - h.MaxChecks.toNat = 1 := by omega
    simp only [he]

theorem AddCheckResult_bounded (L : Int) (hL : 1 ≤ L) (s : HistoryStore)
    (hs : s.Bounded L) (id : String) (r : HealthCheckRecord) :
    ∃ s', s.AddCheckResult id r = some s' ∧ s'.Bounded L := by
  obtain ⟨hmax, hall⟩ := hs
  have key : ∀ h : ServiceHistory, h.MaxChecks = L →
      ∃ s' : HistoryStore,
        (match h.AddCheck r with
          | some history' => some { s with histories := s.histories.set id history' }
          | none => none) = some s' ∧ s'.Bounded L := by
    intro h hh
    rw [AddCheck_eq h r (by omega)]
    refine ⟨_, rfl, hmax, ?_⟩
    intro p hp
    rcases GoMap.mem_set _ _ _ _ hp with hp | hp
    · exact hall p hp
    · subst hp
      refine ⟨hh, ?_⟩
      have := lastN_length_le h.MaxChecks.toNat (h.Checks ++ [r])
      show ((lastN h.MaxChecks.toNat (h.Checks ++ [r])).length : Int) ≤ L
      omega
  unfold HistoryStore.AddCheckResult
  cases hg : s.histories.get? id with
  | some h =>
    exact key h (hall _ (GoMap.mem_of_get? _ _ _ hg)).1
  | none =>
    have hh : (NewServiceHistory id s.maxChecks).MaxChecks = L := by
      simp only [NewServiceHistory]
      split <;> omega
    exact key _ hh

theorem addCheckResults_bounded (L : Int) (hL : 1 ≤ L)
    (calls : List (String × HealthCheckRecord)) :
    ∀ s : HistoryStore, s.Bounded L →
      ∃ s', addCheckResults s calls = some s' ∧ s'.Bounded L := by
  induction calls with
  | nil => intro s hs; exact ⟨s, rfl, hs⟩
  | cons c calls ih =>
    intro s hs
    obtain ⟨id, r⟩ := c
    obtain ⟨s1, h1, hb1⟩ := AddCheckResult_bounded L hL s hs id r
    obtain ⟨s2, h2, hb2⟩ := ih s1 hb1
    exact ⟨s2, by simp only [addCheckResults, h1, h2], hb2⟩

/-- C5: for a history store made by `NewHistoryStore n` with `n ≥ 0`, every
sequence of `AddCheckResult` calls for any service IDs runs to its end, and
afterwards every history log holds at most the configured maximum of records:
`n`, or `100` when `n = 0`.  (The sequence is arbitrary, so this is the state
after every call.) -/
theorem history_never_exceeds_limit (n : Int) (hn : 0 ≤ n)
    (calls : List (String × HealthCheckRecord)) :
    ∃ s, addCheckResults (NewHistoryStore n) calls = some s ∧
      ∀ p ∈ s.histories, (p.2.Checks.length : Int) ≤ (if n = 0 then 100 else n) := by
  have hL : (1 : Int) ≤ (if n = 0 then 100 else n) := by split <;> omega
  have h0 : (NewHistoryStore n).Bounded (if n = 0 then 100 else n) := by
    refine ⟨rfl, ?_⟩
    intro p hp
    simp [NewHistoryStore] at hp
  obtain ⟨s, hs, hb⟩ := addCheckResults_bounded _ hL calls _ h0
  exact ⟨s, hs, fun p hp => (hb.2 p hp).2⟩

/-! ## Statistics -/

theorem up_ne_down : ¬ StatusUp = StatusDown := by decide

theorem down_ne_up : ¬ StatusDown = StatusUp := by decide

theorem unknown_ne_up : ¬ StatusUnknown = StatusUp := by decide

theorem unknown_ne_down : ¬ StatusUnknown = StatusDown := by decide

theorem periodSum_cons_cons (st : ServiceStatus) (p c : HealthCheckRecord)
    (rest : List HealthCheckRecord) :
    periodSum st (p :: c :: rest)
      = (if p.Status = st then c.Timestamp - p.Timestamp else 0) + periodSum st (c :: rest) := by
  by_cases hp : p.Status = st
  · simp [periodSum, consecutivePairs, List.filter_cons, hp]
  · simp [periodSum, consecutivePairs, List.filter_cons, hp]

theorem periodSum_single (st : ServiceStatus) (c : HealthCheckRecord) :
    periodSum st [c] = 0 := by
  simp [periodSum, consecutivePairs]

theorem trackPeriod_counts (prev : Option HealthCheckRecord) (c : HealthCheckRecord)
    (a : StatsAcc) :
    (trackPeriod prev c a).upCount = a.upCount ∧
    (trackPeriod prev c a).downCount = a.downCount ∧
    (trackPeriod prev c a).totalResponseTime = a.totalResponseTime := by
  cases prev with
  | none => exact ⟨rfl, rfl, rfl⟩
  | some p =>
    simp only [trackPeriod]
    split
    · exact ⟨rfl, rfl, rfl⟩
    · split <;> exact ⟨rfl, rfl, rfl⟩

theorem countCheck_periods (c : HealthCheckRecord) (a : StatsAcc) :
    (countCheck c a).totalUptime = a.totalUptime ∧
    (countCheck c a).totalDowntime = a.totalDowntime := by
  simp only [countCheck]
  split
  · exact ⟨rfl, rfl⟩
  · split <;> exact ⟨rfl, rfl⟩

theorem countCheck_up (c : HealthCheckRecord) (a : StatsAcc) :
    (countCheck c a).upCount = a.upCount + (upRecords [c]).length ∧
    (countCheck c a).totalResponseTime
      = a.totalResponseTime + ((upRecords [c]).map (fun r => r.ResponseTime)).sum := by
  by_cases hc : c.Status = StatusUp
  · simp [countCheck, upRecords, hc]
  · simp only [countCheck, upRecords, hc, if_false]
    split <;> simp [hc]

theorem statsLoop_up (checks : List HealthCheckRecord) :
    ∀ (prev : Option HealthCheckRecord) (a : StatsAcc),
      (statsLoop prev checks a).upCount = a.upCount + (upRecords checks).length ∧
      (statsLoop prev checks a).totalResponseTime
        = a.totalResponseTime + ((upRecords checks).map (fun r => r.ResponseTime)).sum := by
  induction checks with
  | nil => intro prev a; simp [statsLoop, upRecords]
  | cons c rest ih =>
    intro prev a
    have h1 := ih (some c) (trackPeriod prev c (countCheck c a))
    have h2 := trackPeriod_counts prev c (countCheck c a)
    have h3 := countCheck_up c a
    have h4 : upRecords (c :: rest) = upRecords [c] ++ upRecords rest := by
      simp only [upRecords, ← List.filter_append, List.singleton_append]
    simp only [statsLoop, h1.1, h1.2, h2.1, h2.2.2, h3.1, h3.2, h4, List.length_append,
      List.map_append, List.sum_append]
    constructor <;> ring

theorem trackPeriod_periods (prev : Option HealthCheckRecord) (c : HealthCheckRecord)
    (rest : List HealthCheckRecord) (a : StatsAcc) :
    (trackPeriod prev c a).totalUptime + periodSum StatusUp (c :: rest)
      = a.totalUptime + periodSum StatusUp (prev.toList ++ c :: rest) ∧
    (trackPeriod prev c a).totalDowntime + periodSum StatusDown (c :: rest)
      = a.totalDowntime + periodSum StatusDown (prev.toList ++ c :: rest) := by
  cases prev with
  | none => simp [trackPeriod]
  | some p =>
    simp only [Option.toList, List.singleton_append, periodSum_cons_cons, trackPeriod]
    by_cases hu : p.Status = StatusUp
    · simp only [hu, up_ne_down, if_true, if_false]
      constructor <;> ring
    · by_cases hd : p.Status = StatusDown
      · simp only [hd, down_ne_up, if_true, if_false]
        constructor <;> ring
      · simp only [hu, hd, if_false]
        constructor <;> ring

theorem statsLoop_periods (checks : List HealthCheckRecord) :
    ∀ (prev : Option HealthCheckRecord) (a : StatsAcc),
      (statsLoop prev checks a).totalUptime
        = a.totalUptime + periodSum StatusUp (prev.toList ++ checks) ∧
      (statsLoop prev checks a).totalDowntime
        = a.totalDowntime + periodSum StatusDown (prev.toList ++ checks) := by
  induction checks with
  | nil =>
    intro prev a
    cases prev <;> simp [statsLoop, periodSum, consecutivePairs]
  | cons c rest ih =>
    intro prev a
    have h1 := ih (some c) (trackPeriod prev c (countCheck c a))
    have h2 := trackPeriod_periods prev c rest (countCheck c a)
    have h3 := countCheck_periods c a
    simp only [Option.toList, List.singleton_append] at h1
    simp only [statsLoop, h1.1, h1.2]
    rw [h2.1, h2.2, h3.1, h3.2]
    exact ⟨rfl, rfl⟩

/-- The fields of the statistics that the loop decides, for every log (an empty
log leaves all of them zero). -/
theorem GetStatistics_fields (lv : LoopVar) (now now24 : Time) (h : ServiceHistory) :
    (h.GetStatistics lv now now24).TotalChecks = h.Checks.length ∧
    (h.GetStatistics lv now now24).UptimePercentage
      = (if (upRecords h.Checks).length > 0
          then f64Mul (f64Div (f64OfInt ((upRecords h.Checks).length : Int))
            (f64OfInt (h.Checks.length : Int))) 100 else 0) ∧
    (h.GetStatistics lv now now24).AverageResponseTime
      = (if (upRecords h.Checks).length > 0
          then Int.tdiv ((upRecords h.Checks).map (fun r => r.ResponseTime)).sum
            ((upRecords h.Checks).length : Int) else 0) ∧
    (h.GetStatistics lv now now24).TotalUptime = wholeSeconds (periodSum StatusUp h.Checks) ∧
    (h.GetStatistics lv now now24).TotalDowntime
      = wholeSeconds (periodSum StatusDown h.Checks) := by
  unfold ServiceHistory.GetStatistics
  cases hl : h.Checks.getLast? with
  | none =>
    have hnil : h.Checks = [] := List.getLast?_eq_none_iff.mp hl
    simp [hnil, upRecords, periodSum, consecutivePairs, wholeSeconds_zero]
  | some lastCheck =>
    have h1 := statsLoop_up h.Checks none StatsAcc.zero
    have h2 := statsLoop_periods h.Checks none StatsAcc.zero
    have e1 : StatsAcc.zero.upCount = 0 := rfl
    have e2 : StatsAcc.zero.totalResponseTime = 0 := rfl
    have e3 : StatsAcc.zero.totalUptime = 0 := rfl
    have e4 : StatsAcc.zero.totalDowntime = 0 := rfl
    rw [e1, e2] at h1
    rw [e3, e4] at h2
    simp only [Option.toList, List.nil_append, zero_add] at h1 h2
    simp only [h1.1, h1.2, h2.1, h2.2]
    exact ⟨trivial, trivial, trivial, trivial, trivial⟩

/-- C7, amended: for a log of `N ≥ 1` records of which `up` are up,
`HistoryStore.GetStatistics` reports `TotalChecks = N` and the percentage that
the float64 computation `float64(up) / float64(N) * 100` gives (0 without an up
record): exactly 100 for an all-up log, exactly 0 for an all-down log, and for
`N < 2 ^ 53` a value within the relative error `2 ^ (-51)` of `100 * up / N`,
which need not be `100 * up / N` itself.  For an ID without a log, or with an
empty log, it returns a statistics value whose `TotalChecks`, percentage,
counts, average, durations and 24-hour list are all zero. -/
theorem uptime_percentage (lv : LoopVar) (now now24 : Time) (s : HistoryStore) (id : String) :
    (∀ h, s.histories.get? id = some h → 1 ≤ h.Checks.length →
      (s.GetStatistics lv now now24 id).TotalChecks = h.Checks.length ∧
      (s.GetStatistics lv now now24 id).UptimePercentage
        = (if (upRecords h.Checks).length > 0
            then f64Mul (f64Div (f64OfInt ((upRecords h.Checks).length : Int))
              (f64OfInt (h.Checks.length : Int))) 100 else 0) ∧
      ((∀ c ∈ h.Checks, c.Status = StatusUp) →
        (s.GetStatistics lv now now24 id).UptimePercentage = 100) ∧
      ((∀ c ∈ h.Checks, c.Status = StatusDown) →
        (s.GetStatistics lv now now24 id).UptimePercentage = 0) ∧
      (h.Checks.length < 2 ^ 53 →
        |(s.GetStatistics lv now now24 id).UptimePercentage
            - 100 * ((upRecords h.Checks).length : ℚ) / (h.Checks.length : ℚ)|
          ≤ 100 * ((upRecords h.Checks).length : ℚ) / (h.Checks.length : ℚ) / 2 ^ 51)) ∧
    ((s.histories.get? id = none ∨ ∃ h, s.histories.get? id = some h ∧ h.Checks = []) →
      ∃ sid, s.GetStatistics lv now now24 id =
        { ServiceID := sid, TotalChecks := 0, UpCount := 0, DownCount := 0,
          UptimePercentage := 0, AverageResponseTime := 0, CurrentUptime := 0,
          CurrentDowntime := 0, TotalUptime := 0, TotalDowntime := 0, Last24Hours := [] }) := by
  constructor
  · intro h hget hlen
    have hs : s.GetStatistics lv now now24 id = h.GetStatistics lv now now24 := by
      simp only [HistoryStore.GetStatistics, hget]
    have hf := GetStatistics_fields lv now now24 h
    rw [hs]
    refine ⟨hf.1, hf.2.1, ?_, ?_, ?_⟩
    · intro hall
      have hup : upRecords h.Checks = h.Checks := by
        unfold upRecords
        rw [List.filter_eq_self]
        intro c hc
        simp [hall c hc]
      have hpos : h.Checks.length > 0 := by omega
      rw [hf.2.1, hup]
      simp only [hpos, if_true]
      exact percentage_all h.Checks.length hlen
    · intro hall
      have hup : upRecords h.Checks = [] := by
        unfold upRecords
        rw [List.filter_eq_nil_iff]
        intro c hc
        simp [hall c hc, down_ne_up]
      rw [hf.2.1, hup]
      simp
    · intro h53
      rw [hf.2.1]
      by_cases hu : (upRecords h.Checks).length > 0
      · simp only [hu, if_true]
        have hle : (upRecords h.Checks).length ≤ h.Checks.length := by
          unfold upRecords
          exact List.length_filter_le _ _
        exact percentage_near _ _ hu hle h53
      · have h0 : (upRecords h.Checks).length = 0 := by omega
        simp [h0]
  · intro hcase
    rcases hcase with hnone | ⟨h, hget, hnil⟩
    · exact ⟨id, by simp only [HistoryStore.GetStatistics, hnone]⟩
    · refine ⟨h.ServiceID, ?_⟩
      simp only [HistoryStore.GetStatistics, hget, ServiceHistory.GetStatistics, hnil,
        List.getLast?_nil, List.length_nil]

theorem uptime_percentage_witness :
    (sampleHistoryStore.GetStatistics LoopVar.perIteration 40 40 "a").UptimePercentage = 100 ∧
    (sampleHistoryStore.GetStatistics LoopVar.perIteration 40 40 "b").UptimePercentage = 0 ∧
    (∃ sid, sampleHistoryStore.GetStatistics LoopVar.shared 40 40 "c" =
      { ServiceID := sid, TotalChecks := 0, UpCount := 0, DownCount := 0,
        UptimePercentage := 0, AverageResponseTime := 0, CurrentUptime := 0,
        CurrentDowntime := 0, TotalUptime := 0, TotalDowntime := 0, Last24Hours := [] }) :=
  ⟨((uptime_percentage LoopVar.perIteration 40 40 sampleHistoryStore "a").1 _ rfl
      (by decide)).2.2.1 (by decide),
   ((uptime_percentage LoopVar.perIteration 40 40 sampleHistoryStore "b").1 _ rfl
      (by decide)).2.2.2.1 (by decide),
   (uptime_percentage LoopVar.shared 40 40 sampleHistoryStore "c").2
      (Or.inr ⟨_, rfl, rfl⟩)⟩

/-- C7 as stated fails on the code: for the log of 7 up records and 93 down
records `HistoryStore.GetStatistics` reports the percentage `7 + 2 ^ (-50)`
(printed 7.000000000000001), not `100 * 7 / 100 = 7`. -/
theorem uptime_percentage_seven_of_hundred :
    sevenOfHundred.Checks.length = 100 ∧
    (upRecords sevenOfHundred.Checks).length = 7 ∧
    (HistoryStore.GetStatistics LoopVar.perIteration 0 0
        { histories := [("a", sevenOfHundred)], maxChecks := 100 } "a").UptimePercentage
      = 7 + 1 / 2 ^ 50 ∧
    (HistoryStore.GetStatistics LoopVar.perIteration 0 0
        { histories := [("a", sevenOfHundred)], maxChecks := 100 } "a").UptimePercentage
      ≠ 100 * ((upRecords sevenOfHundred.Checks).length : ℚ)
          / (sevenOfHundred.Checks.length : ℚ) := by
  have hlen : sevenOfHundred.Checks.length = 100 := by decide
  have hup : (upRecords sevenOfHundred.Checks).length = 7 := by decide
  have hs : HistoryStore.GetStatistics LoopVar.perIteration 0 0
      { histories := [("a", sevenOfHundred)], maxChecks := 100 } "a"
      = sevenOfHundred.GetStatistics LoopVar.perIteration 0 0 := rfl
  have hf := (GetStatistics_fields LoopVar.perIteration 0 0 sevenOfHundred).2.1
  rw [hup, hlen] at hf
  simp only [gt_iff_lt, Nat.ofNat_pos, if_true, Nat.cast_ofNat] at hf
  rw [percentage_seven_of_hundred] at hf
  refine ⟨hlen, hup, ?_, ?_⟩
  · rw [hs, hf]
  · rw [hs, hf, hup, hlen]
    norm_num

theorem periodSum_last_status (st : ServiceStatus) (c c' : HealthCheckRecord)
    (ht : c.Timestamp = c'.Timestamp) (checks : List HealthCheckRecord) :
    periodSum st (checks ++ [c]) = periodSum st (checks ++ [c']) := by
  induction checks with
  | nil => simp [periodSum_single]
  | cons p rest ih =>
    cases rest with
    | nil => simp [periodSum_cons_cons, periodSum_single, ht]
    | cons q rest =>
      simp only [List.cons_append, periodSum_cons_cons] at ih ⊢
      rw [ih]

/-- C9, amended: for every log `c_0 .. c_{n-1}`, `GetStatistics` reports
`TotalUptime` as `int64(d.Seconds())` of the sum `d` of
`c_i.Timestamp - c_{i-1}.Timestamp` over the consecutive pairs whose earlier
record is up, and `TotalDowntime` as the same conversion of the sum over the
pairs whose earlier record is down.  The conversion goes through float64: it is
the truncated count of whole seconds of the sum as long as the sum is below
`2 ^ 24` seconds in size, and need not be beyond.  The status of the later
record plays no part: giving the last record of a log any other status changes
neither total. -/
theorem total_periods_by_earlier_record (lv : LoopVar) (now now24 : Time)
    (h : ServiceHistory) :
    (h.GetStatistics lv now now24).TotalUptime = wholeSeconds (periodSum StatusUp h.Checks) ∧
    (h.GetStatistics lv now now24).TotalDowntime
      = wholeSeconds (periodSum StatusDown h.Checks) ∧
    (|periodSum StatusUp h.Checks| < 2 ^ 24 * 1000000000 →
      (h.GetStatistics lv now now24).TotalUptime
        = Int.tdiv (periodSum StatusUp h.Checks) 1000000000) ∧
    (|periodSum StatusDown h.Checks| < 2 ^ 24 * 1000000000 →
      (h.GetStatistics lv now now24).TotalDowntime
        = Int.tdiv (periodSum StatusDown h.Checks) 1000000000) ∧
    ∀ (c : HealthCheckRecord) (st : ServiceStatus),
      (ServiceHistory.GetStatistics lv now now24
          { h with Checks := h.Checks ++ [{ c with Status := st }] }).TotalUptime
        = (ServiceHistory.GetStatistics lv now now24
          { h with Checks := h.Checks ++ [c] }).TotalUptime ∧
      (ServiceHistory.GetStatistics lv now now24
          { h with Checks := h.Checks ++ [{ c with Status := st }] }).TotalDowntime
        = (ServiceHistory.GetStatistics lv now now24
          { h with Checks := h.Checks ++ [c] }).TotalDowntime := by
  have hf := GetStatistics_fields lv now now24 h
  refine ⟨hf.2.2.2.1, hf.2.2.2.2, ?_, ?_, ?_⟩
  · intro hsmall
    rw [hf.2.2.2.1, wholeSeconds_small _ hsmall]
  · intro hsmall
    rw [hf.2.2.2.2, wholeSeconds_small _ hsmall]
  intro c st
  have h1 := GetStatistics_fields lv now now24
    { h with Checks := h.Checks ++ [{ c with Status := st }] }
  have h2 := GetStatistics_fields lv now now24 { h with Checks := h.Checks ++ [c] }
  rw [h1.2.2.2.1, h1.2.2.2.2, h2.2.2.2.1, h2.2.2.2.2]
  have e1 := periodSum_last_status StatusUp { c with Status := st } c rfl h.Checks
  have e2 := periodSum_last_status StatusDown { c with Status := st } c rfl h.Checks
  exact ⟨congrArg wholeSeconds e1, congrArg wholeSeconds e2⟩

/-- C9 as stated fails on the code: for two up records 16777216.999999999 s apart
the sum of the up intervals is 16777216999999999 ns, whose whole seconds are
16777216, and `GetStatistics` reports `TotalUptime = 16777217`. -/
theorem total_uptime_rounds_up :
    periodSum StatusUp longGapHistory.Checks = 16777216999999999 ∧
    Int.tdiv (periodSum StatusUp longGapHistory.Checks) 1000000000 = 16777216 ∧
    (longGapHistory.GetStatistics LoopVar.perIteration 0 0).TotalUptime = 16777217 := by
  have hsum : periodSum StatusUp longGapHistory.Checks = 16777216999999999 := by decide
  refine ⟨hsum, ?_, ?_⟩
  · rw [hsum]
    decide
  · rw [(GetStatistics_fields LoopVar.perIteration 0 0 longGapHistory).2.2.2.1, hsum]
    exact wholeSeconds_long_gap

theorem upRecords_withOther (g : HealthCheckRecord → Int) (checks : List HealthCheckRecord) :
    upRecords (checks.map
      (fun c => if c.Status = StatusUp then c else { c with ResponseTime := g c }))
      = upRecords checks := by
  induction checks with
  | nil => rfl
  | cons c rest ih =>
    unfold upRecords at ih ⊢
    by_cases hc : c.Status = StatusUp
    · simp only [List.map_cons, hc, if_true, List.filter_cons, decide_True, ih]
    · simp only [List.map_cons, hc, if_false, List.filter_cons, decide_False, ih]
      simp

/-- C10: for a log with at least one up record, `GetStatistics` reports
`AverageResponseTime` as the integer quotient (truncated, as Go divides) of the
sum of `ResponseTime` over the up records by the number of up records; it is 0
for a log without an up record; and the response times of the records that are
not up never affect it. -/
theorem average_over_up_records (lv : LoopVar) (now now24 : Time) (h : ServiceHistory) :
    (1 ≤ (upRecords h.Checks).length →
      (h.GetStatistics lv now now24).AverageResponseTime
        = Int.tdiv ((upRecords h.Checks).map (fun r => r.ResponseTime)).sum
            ((upRecords h.Checks).length : Int)) ∧
    (upRecords h.Checks = [] → (h.GetStatistics lv now now24).AverageResponseTime = 0) ∧
    (∀ g : HealthCheckRecord → Int,
      ((withOtherResponseTimes g h).GetStatistics lv now now24).AverageResponseTime
        = (h.GetStatistics lv now now24).AverageResponseTime) := by
  have hf := GetStatistics_fields lv now now24 h
  refine ⟨?_, ?_, ?_⟩
  · intro hup
    have hpos : (upRecords h.Checks).length > 0 := by omega
    rw [hf.2.2.1]
    simp only [hpos, if_true]
  · intro hnil
    rw [hf.2.2.1, hnil]
    simp
  · intro g
    have hg := GetStatistics_fields lv now now24 (withOtherResponseTimes g h)
    rw [hg.2.2.1, hf.2.2.1]
    simp only [withOtherResponseTimes, upRecords_withOther]

theorem average_over_up_records_witness :
    1 ≤ (upRecords sampleHistory.Checks).length ∧
    (sampleHistory.GetStatistics LoopVar.perIteration 30 30).AverageResponseTime
      = Int.tdiv ((upRecords sampleHistory.Checks).map (fun r => r.ResponseTime)).sum
          ((upRecords sampleHistory.Checks).length : Int) :=
  ⟨by decide, (average_over_up_records LoopVar.perIteration 30 30 sampleHistory).1 (by decide)⟩

/-- C8 on the code: in the log up at 0 s, down at 10 s, up at 20 s, up at 25 s,
read at 30 s, the trailing run of up records starts at 20 s, so the current
uptime since its first record is 10 s; `GetStatistics` reports 30 s when every
iteration has its own loop variable (the first up record of the whole log) and
5 s when the loop variable is shared (the last record). -/
theorem current_uptime_not_from_trailing_run :
    sinceTrailingRun 30000000000 sampleHistory.Checks = 10 ∧
    (sampleHistory.GetStatistics LoopVar.perIteration 30000000000 30000000000).CurrentUptime
      = 30 ∧
    (sampleHistory.GetStatistics LoopVar.shared 30000000000 30000000000).CurrentUptime = 5 ∧
    (sampleHistory.GetStatistics LoopVar.perIteration 30000000000 30000000000).CurrentDowntime
      = 0 := by
  have h10 : wholeSeconds 10000000000 = 10 := by
    rw [wholeSeconds_small _ (by norm_num)]
    decide
  have h30 : wholeSeconds 30000000000 = 30 := by
    rw [wholeSeconds_small _ (by norm_num)]
    decide
  have h5 : wholeSeconds 5000000000 = 5 := by
    rw [wholeSeconds_small _ (by norm_num)]
    decide
  have e1 : sinceTrailingRun 30000000000 sampleHistory.Checks = wholeSeconds 10000000000 := rfl
  have e2 : (sampleHistory.GetStatistics LoopVar.perIteration 30000000000
      30000000000).CurrentUptime = wholeSeconds 30000000000 := rfl
  have e3 : (sampleHistory.GetStatistics LoopVar.shared 30000000000
      30000000000).CurrentUptime = wholeSeconds 5000000000 := rfl
  have e4 : (sampleHistory.GetStatistics LoopVar.perIteration 30000000000
      30000000000).CurrentDowntime = wholeSeconds 0 := rfl
  rw [e1, e2, e3, e4, h10, h30, h5, wholeSeconds_zero]
  exact ⟨rfl, rfl, rfl, rfl⟩

/-! ## UpdateServiceStatus -/

theorem AddCheckResult_nonneg (s : HistoryStore) (hs : s.NonNegative) (id : String)
    (r : HealthCheckRecord) :
    ∃ s', s.AddCheckResult id r = some s' ∧ s'.NonNegative := by
  obtain ⟨hmax, hall⟩ := hs
  have key : ∀ h : ServiceHistory, 0 ≤ h.MaxChecks →
      ∃ s' : HistoryStore,
        (match h.AddCheck r with
          | some history' => some { s with histories := s.histories.set id history' }
          | none => none) = some s' ∧ s'.NonNegative := by
    intro h hh
    rw [AddCheck_eq h r hh]
    refine ⟨_, rfl, hmax, ?_⟩
    intro p hp
    rcases GoMap.mem_set _ _ _ _ hp with hp | hp
    · exact hall p hp
    · subst hp
      exact hh
  unfold HistoryStore.AddCheckResult
  cases hg : s.histories.get? id with
  | some h => exact key h (hall _ (GoMap.mem_of_get? _ _ _ hg))
  | none =>
    have hh : 0 ≤ (NewServiceHistory id s.maxChecks).MaxChecks := by
      simp only [NewServiceHistory]
      split <;> omega
    exact key _ hh

theorem applySSL_frame (service : MonitoredService) (r : HealthCheckResult) :
    (applySSL service r).1.ID = service.ID ∧ (applySSL service r).1.Status = r.Status := by
  unfold applySSL
  simp only []
  split
  · split
    · exact ⟨rfl, rfl⟩
    · split <;> exact ⟨rfl, rfl⟩
  · exact ⟨rfl, rfl⟩

theorem applyTransition_frame (prev : ServiceStatus) (service : MonitoredService)
    (r : HealthCheckResult) :
    (applyTransition prev service r).1.ID = service.ID ∧
    (applyTransition prev service r).1.Status = service.Status ∧
    (applyTransition prev service r).1.SSLAlertSent = service.SSLAlertSent := by
  unfold applyTransition
  simp only []
  split
  · split <;> exact ⟨rfl, rfl, rfl⟩
  · split
    · split <;> exact ⟨rfl, rfl, rfl⟩
    · exact ⟨rfl, rfl, rfl⟩

theorem updatedService_frame (service : MonitoredService) (r : HealthCheckResult) :
    (updatedService service r).ID = service.ID ∧ (updatedService service r).Status = r.Status := by
  unfold updatedService
  have h1 := applySSL_frame service r
  have h2 := applyTransition_frame service.Status (applySSL service r).1 r
  exact ⟨h2.1.trans h1.1, h2.2.1.trans h1.2⟩

/-- The call `Update(service)` that ends `UpdateServiceStatus`, made on the store
in which `service` has just been written under `id` through the pointer. -/
theorem Update_after_write (s : ServiceStore) (id : String) (v : MonitoredService) :
    (ServiceStore.Update { s with services := s.services.set id v } v).2.services.get? id
        = some v ∧
    ((ServiceStore.Update { s with services := s.services.set id v } v).1
        = some StoreError.ErrServiceNotFound → s.services.get? v.ID = none ∧ v.ID ≠ id) := by
  by_cases hk : v.ID = id
  · have hg : (s.services.set id v).get? v.ID = some v := by
      rw [hk]; exact GoMap.get?_set_self _ _ _
    simp only [ServiceStore.Update, hg, ServiceStore.triggerSave]
    constructor
    · split <;> (rw [hk]; exact GoMap.get?_set_self _ _ _)
    · intro herr
      simp at herr
  · have hk' : id ≠ v.ID := fun h => hk h.symm
    have hg : (s.services.set id v).get? v.ID = s.services.get? v.ID :=
      GoMap.get?_set_other _ _ _ _ hk'
    simp only [ServiceStore.Update, hg]
    cases hs : s.services.get? v.ID with
    | none => exact ⟨GoMap.get?_set_self _ _ _, fun _ => ⟨rfl, hk⟩⟩
    | some other =>
      simp only [ServiceStore.triggerSave]
      constructor
      · split
        · show (GoMap.set _ _ _).get? id = _
          rw [GoMap.get?_set_other _ _ _ _ hk]
          exact GoMap.get?_set_self _ _ _
        · show (GoMap.set _ _ _).get? id = _
          rw [GoMap.get?_set_other _ _ _ _ hk]
          exact GoMap.get?_set_self _ _ _
      · intro herr
        simp at herr

/-- The record that `UpdateServiceStatus` logs for a result. -/
theorem UpdateServiceStatus_eq (m : MonitorService) (r : HealthCheckResult)
    (service : MonitoredService) (hget : m.store.services.get? r.ServiceID = some service) :
    m.UpdateServiceStatus r =
      match m.history.AddCheckResult r.ServiceID
          { Timestamp := r.CheckedAt, Status := r.Status, ResponseTime := r.ResponseTime,
            ErrorMessage := r.ErrorMessage } with
      | none => none
      | some history' => some
        { err := (ServiceStore.Update
            { m.store with
              services := m.store.services.set r.ServiceID (updatedService service r) }
            (updatedService service r)).1
          state :=
            { store := (ServiceStore.Update
                { m.store with
                  services := m.store.services.set r.ServiceID (updatedService service r) }
                (updatedService service r)).2
              history := history' }
          sent := dispatched service r } := by
  unfold MonitorService.UpdateServiceStatus
  simp only [ServiceStore.Get, hget]
  cases m.history.AddCheckResult r.ServiceID
      { Timestamp := r.CheckedAt, Status := r.Status, ResponseTime := r.ResponseTime,
        ErrorMessage := r.ErrorMessage } with
  | none => rfl
  | some history' => rfl

/-- A call of `UpdateServiceStatus` on a stored endpoint: it completes, dispatches
`dispatched service r` and leaves `updatedService service r` under the ID. -/
theorem UpdateServiceStatus_stored (m : MonitorService) (r : HealthCheckResult)
    (service : MonitoredService) (hget : m.store.services.get? r.ServiceID = some service)
    (hwf : m.history.NonNegative) :
    ∃ out, m.UpdateServiceStatus r = some out ∧
      out.sent = dispatched service r ∧
      out.state.store.services.get? r.ServiceID = some (updatedService service r) ∧
      out.state.history.NonNegative ∧
      (out.err = some StoreError.ErrServiceNotFound →
        m.store.services.get? service.ID = none ∧ service.ID ≠ r.ServiceID) := by
  obtain ⟨history', hadd, hnn⟩ := AddCheckResult_nonneg m.history hwf r.ServiceID
    { Timestamp := r.CheckedAt, Status := r.Status, ResponseTime := r.ResponseTime,
      ErrorMessage := r.ErrorMessage }
  have hid := (updatedService_frame service r).1
  have hupd := Update_after_write m.store r.ServiceID (updatedService service r)
  rw [hid] at hupd
  have heq := UpdateServiceStatus_eq m r service hget
  rw [hadd] at heq
  exact ⟨_, heq, rfl, hupd.1, hnn, hupd.2⟩

theorem Get_ok (s : ServiceStore) (id : String) (service : MonitoredService) :
    s.Get id = Except.ok service ↔ s.services.get? id = some service := by
  unfold ServiceStore.Get
  cases s.services.get? id with
  | none => simp
  | some v => simp

theorem applySSL_sent (service : MonitoredService) (r : HealthCheckResult) :
    (applySSL service r).2 =
      (if IsZero r.SSLCertExpiry = false ∧ r.SSLDaysLeft ≤ 30 ∧ 0 < r.SSLDaysLeft ∧
          service.SSLAlertSent = false
        then [Notification.SendSSLExpiryAlert service.ID] else []) := by
  unfold applySSL
  cases hz : IsZero r.SSLCertExpiry with
  | true => simp
  | false =>
    by_cases hc : r.SSLDaysLeft ≤ 30 ∧ r.SSLDaysLeft > 0 ∧ service.SSLAlertSent = false
    · have hc' : r.SSLDaysLeft ≤ 30 ∧ 0 < r.SSLDaysLeft ∧ service.SSLAlertSent = false := hc
      simp [hc']
    · have hc' : ¬ (r.SSLDaysLeft ≤ 30 ∧ 0 < r.SSLDaysLeft ∧ service.SSLAlertSent = false) := hc
      simp only [Bool.not_false, if_true, hc, if_false, true_and, hc']
      split <;> rfl

theorem applyTransition_sent (prev : ServiceStatus) (service : MonitoredService)
    (r : HealthCheckResult) :
    (applyTransition prev service r).2 =
      (if r.Status = StatusUp ∧ prev = StatusDown then
          [Notification.SendServiceUpAlert service.ID]
        else if r.Status = StatusDown ∧ (prev = StatusUp ∨ prev = StatusUnknown) then
          [Notification.SendServiceDownAlert service.ID]
        else []) := by
  unfold applyTransition
  by_cases hu : r.Status = StatusUp
  · by_cases hp : prev = StatusDown
    · simp [hu, hp]
    · simp [hu, hp, up_ne_down]
  · by_cases hd : r.Status = StatusDown
    · by_cases hp : prev = StatusUp ∨ prev = StatusUnknown
      · simp [hd, hp, down_ne_up]
      · simp [hd, hp, down_ne_up]
    · simp [hu, hd]

theorem dispatched_eq (service : MonitoredService) (r : HealthCheckResult) :
    dispatched service r =
      (if IsZero r.SSLCertExpiry = false ∧ r.SSLDaysLeft ≤ 30 ∧ 0 < r.SSLDaysLeft ∧
          service.SSLAlertSent = false
        then [Notification.SendSSLExpiryAlert service.ID] else []) ++
      (if r.Status = StatusUp ∧ service.Status = StatusDown then
          [Notification.SendServiceUpAlert service.ID]
        else if r.Status = StatusDown ∧
            (service.Status = StatusUp ∨ service.Status = StatusUnknown) then
          [Notification.SendServiceDownAlert service.ID]
        else []) := by
  unfold dispatched
  rw [applySSL_sent, applyTransition_sent, (applySSL_frame service r).1]

theorem dispatched_down (service : MonitoredService) (r : HealthCheckResult) :
    (dispatched service r).filter Notification.isDown =
      (if (service.Status = StatusUp ∨ service.Status = StatusUnknown) ∧ r.Status = StatusDown
        then [Notification.SendServiceDownAlert service.ID] else []) := by
  rw [dispatched_eq]
  by_cases hu : r.Status = StatusUp
  · split <;> split <;> simp_all [Notification.isDown, up_ne_down]
  · by_cases hd : r.Status = StatusDown ∧
        (service.Status = StatusUp ∨ service.Status = StatusUnknown)
    · split <;> simp_all [Notification.isDown, down_ne_up]
    · have hd' : ¬ ((service.Status = StatusUp ∨ service.Status = StatusUnknown) ∧
          r.Status = StatusDown) := fun h => hd ⟨h.2, h.1⟩
      simp only [hu, false_and, if_false, hd, hd']
      split <;> simp [Notification.isDown]

theorem dispatched_up (service : MonitoredService) (r : HealthCheckResult) :
    (dispatched service r).filter Notification.isUp =
      (if service.Status = StatusDown ∧ r.Status = StatusUp
        then [Notification.SendServiceUpAlert service.ID] else []) := by
  rw [dispatched_eq]
  by_cases hu : r.Status = StatusUp ∧ service.Status = StatusDown
  · have hu' : service.Status = StatusDown ∧ r.Status = StatusUp := ⟨hu.2, hu.1⟩
    simp only [hu, hu', and_self, if_true]
    split <;> simp [Notification.isUp]
  · have hu' : ¬ (service.Status = StatusDown ∧ r.Status = StatusUp) := fun h => hu ⟨h.2, h.1⟩
    simp only [hu, hu', if_false]
    split <;> split <;> simp [Notification.isUp]

theorem exists_mem_iff_filter {α : Type} (p : α → Bool) (l : List α) (c : Prop) [Decidable c]
    (x : α) (hx : p x = true) (h : l.filter p = if c then [x] else []) :
    (∃ n ∈ l, p n = true) ↔ c := by
  constructor
  · rintro ⟨n, hn, hp⟩
    by_contra hc
    have hmem : n ∈ l.filter p := List.mem_filter.mpr ⟨hn, hp⟩
    rw [h] at hmem
    simp [hc] at hmem
  · intro hc
    have hmem : x ∈ l.filter p := by rw [h]; simp [hc]
    exact ⟨x, (List.mem_filter.mp hmem).1, hx⟩

/-- C1: a call of `UpdateServiceStatus` on a stored endpoint (with a history store
whose limits are non-negative) completes, and it dispatches a "down"
notification iff the status stored before the call was up or unknown and the
result status is down, a "recovered" notification iff the status stored before
the call was down and the result status is up, and neither in every other
case; a dispatched notification is single and is for this endpoint. -/
theorem status_notification_on_edge (m : MonitorService) (r : HealthCheckResult)
    (service : MonitoredService) (hget : m.store.Get r.ServiceID = Except.ok service)
    (hwf : m.history.NonNegative) :
    ∃ out, m.UpdateServiceStatus r = some out ∧
      ((∃ n ∈ out.sent, n.isDown = true) ↔
        (service.Status = StatusUp ∨ service.Status = StatusUnknown) ∧
          r.Status = StatusDown) ∧
      ((∃ n ∈ out.sent, n.isUp = true) ↔
        service.Status = StatusDown ∧ r.Status = StatusUp) ∧
      out.sent.filter Notification.isDown =
        (if (service.Status = StatusUp ∨ service.Status = StatusUnknown) ∧
            r.Status = StatusDown
          then [Notification.SendServiceDownAlert service.ID] else []) ∧
      out.sent.filter Notification.isUp =
        (if service.Status = StatusDown ∧ r.Status = StatusUp
          then [Notification.SendServiceUpAlert service.ID] else []) := by
  obtain ⟨out, hout, hsent, -, -, -⟩ :=
    UpdateServiceStatus_stored m r service ((Get_ok _ _ _).mp hget) hwf
  refine ⟨out, hout, ?_, ?_, ?_, ?_⟩
  · rw [hsent]
    exact exists_mem_iff_filter _ _ _ (Notification.SendServiceDownAlert service.ID) rfl
      (dispatched_down service r)
  · rw [hsent]
    exact exists_mem_iff_filter _ _ _ (Notification.SendServiceUpAlert service.ID) rfl
      (dispatched_up service r)
  · rw [hsent]; exact dispatched_down service r
  · rw [hsent]; exact dispatched_up service r

theorem status_notification_on_edge_witness :
    sampleMonitor.store.Get (sampleResult StatusDown).ServiceID = Except.ok sampleService ∧
    sampleMonitor.history.NonNegative ∧
    ∃ out, sampleMonitor.UpdateServiceStatus (sampleResult StatusDown) = some out ∧
      ((∃ n ∈ out.sent, n.isDown = true) ↔
        (sampleService.Status = StatusUp ∨ sampleService.Status = StatusUnknown) ∧
          (sampleResult StatusDown).Status = StatusDown) ∧
      ((∃ n ∈ out.sent, n.isUp = true) ↔
        sampleService.Status = StatusDown ∧ (sampleResult StatusDown).Status = StatusUp) ∧
      out.sent.filter Notification.isDown =
        (if (sampleService.Status = StatusUp ∨ sampleService.Status = StatusUnknown) ∧
            (sampleResult StatusDown).Status = StatusDown
          then [Notification.SendServiceDownAlert sampleService.ID] else []) ∧
      out.sent.filter Notification.isUp =
        (if sampleService.Status = StatusDown ∧ (sampleResult StatusDown).Status = StatusUp
          then [Notification.SendServiceUpAlert sampleService.ID] else []) :=
  ⟨rfl, by decide,
    status_notification_on_edge sampleMonitor (sampleResult StatusDown) sampleService rfl
      (by decide)⟩

/-- C4: on a service store that keeps every entry under its own ID,
`UpdateServiceStatus` returns `ErrServiceNotFound` iff the result's `ServiceID` is
not a key of the store; and in that case (whatever the store) the call leaves
the service store and the history store as they were and dispatches no
notification. -/
theorem not_found_leaves_state (m : MonitorService) (r : HealthCheckResult)
    (hkeys : m.store.WellKeyed) :
    ((∃ out, m.UpdateServiceStatus r = some out ∧
        out.err = some StoreError.ErrServiceNotFound) ↔
      m.store.services.get? r.ServiceID = none) ∧
    (m.store.services.get? r.ServiceID = none →
      m.UpdateServiceStatus r =
        some { err := some StoreError.ErrServiceNotFound, state := m, sent := [] }) := by
  have hnone : m.store.services.get? r.ServiceID = none →
      m.UpdateServiceStatus r =
        some { err := some StoreError.ErrServiceNotFound, state := m, sent := [] } := by
    intro hn
    unfold MonitorService.UpdateServiceStatus
    simp only [ServiceStore.Get, hn]
  refine ⟨⟨?_, fun hn => ⟨_, hnone hn, rfl⟩⟩, hnone⟩
  rintro ⟨out, hout, herr⟩
  cases hget : m.store.services.get? r.ServiceID with
  | none => rfl
  | some service =>
    exfalso
    have hid : service.ID = r.ServiceID := hkeys _ (GoMap.mem_of_get? _ _ _ hget)
    have heq := UpdateServiceStatus_eq m r service hget
    rw [hout] at heq
    cases hadd : m.history.AddCheckResult r.ServiceID
        { Timestamp := r.CheckedAt, Status := r.Status, ResponseTime := r.ResponseTime,
          ErrorMessage := r.ErrorMessage } with
    | none =>
      rw [hadd] at heq
      exact Option.noConfusion heq
    | some history' =>
      rw [hadd] at heq
      have hout' := Option.some.inj heq
      rw [hout'] at herr
      have hupd := (Update_after_write m.store r.ServiceID (updatedService service r)).2 herr
      rw [(updatedService_frame service r).1] at hupd
      exact hupd.2 hid

theorem not_found_leaves_state_witness :
    sampleMonitor.store.WellKeyed ∧
    ((∃ out, sampleMonitor.UpdateServiceStatus { sampleResult StatusDown with ServiceID := "z" }
          = some out ∧ out.err = some StoreError.ErrServiceNotFound) ↔
      sampleMonitor.store.services.get? "z" = none) ∧
    sampleMonitor.UpdateServiceStatus { sampleResult StatusDown with ServiceID := "z" } =
      some { err := some StoreError.ErrServiceNotFound, state := sampleMonitor, sent := [] } :=
  ⟨by decide,
    (not_found_leaves_state sampleMonitor { sampleResult StatusDown with ServiceID := "z" }
      (by decide)).1,
    (not_found_leaves_state sampleMonitor { sampleResult StatusDown with ServiceID := "z" }
      (by decide)).2 rfl⟩

/-! ## Sequences of calls for one endpoint -/

theorem traceFrom_results (rs : List HealthCheckResult) :
    ∀ service : MonitoredService, (traceFrom service rs).map (fun p => p.1) = rs := by
  induction rs with
  | nil => intro service; rfl
  | cons r rest ih =>
    intro service
    simp only [traceFrom, List.map_cons, ih]

/-- Calls for one stored endpoint run to the end and leave the trace
`traceFrom`. -/
theorem applyResults_trace (id : String) (rs : List HealthCheckResult) :
    ∀ (m : MonitorService) (service : MonitoredService),
      m.store.services.get? id = some service → m.history.NonNegative →
      (∀ r ∈ rs, r.ServiceID = id) →
      ∃ m', applyResults m rs = some (m', traceFrom service rs) := by
  induction rs with
  | nil => intro m service _ _ _; exact ⟨m, rfl⟩
  | cons r rest ih =>
    intro m service hget hwf hid
    have hr : r.ServiceID = id := hid r (List.mem_cons_self _ _)
    subst hr
    obtain ⟨out, hout, hsent, hstored, hnn, -⟩ := UpdateServiceStatus_stored m r service hget hwf
    obtain ⟨m', hm'⟩ := ih out.state (updatedService service r) hstored hnn
      (fun x hx => hid x (List.mem_cons_of_mem _ hx))
    exact ⟨m', by simp only [applyResults, hout, hm', traceFrom, hsent]⟩

theorem statusAlerts_dispatched (service : MonitoredService) (r : HealthCheckResult) :
    statusAlerts (dispatched service r) =
      (if r.Status = StatusUp ∧ service.Status = StatusDown then [AlertKind.recovered]
        else if r.Status = StatusDown ∧
            (service.Status = StatusUp ∨ service.Status = StatusUnknown) then [AlertKind.down]
        else []) := by
  rw [dispatched_eq]
  split <;> split <;> (try split) <;> simp [statusAlerts]

theorem statusAlerts_step (service : MonitoredService) (r : HealthCheckResult)
    (prev : Option ServiceStatus)
    (hrel : (prev = none ∧ service.Status = StatusUnknown) ∨
      (prev = some service.Status ∧
        (service.Status = StatusUp ∨ service.Status = StatusDown)))
    (hr : r.Status = StatusUp ∨ r.Status = StatusDown) :
    statusAlerts (dispatched service r) =
      (if r.Status = StatusDown ∧ prev ≠ some StatusDown then [AlertKind.down]
        else if r.Status = StatusUp ∧ prev = some StatusDown then [AlertKind.recovered]
        else []) := by
  rw [statusAlerts_dispatched]
  rcases hr with hr | hr
  · rcases hrel with ⟨hp, hs⟩ | ⟨hp, hs | hs⟩
    · simp [hr, hp, hs, up_ne_down, unknown_ne_down]
    · simp [hr, hp, hs, up_ne_down]
    · simp [hr, hp, hs, up_ne_down]
  · rcases hrel with ⟨hp, hs⟩ | ⟨hp, hs | hs⟩
    · simp [hr, hp, hs, down_ne_up]
    · simp [hr, hp, hs, down_ne_up, up_ne_down]
    · simp [hr, hp, hs, down_ne_up]
      decide

theorem traceFrom_expected (rs : List HealthCheckResult) :
    ∀ (service : MonitoredService) (prev : Option ServiceStatus),
      ((prev = none ∧ service.Status = StatusUnknown) ∨
        (prev = some service.Status ∧
          (service.Status = StatusUp ∨ service.Status = StatusDown))) →
      (∀ r ∈ rs, r.Status = StatusUp ∨ r.Status = StatusDown) →
      (traceFrom service rs).map (fun p => statusAlerts p.2)
        = expectedAlerts prev (rs.map (fun r => r.Status)) := by
  induction rs with
  | nil => intro service prev _ _; rfl
  | cons r rest ih =>
    intro service prev hrel hall
    have hr := hall r (List.mem_cons_self _ _)
    have hst := (updatedService_frame service r).2
    have hrel' : (some r.Status = none ∧ (updatedService service r).Status = StatusUnknown) ∨
        (some r.Status = some (updatedService service r).Status ∧
          ((updatedService service r).Status = StatusUp ∨
            (updatedService service r).Status = StatusDown)) := by
      rw [hst]
      exact Or.inr ⟨rfl, hr⟩
    simp only [traceFrom, List.map_cons, expectedAlerts,
      ih (updatedService service r) (some r.Status) hrel'
        (fun x hx => hall x (List.mem_cons_of_mem _ hx)),
      statusAlerts_step service r prev hrel hr]

theorem expectedAlerts_alternating (ss : List ServiceStatus) :
    ∀ prev : Option ServiceStatus, (∀ st ∈ ss, st = StatusUp ∨ st = StatusDown) →
      alternating (if prev = some StatusDown then AlertKind.recovered else AlertKind.down)
        (expectedAlerts prev ss).flatten = true := by
  induction ss with
  | nil => intro prev _; rfl
  | cons st rest ih =>
    intro prev hall
    have ih' := ih (some st) (fun x hx => hall x (List.mem_cons_of_mem _ hx))
    rcases hall st (List.mem_cons_self _ _) with hs | hs
    · subst hs
      by_cases hp : prev = some StatusDown
      · simp only [hp, expectedAlerts, up_ne_down, false_and, if_false, true_and, if_true,
          List.flatten_cons, List.singleton_append, alternating, decide_True, Bool.true_and,
          AlertKind.flip]
        simpa [up_ne_down] using ih'
      · simp only [hp, expectedAlerts, up_ne_down, false_and, if_false, and_false,
          List.flatten_cons, List.nil_append]
        simpa [up_ne_down] using ih'
    · subst hs
      by_cases hp : prev = some StatusDown
      · simp only [hp, expectedAlerts, ne_eq, not_true_eq_false, and_false, if_false,
          down_ne_up, false_and, if_true, List.flatten_cons, List.nil_append]
        simpa using ih'
      · simp only [hp, expectedAlerts, ne_eq, not_false_eq_true, and_self, if_true, if_false,
          List.flatten_cons, List.singleton_append, alternating, decide_True, Bool.true_and,
          AlertKind.flip]
        simpa using ih'

theorem expectedAlerts_downs (k : Nat) (rest : List ServiceStatus) :
    expectedAlerts (some StatusDown) (List.replicate k StatusDown ++ rest)
      = List.replicate k [] ++ expectedAlerts (some StatusDown) rest := by
  induction k with
  | zero => rfl
  | succ k ih =>
    rw [List.replicate_succ, List.cons_append]
    simp only [expectedAlerts]
    rw [ih]
    simp [down_ne_up, List.replicate_succ]

theorem expectedAlerts_ups (j : Nat) :
    expectedAlerts (some StatusUp) (List.replicate j StatusUp) = List.replicate j [] := by
  induction j with
  | zero => rfl
  | succ j ih =>
    rw [List.replicate_succ]
    simp only [expectedAlerts]
    rw [ih]
    simp [up_ne_down, List.replicate_succ]

theorem expectedAlerts_outage (k j : Nat) :
    expectedAlerts none (List.replicate (k + 1) StatusDown) =
      [AlertKind.down] :: List.replicate k [] ∧
    expectedAlerts none (List.replicate (k + 1) StatusDown ++ List.replicate (j + 1) StatusUp) =
      ([AlertKind.down] :: List.replicate k []) ++
        ([AlertKind.recovered] :: List.replicate j []) := by
  constructor
  · have h := expectedAlerts_downs k []
    simp only [List.append_nil] at h
    rw [List.replicate_succ]
    simp only [expectedAlerts]
    rw [h]
    simp [expectedAlerts]
  · have h := expectedAlerts_downs k (List.replicate (j + 1) StatusUp)
    rw [List.replicate_succ, List.cons_append]
    simp only [expectedAlerts]
    rw [h, List.replicate_succ]
    simp only [expectedAlerts]
    rw [expectedAlerts_ups]
    simp [up_ne_down]

/-- C2: for an endpoint whose stored status is unknown and any finite sequence of
up/down results applied to it one after another by `UpdateServiceStatus` (the
history limits being non-negative), the run completes and the status
notifications it dispatches alternate down, recovered, down, ..., beginning
with down: a down notification goes out exactly on a down result that does not
follow a down result, a recovered notification exactly on an up result that
follows a down result.  So `k + 1` down results in a row dispatch one down
notification, on the first of them, and `j + 1` up results after them dispatch
one recovered notification, on the first up result. -/
theorem status_notifications_alternate (m : MonitorService) (id : String)
    (service : MonitoredService) (rs : List HealthCheckResult)
    (hget : m.store.Get id = Except.ok service) (hunknown : service.Status = StatusUnknown)
    (hwf : m.history.NonNegative)
    (hrs : ∀ r ∈ rs, r.ServiceID = id ∧ (r.Status = StatusUp ∨ r.Status = StatusDown)) :
    ∃ m' trace, applyResults m rs = some (m', trace) ∧
      trace.map (fun p => p.1) = rs ∧
      alternating AlertKind.down (trace.map (fun p => statusAlerts p.2)).flatten = true ∧
      trace.map (fun p => statusAlerts p.2)
        = expectedAlerts none (rs.map (fun r => r.Status)) ∧
      (∀ k : Nat, rs.map (fun r => r.Status) = List.replicate (k + 1) StatusDown →
        trace.map (fun p => statusAlerts p.2) = [AlertKind.down] :: List.replicate k []) ∧
      (∀ k j : Nat,
        rs.map (fun r => r.Status)
          = List.replicate (k + 1) StatusDown ++ List.replicate (j + 1) StatusUp →
        trace.map (fun p => statusAlerts p.2)
          = ([AlertKind.down] :: List.replicate k []) ++
              ([AlertKind.recovered] :: List.replicate j [])) := by
  obtain ⟨m', hm'⟩ := applyResults_trace id rs m service ((Get_ok _ _ _).mp hget) hwf
    (fun r hr => (hrs r hr).1)
  have hexp := traceFrom_expected rs service none (Or.inl ⟨rfl, hunknown⟩)
    (fun r hr => (hrs r hr).2)
  have halt := expectedAlerts_alternating (rs.map (fun r => r.Status)) none (by
    intro st hst
    obtain ⟨r, hr, rfl⟩ := List.mem_map.mp hst
    exact (hrs r hr).2)
  refine ⟨m', traceFrom service rs, hm', traceFrom_results rs service, ?_, hexp, ?_, ?_⟩
  · rw [hexp]
    simpa using halt
  · intro k hk
    rw [hexp, hk]
    exact (expectedAlerts_outage k 0).1
  · intro k j hkj
    rw [hexp, hkj]
    exact (expectedAlerts_outage k j).2

theorem status_notifications_alternate_witness :
    sampleMonitor.store.Get "a" = Except.ok sampleService ∧
    sampleService.Status = StatusUnknown ∧
    sampleMonitor.history.NonNegative ∧
    ∃ m' trace,
      applyResults sampleMonitor
        [sampleResult StatusDown, sampleResult StatusDown, sampleResult StatusUp]
        = some (m', trace) ∧
      trace.map (fun p => statusAlerts p.2) = [[AlertKind.down], [], [AlertKind.recovered]] := by
  refine ⟨rfl, rfl, by decide, ?_⟩
  obtain ⟨m', trace, hrun, -, -, -, -, hout⟩ :=
    status_notifications_alternate sampleMonitor "a" sampleService
      [sampleResult StatusDown, sampleResult StatusDown, sampleResult StatusUp] rfl rfl
      (by decide) (by decide)
  exact ⟨m', trace, hrun, hout 1 0 rfl⟩

/-! ## The SSL-expiry notification -/

theorem dispatched_ssl (service : MonitoredService) (r : HealthCheckResult) :
    (dispatched service r).filter Notification.isSSL =
      (if carriesTLS r ∧ 0 < r.SSLDaysLeft ∧ r.SSLDaysLeft ≤ 30 ∧ service.SSLAlertSent = false
        then [Notification.SendSSLExpiryAlert service.ID] else []) := by
  rw [dispatched_eq]
  by_cases hc : IsZero r.SSLCertExpiry = false ∧ r.SSLDaysLeft ≤ 30 ∧ 0 < r.SSLDaysLeft ∧
      service.SSLAlertSent = false
  · have hc' : carriesTLS r ∧ 0 < r.SSLDaysLeft ∧ r.SSLDaysLeft ≤ 30 ∧
        service.SSLAlertSent = false := ⟨hc.1, hc.2.2.1, hc.2.1, hc.2.2.2⟩
    rw [if_pos hc, if_pos hc']
    split <;> (try split) <;> simp [Notification.isSSL]
  · have hc' : ¬ (carriesTLS r ∧ 0 < r.SSLDaysLeft ∧ r.SSLDaysLeft ≤ 30 ∧
        service.SSLAlertSent = false) := fun h => hc ⟨h.1, h.2.2.1, h.2.1, h.2.2.2⟩
    rw [if_neg hc, if_neg hc']
    split <;> (try split) <;> simp [Notification.isSSL]

theorem updatedService_flag (service : MonitoredService) (r : HealthCheckResult) :
    (updatedService service r).SSLAlertSent =
      (if carriesTLS r ∧ 0 < r.SSLDaysLeft ∧ r.SSLDaysLeft ≤ 30 ∧ service.SSLAlertSent = false
        then true
        else if carriesTLS r ∧ 30 < r.SSLDaysLeft then false
        else service.SSLAlertSent) := by
  unfold updatedService
  rw [(applyTransition_frame service.Status (applySSL service r).1 r).2.2]
  by_cases hz : IsZero r.SSLCertExpiry = true
  · have hn : ¬ carriesTLS r := by
      unfold carriesTLS
      rw [hz]
      decide
    simp [applySSL, hz, hn]
  · have hz' : IsZero r.SSLCertExpiry = false := by simpa using hz
    have ht : carriesTLS r := hz'
    by_cases hc : r.SSLDaysLeft ≤ 30 ∧ r.SSLDaysLeft > 0 ∧ service.SSLAlertSent = false
    · have hc' : 0 < r.SSLDaysLeft ∧ r.SSLDaysLeft ≤ 30 ∧ service.SSLAlertSent = false :=
        ⟨hc.2.1, hc.1, hc.2.2⟩
      simp [applySSL, hz', ht, hc, hc']
    · have hc' : ¬ (0 < r.SSLDaysLeft ∧ r.SSLDaysLeft ≤ 30 ∧ service.SSLAlertSent = false) :=
        fun h => hc ⟨h.2.1, h.1, h.2.2⟩
      by_cases hd : r.SSLDaysLeft > 30
      · have hd' : 30 < r.SSLDaysLeft := hd
        simp only [applySSL, hz', Bool.not_false, if_true, hc, if_false, hd, ht, true_and, hc',
          hd']
      · have hd' : ¬ 30 < r.SSLDaysLeft := hd
        simp only [applySSL, hz', Bool.not_false, if_true, hc, if_false, hd, ht, true_and, hc',
          hd']

theorem ssl_sent_iff (service : MonitoredService) (r : HealthCheckResult) :
    (∃ n ∈ dispatched service r, n.isSSL = true) ↔
      carriesTLS r ∧ 0 < r.SSLDaysLeft ∧ r.SSLDaysLeft ≤ 30 ∧ service.SSLAlertSent = false :=
  exists_mem_iff_filter _ _ _ (Notification.SendSSLExpiryAlert service.ID) rfl
    (dispatched_ssl service r)

/-- While the flag is set and no result clears it, nothing is dispatched. -/
theorem no_ssl_while_flag_set (t2 : List (HealthCheckResult × List Notification)) :
    ∀ (service : MonitoredService) (rs : List HealthCheckResult)
      (b : HealthCheckResult × List Notification)
      (t3 : List (HealthCheckResult × List Notification)),
      service.SSLAlertSent = true → traceFrom service rs = t2 ++ b :: t3 →
      (∃ n ∈ b.2, n.isSSL = true) →
      ∃ c ∈ t2, carriesTLS c.1 ∧ 30 < c.1.SSLDaysLeft := by
  induction t2 with
  | nil =>
    intro service rs b t3 hflag htrace hb
    cases rs with
    | nil => simp [traceFrom] at htrace
    | cons r rest =>
      simp only [traceFrom, List.nil_append, List.cons.injEq] at htrace
      rw [← htrace.1] at hb
      have := (ssl_sent_iff service r).mp hb
      rw [hflag] at this
      exact absurd this.2.2.2 (by decide)
  | cons c t2 ih =>
    intro service rs b t3 hflag htrace hb
    cases rs with
    | nil => simp [traceFrom] at htrace
    | cons r rest =>
      simp only [traceFrom, List.cons_append, List.cons.injEq] at htrace
      by_cases hclear : carriesTLS r ∧ 30 < r.SSLDaysLeft
      · refine ⟨c, List.mem_cons_self _ _, ?_⟩
        rw [← htrace.1]
        exact hclear
      · have hflag' : (updatedService service r).SSLAlertSent = true := by
          rw [updatedService_flag, hflag]
          simp [hclear]
        obtain ⟨c', hc', hcl⟩ := ih (updatedService service r) rest b t3 hflag' htrace.2 hb
        exact ⟨c', List.mem_cons_of_mem _ hc', hcl⟩

/-- Between two SSL-expiry notifications of a trace there is a TLS-carrying result
with more than 30 days left. -/
theorem ssl_between (t1 : List (HealthCheckResult × List Notification)) :
    ∀ (service : MonitoredService) (rs : List HealthCheckResult)
      (a b : HealthCheckResult × List Notification)
      (t2 t3 : List (HealthCheckResult × List Notification)),
      traceFrom service rs = t1 ++ a :: (t2 ++ b :: t3) →
      (∃ n ∈ a.2, n.isSSL = true) → (∃ n ∈ b.2, n.isSSL = true) →
      ∃ c ∈ t2, carriesTLS c.1 ∧ 30 < c.1.SSLDaysLeft := by
  induction t1 with
  | nil =>
    intro service rs a b t2 t3 htrace ha hb
    cases rs with
    | nil => simp [traceFrom] at htrace
    | cons r rest =>
      simp only [traceFrom, List.nil_append, List.cons.injEq] at htrace
      rw [← htrace.1] at ha
      have hcond := (ssl_sent_iff service r).mp ha
      have hflag' : (updatedService service r).SSLAlertSent = true := by
        rw [updatedService_flag, if_pos hcond]
      exact no_ssl_while_flag_set t2 (updatedService service r) rest b t3 hflag' htrace.2 hb
  | cons x t1 ih =>
    intro service rs a b t2 t3 htrace ha hb
    cases rs with
    | nil => simp [traceFrom] at htrace
    | cons r rest =>
      simp only [traceFrom, List.cons_append, List.cons.injEq] at htrace
      exact ih (updatedService service r) rest a b t2 t3 htrace.2 ha hb

theorem sslCount_flag_set (rs : List HealthCheckResult) :
    ∀ service : MonitoredService, service.SSLAlertSent = true →
      (∀ r ∈ rs, ¬ (carriesTLS r ∧ 30 < r.SSLDaysLeft)) →
      sslCount (traceFrom service rs) = 0 := by
  induction rs with
  | nil => intro service _ _; rfl
  | cons r rest ih =>
    intro service hflag hall
    have hclear := hall r (List.mem_cons_self _ _)
    have hflag' : (updatedService service r).SSLAlertSent = true := by
      rw [updatedService_flag, hflag]
      simp [hclear]
    have hrest := ih (updatedService service r) hflag'
      (fun x hx => hall x (List.mem_cons_of_mem _ hx))
    unfold sslCount at hrest ⊢
    simp only [traceFrom, List.map_cons, List.sum_cons, hrest, dispatched_ssl, hflag]
    simp

theorem sslCount_le_one (rs : List HealthCheckResult) :
    ∀ service : MonitoredService,
      (∀ r ∈ rs, ¬ (carriesTLS r ∧ 30 < r.SSLDaysLeft)) →
      sslCount (traceFrom service rs) ≤ 1 := by
  induction rs with
  | nil => intro service _; simp [sslCount, traceFrom]
  | cons r rest ih =>
    intro service hall
    have hall' : ∀ x ∈ rest, ¬ (carriesTLS x ∧ 30 < x.SSLDaysLeft) :=
      fun x hx => hall x (List.mem_cons_of_mem _ hx)
    by_cases hc : carriesTLS r ∧ 0 < r.SSLDaysLeft ∧ r.SSLDaysLeft ≤ 30 ∧
        service.SSLAlertSent = false
    · have hflag' : (updatedService service r).SSLAlertSent = true := by
        rw [updatedService_flag, if_pos hc]
      have hrest := sslCount_flag_set rest (updatedService service r) hflag' hall'
      unfold sslCount at hrest ⊢
      simp only [traceFrom, List.map_cons, List.sum_cons, hrest, dispatched_ssl, if_pos hc]
      simp
    · have hrest := ih (updatedService service r) hall'
      unfold sslCount at hrest ⊢
      simp only [traceFrom, List.map_cons, List.sum_cons, dispatched_ssl, if_neg hc]
      simpa using hrest

/-- C3: for an endpoint stored under `id` (the history limits being non-negative).
One call: a result for `id` dispatches an SSL-expiry notification iff it carries
TLS info, its days-left `d` satisfies `0 < d ≤ 30` and the endpoint's
alert-sent flag is clear; the flag is set after a dispatch; and a set flag is
clear after the call only if the result carries TLS info with `d > 30`.
A sequence of calls for `id`: the run completes; between any two SSL-expiry
notifications there is a TLS-carrying result with `d > 30`; and when no result
of the sequence carries TLS info with `d > 30` (in particular while days-left
stays within `(0, 30]`) at most one SSL-expiry notification is dispatched. -/
theorem ssl_expiry_debounced (m : MonitorService) (id : String) (service : MonitoredService)
    (hget : m.store.Get id = Except.ok service) (hwf : m.history.NonNegative) :
    (∀ r : HealthCheckResult, r.ServiceID = id →
      ∃ out service', m.UpdateServiceStatus r = some out ∧
        out.state.store.Get id = Except.ok service' ∧
        ((∃ n ∈ out.sent, n.isSSL = true) ↔
          carriesTLS r ∧ 0 < r.SSLDaysLeft ∧ r.SSLDaysLeft ≤ 30 ∧
            service.SSLAlertSent = false) ∧
        ((∃ n ∈ out.sent, n.isSSL = true) → service'.SSLAlertSent = true) ∧
        (service.SSLAlertSent = true → service'.SSLAlertSent = false →
          carriesTLS r ∧ 30 < r.SSLDaysLeft)) ∧
    (∀ rs : List HealthCheckResult, (∀ r ∈ rs, r.ServiceID = id) →
      ∃ m' trace, applyResults m rs = some (m', trace) ∧
        trace.map (fun p => p.1) = rs ∧
        (∀ (t1 : List (HealthCheckResult × List Notification))
            (a : HealthCheckResult × List Notification)
            (t2 : List (HealthCheckResult × List Notification))
            (b : HealthCheckResult × List Notification)
            (t3 : List (HealthCheckResult × List Notification)),
          trace = t1 ++ a :: (t2 ++ b :: t3) →
          (∃ n ∈ a.2, n.isSSL = true) → (∃ n ∈ b.2, n.isSSL = true) →
          ∃ c ∈ t2, carriesTLS c.1 ∧ 30 < c.1.SSLDaysLeft) ∧
        ((∀ r ∈ rs, ¬ (carriesTLS r ∧ 30 < r.SSLDaysLeft)) → sslCount trace ≤ 1)) := by
  have hget' := (Get_ok _ _ _).mp hget
  constructor
  · intro r hr
    subst hr
    obtain ⟨out, hout, hsent, hstored, -, -⟩ := UpdateServiceStatus_stored m r service hget' hwf
    refine ⟨out, updatedService service r, hout, (Get_ok _ _ _).mpr hstored, ?_, ?_, ?_⟩
    · rw [hsent]
      exact ssl_sent_iff service r
    · rw [hsent]
      intro hn
      rw [updatedService_flag, if_pos ((ssl_sent_iff service r).mp hn)]
    · intro hset hclear
      rw [updatedService_flag, hset] at hclear
      by_cases hc : carriesTLS r ∧ 30 < r.SSLDaysLeft
      · exact hc
      · simp [hc] at hclear
  · intro rs hrs
    obtain ⟨m', hm'⟩ := applyResults_trace id rs m service hget' hwf hrs
    refine ⟨m', traceFrom service rs, hm', traceFrom_results rs service, ?_, ?_⟩
    · intro t1 a t2 b t3 htrace ha hb
      exact ssl_between t1 service rs a b t2 t3 htrace ha hb
    · intro hnone
      exact sslCount_le_one rs service hnone

theorem ssl_expiry_debounced_witness :
    sampleMonitor.store.Get "a" = Except.ok sampleService ∧
    sampleMonitor.history.NonNegative ∧
    (∃ out, sampleMonitor.UpdateServiceStatus (sampleTLSResult 20) = some out ∧
      ∃ n ∈ out.sent, n.isSSL = true) ∧
    (∃ m' trace,
      applyResults sampleMonitor [sampleTLSResult 20, sampleTLSResult 10, sampleTLSResult 30]
        = some (m', trace) ∧ sslCount trace ≤ 1) := by
  refine ⟨rfl, by decide, ?_, ?_⟩
  · obtain ⟨out, service', hout, -, hiff, -, -⟩ :=
      (ssl_expiry_debounced sampleMonitor "a" sampleService rfl (by decide)).1
        (sampleTLSResult 20) rfl
    exact ⟨out, hout, hiff.mpr (by decide)⟩
  · obtain ⟨m', trace, hrun, -, -, hcount⟩ :=
      (ssl_expiry_debounced sampleMonitor "a" sampleService rfl (by decide)).2
        [sampleTLSResult 20, sampleTLSResult 10, sampleTLSResult 30] (by decide)
    exact ⟨m', trace, hrun, hcount (by decide)⟩

theorem AddCheck_keeps_newest_witness :
    (1 : Int) ≤ 2 ∧
    ((([sampleRecord 0 StatusUp 10, sampleRecord 10 StatusDown 0] :
        List HealthCheckRecord).length : Int) ≤ 2) ∧
    ∃ h', ServiceHistory.AddCheck
        { ServiceID := "a",
          Checks := [sampleRecord 0 StatusUp 10, sampleRecord 10 StatusDown 0],
          MaxChecks := 2 } (sampleRecord 20 StatusUp 7) = some h' ∧
      h'.Checks = [sampleRecord 10 StatusDown 0, sampleRecord 20 StatusUp 7] := by
  refine ⟨by decide, by decide, ?_⟩
  obtain ⟨h', hadd, -, -, -, -, -, -, hfull⟩ :=
    AddCheck_keeps_newest
      { ServiceID := "a",
        Checks := [sampleRecord 0 StatusUp 10, sampleRecord 10 StatusDown 0],
        MaxChecks := 2 } (sampleRecord 20 StatusUp 7) (by decide) (by decide)
  exact ⟨h', hadd, hfull rfl⟩

theorem history_never_exceeds_limit_witness :
    (0 : Int) ≤ 2 ∧
    ∃ s, addCheckResults (NewHistoryStore 2)
        [("a", sampleRecord 0 StatusUp 10), ("a", sampleRecord 10 StatusDown 0),
          ("b", sampleRecord 11 StatusUp 3), ("a", sampleRecord 20 StatusUp 7)] = some s ∧
      ∀ p ∈ s.histories, (p.2.Checks.length : Int) ≤ 2 := by
  refine ⟨by decide, ?_⟩
  obtain ⟨s, hs, hb⟩ := history_never_exceeds_limit 2 (by decide)
    [("a", sampleRecord 0 StatusUp 10), ("a", sampleRecord 10 StatusDown 0),
      ("b", sampleRecord 11 StatusUp 3), ("a", sampleRecord 20 StatusUp 7)]
  exact ⟨s, hs, fun p hp => by simpa using hb p hp⟩

/-! ## Frame of `UpdateServiceStatus` -/

theorem Update_err (s : ServiceStore) (v : MonitoredService) :
    (s.Update v).1 = none ∨ (s.Update v).1 = some StoreError.ErrServiceNotFound := by
  unfold ServiceStore.Update
  cases s.services.get? v.ID with
  | none => exact Or.inr rfl
  | some _ => exact Or.inl rfl

/-- A call on a stored endpoint whose log write succeeds: the outcome in full. -/
theorem UpdateServiceStatus_logged (m : MonitorService) (r : HealthCheckResult)
    (service : MonitoredService) (history' : HistoryStore)
    (hget : m.store.services.get? r.ServiceID = some service)
    (hadd : m.history.AddCheckResult r.ServiceID (checkRecord r) = some history') :
    ∃ out, m.UpdateServiceStatus r = some out ∧
      out.state.history = history' ∧
      out.sent = dispatched service r ∧
      out.state.store.services.get? r.ServiceID = some (updatedService service r) ∧
      (service.ID = r.ServiceID → out.err = none) := by
  have hid := (updatedService_frame service r).1
  have hupd := Update_after_write m.store r.ServiceID (updatedService service r)
  have heq := UpdateServiceStatus_eq m r service hget
  have hadd' : m.history.AddCheckResult r.ServiceID
      { Timestamp := r.CheckedAt, Status := r.Status, ResponseTime := r.ResponseTime,
        ErrorMessage := r.ErrorMessage } = some history' := hadd
  rw [hadd'] at heq
  refine ⟨_, heq, rfl, rfl, hupd.1, ?_⟩
  intro hk
  rcases Update_err
    { m.store with services := m.store.services.set r.ServiceID (updatedService service r) }
    (updatedService service r) with h | h
  · exact h
  · exact absurd (hid.trans hk) (hupd.2 h).2

theorem updatedService_times (service : MonitoredService) (r : HealthCheckResult) :
    (r.Status = StatusUp →
      (updatedService service r).LastUptime = r.CheckedAt ∧
      (updatedService service r).LastDowntime = service.LastDowntime) ∧
    (r.Status = StatusDown →
      (updatedService service r).LastDowntime = r.CheckedAt ∧
      (updatedService service r).LastUptime = service.LastUptime) := by
  have hssl : (applySSL service r).1.LastUptime = service.LastUptime ∧
      (applySSL service r).1.LastDowntime = service.LastDowntime := by
    unfold applySSL
    simp only []
    split
    · split
      · exact ⟨rfl, rfl⟩
      · split <;> exact ⟨rfl, rfl⟩
    · exact ⟨rfl, rfl⟩
  constructor
  · intro hu
    unfold updatedService applyTransition
    simp only [hu, if_true]
    split <;> exact ⟨rfl, hssl.2⟩
  · intro hd
    unfold updatedService applyTransition
    simp only [hd, down_ne_up, if_false, if_true]
    split <;> exact ⟨rfl, hssl.1⟩

/-- C11: a call of `UpdateServiceStatus` on a stored endpoint (history limits
non-negative) completes, with a nil error when the endpoint is kept under its
own ID, and whether or not the status changed: after an up result the
endpoint's `LastUptime` is `result.CheckedAt` and its `LastDowntime` is what it
was; after a down result its `LastDowntime` is `result.CheckedAt` and its
`LastUptime` is what it was. -/
theorem last_times_follow_result (m : MonitorService) (r : HealthCheckResult)
    (service : MonitoredService) (hget : m.store.Get r.ServiceID = Except.ok service)
    (hwf : m.history.NonNegative) :
    ∃ out service', m.UpdateServiceStatus r = some out ∧
      out.state.store.Get r.ServiceID = Except.ok service' ∧
      (service.ID = r.ServiceID → out.err = none) ∧
      (r.Status = StatusUp →
        service'.LastUptime = r.CheckedAt ∧ service'.LastDowntime = service.LastDowntime) ∧
      (r.Status = StatusDown →
        service'.LastDowntime = r.CheckedAt ∧ service'.LastUptime = service.LastUptime) := by
  obtain ⟨history', hadd, -⟩ := AddCheckResult_nonneg m.history hwf r.ServiceID (checkRecord r)
  obtain ⟨out, hout, -, -, hstored, herr⟩ :=
    UpdateServiceStatus_logged m r service history' ((Get_ok _ _ _).mp hget) hadd
  exact ⟨out, updatedService service r, hout, (Get_ok _ _ _).mpr hstored, herr,
    (updatedService_times service r).1, (updatedService_times service r).2⟩

theorem last_times_follow_result_witness :
    sampleMonitor.store.Get (sampleResult StatusDown).ServiceID = Except.ok sampleService ∧
    sampleMonitor.history.NonNegative ∧
    ∃ out service', sampleMonitor.UpdateServiceStatus (sampleResult StatusDown) = some out ∧
      out.state.store.Get "a" = Except.ok service' ∧ out.err = none ∧
      service'.LastDowntime = 5000000000 ∧ service'.LastUptime = 0 := by
  refine ⟨rfl, by decide, ?_⟩
  obtain ⟨out, service', hout, hget, herr, -, hdown⟩ :=
    last_times_follow_result sampleMonitor (sampleResult StatusDown) sampleService rfl
      (by decide)
  exact ⟨out, service', hout, hget, herr rfl, (hdown rfl).1, (hdown rfl).2⟩

/-! ## The log write of `UpdateServiceStatus` -/

theorem AddCheckResult_existing (s : HistoryStore) (id : String) (r : HealthCheckRecord)
    (old : ServiceHistory) (hget : s.histories.get? id = some old) (hmax : 0 ≤ old.MaxChecks) :
    s.AddCheckResult id r = some { s with histories := (s.histories.set id
      { old with Checks := lastN old.MaxChecks.toNat (old.Checks ++ [r]) }) } := by
  unfold HistoryStore.AddCheckResult
  simp only [hget, AddCheck_eq old r hmax]

theorem AddCheckResult_fresh (s : HistoryStore) (id : String) (r : HealthCheckRecord)
    (hget : s.histories.get? id = none) (hmax : 1 ≤ s.maxChecks) :
    s.AddCheckResult id r = some { s with histories := (s.histories.set id
      { ServiceID := id, Checks := [r], MaxChecks := s.maxChecks }) } := by
  have hne : ¬ s.maxChecks = 0 := by omega
  have hnew : NewServiceHistory id s.maxChecks
      = { ServiceID := id, Checks := [], MaxChecks := s.maxChecks } := by
    simp only [NewServiceHistory, hne, if_false]
  unfold HistoryStore.AddCheckResult
  simp only [hget, hnew]
  rw [AddCheck_eq _ r (by show (0 : Int) ≤ s.maxChecks; omega)]
  have hl : lastN s.maxChecks.toNat ([] ++ [r]) = [r] := by
    unfold lastN
    have : ([] ++ [r] : List HealthCheckRecord).length - s.maxChecks.toNat = 0 := by
      simp only [List.nil_append, List.length_singleton]
      omega
    rw [this]
    rfl
  simp only [hl]

/-- C12: a call of `UpdateServiceStatus` on a stored endpoint, on a history store
whose limits are all at least 1, completes whether or not the result carries
TLS info, and afterwards the endpoint has a history log whose last record is
the one built from the result.  If the endpoint had no log, a log holding just
that record is created under the store's limit; if it had one, the new log is
the old log followed by that one record, cut to the last `MaxChecks` records
(so it is the old log with the record appended while the log is not full). -/
theorem history_record_appended (m : MonitorService) (r : HealthCheckResult)
    (service : MonitoredService) (hget : m.store.Get r.ServiceID = Except.ok service)
    (hpos : m.history.Positive) :
    ∃ out log, m.UpdateServiceStatus r = some out ∧
      out.state.history.GetHistory r.ServiceID = some log ∧
      log.Checks.getLast? = some (checkRecord r) ∧
      (m.history.GetHistory r.ServiceID = none →
        log = { ServiceID := r.ServiceID, Checks := [checkRecord r],
                MaxChecks := m.history.maxChecks }) ∧
      (∀ old, m.history.GetHistory r.ServiceID = some old →
        log = { old with
                Checks := lastN old.MaxChecks.toNat (old.Checks ++ [checkRecord r]) } ∧
        log.Checks <:+ old.Checks ++ [checkRecord r] ∧
        ((old.Checks.length : Int) < old.MaxChecks →
          log.Checks = old.Checks ++ [checkRecord r])) := by
  have hget' := (Get_ok _ _ _).mp hget
  cases hold : m.history.histories.get? r.ServiceID with
  | none =>
    have hadd := AddCheckResult_fresh m.history r.ServiceID (checkRecord r) hold hpos.1
    obtain ⟨out, hout, hhist, -, -, -⟩ := UpdateServiceStatus_logged m r service _ hget' hadd
    refine ⟨out, ServiceHistory.mk r.ServiceID [checkRecord r] m.history.maxChecks, hout,
      ?_, ?_, ?_, ?_⟩
    · rw [hhist]
      exact GoMap.get?_set_self _ _ _
    · rfl
    · intro _; rfl
    · intro old hold'
      rw [HistoryStore.GetHistory, hold] at hold'
      exact Option.noConfusion hold'
  | some old =>
    have hmax : 1 ≤ old.MaxChecks := hpos.2 _ (GoMap.mem_of_get? _ _ _ hold)
    have hadd := AddCheckResult_existing m.history r.ServiceID (checkRecord r) old hold
      (by omega)
    obtain ⟨out, hout, hhist, -, -, -⟩ := UpdateServiceStatus_logged m r service _ hget' hadd
    have hk : old.Checks.length + 1 - old.MaxChecks.toNat ≤ old.Checks.length := by omega
    have hl : lastN old.MaxChecks.toNat (old.Checks ++ [checkRecord r])
        = old.Checks.drop (old.Checks.length + 1 - old.MaxChecks.toNat) ++ [checkRecord r] := by
      simp only [lastN, List.length_append, List.length_singleton,
        List.drop_append_of_le_length hk]
    refine ⟨out, ServiceHistory.mk old.ServiceID
      (lastN old.MaxChecks.toNat (old.Checks ++ [checkRecord r])) old.MaxChecks, hout,
      ?_, ?_, ?_, ?_⟩
    · rw [hhist]
      exact GoMap.get?_set_self _ _ _
    · show (lastN old.MaxChecks.toNat (old.Checks ++ [checkRecord r])).getLast? = _
      rw [hl]
      simp
    · intro hnone
      rw [HistoryStore.GetHistory, hold] at hnone
      exact Option.noConfusion hnone
    · intro old' hold'
      rw [HistoryStore.GetHistory, hold] at hold'
      have hoo : old = old' := Option.some.inj hold'
      subst hoo
      refine ⟨rfl, ?_, ?_⟩
      · show lastN old.MaxChecks.toNat (old.Checks ++ [checkRecord r]) <:+ _
        exact List.drop_suffix _ _
      · intro hlt
        show lastN old.MaxChecks.toNat (old.Checks ++ [checkRecord r]) = _
        have h0 : old.Checks.length + 1 - old.MaxChecks.toNat = 0 := by omega
        rw [hl, h0, List.drop_zero]

theorem history_record_appended_witness :
    sampleMonitor.store.Get (sampleTLSResult 20).ServiceID = Except.ok sampleService ∧
    sampleMonitor.history.Positive ∧
    ∃ out log, sampleMonitor.UpdateServiceStatus (sampleTLSResult 20) = some out ∧
      out.state.history.GetHistory "a" = some log ∧
      log = { ServiceID := "a", Checks := [checkRecord (sampleTLSResult 20)],
              MaxChecks := 100 } := by
  refine ⟨rfl, by decide, ?_⟩
  obtain ⟨out, log, hout, hlog, -, hnew, -⟩ :=
    history_record_appended sampleMonitor (sampleTLSResult 20) sampleService rfl (by decide)
  exact ⟨out, log, hout, hlog, hnew rfl⟩

/-! ## The stores: Add, Delete, GetAll -/

theorem GoMap.get?_erase_self {V : Type} (m : GoMap V) (k : String) :
    (m.erase k).get? k = none := by
  induction m with
  | nil => rfl
  | cons p m ih =>
    obtain ⟨k0, v0⟩ := p
    unfold GoMap.erase at ih ⊢
    by_cases hk : k0 = k
    · simp only [List.filter_cons, hk, ne_eq, not_true_eq_false, decide_False]
      exact ih
    · simp only [List.filter_cons, hk, ne_eq, not_false_eq_true, decide_True, if_true,
        GoMap.get?, if_false]
      exact ih

theorem GoMap.get?_erase_other {V : Type} (m : GoMap V) (k k' : String) (hne : k' ≠ k) :
    (m.erase k).get? k' = m.get? k' := by
  induction m with
  | nil => rfl
  | cons p m ih =>
    obtain ⟨k0, v0⟩ := p
    unfold GoMap.erase at ih ⊢
    by_cases hk : k0 = k
    · have hk' : ¬ k0 = k' := fun h => hne (h.symm.trans hk)
      simp only [List.filter_cons, hk, ne_eq, not_true_eq_false, decide_False, GoMap.get?]
      rw [← hk, if_neg hk'] 
      rw [hk]
      exact ih
    · simp only [List.filter_cons, hk, ne_eq, not_false_eq_true, decide_True, if_true,
        GoMap.get?, ih]

theorem triggerSave_services (s : ServiceStore) : s.triggerSave.services = s.services := by
  unfold ServiceStore.triggerSave
  split <;> rfl

theorem Get_error (s : ServiceStore) (id : String) :
    s.Get id = Except.error StoreError.ErrServiceNotFound ↔ s.services.get? id = none := by
  unfold ServiceStore.Get
  cases s.services.get? id with
  | none => simp
  | some v => simp

/-- C14: `ServiceStore.Add(s)` returns `ErrServiceExists` iff `s.ID` is already a
key of the store, and then the store, its save count included, is what it was;
otherwise it returns nil, one save is triggered when the callback is set,
`Get(s.ID)` returns `s` afterwards and every other key maps to what it did
before. -/
theorem add_refuses_existing_id (s : ServiceStore) (service : MonitoredService) :
    ((s.Add service).1 = some StoreError.ErrServiceExists ↔
      (s.services.get? service.ID).isSome = true) ∧
    ((s.services.get? service.ID).isSome = true →
      s.Add service = (some StoreError.ErrServiceExists, s)) ∧
    ((s.services.get? service.ID).isSome = false →
      (s.Add service).1 = none ∧
      (s.Add service).2.Get service.ID = Except.ok service ∧
      (s.Add service).2.saves = s.saves + (if s.hasOnSave then 1 else 0) ∧
      ∀ k, k ≠ service.ID → (s.Add service).2.services.get? k = s.services.get? k) := by
  cases hg : s.services.get? service.ID with
  | some v =>
    refine ⟨?_, ?_, ?_⟩
    · simp [ServiceStore.Add, hg]
    · intro _
      simp only [ServiceStore.Add, hg]
    · intro h
      simp at h
  | none =>
    refine ⟨?_, ?_, ?_⟩
    · simp [ServiceStore.Add, hg]
    · intro h
      simp at h
    · intro _
      simp only [ServiceStore.Add, hg]
      refine ⟨trivial, ?_, ?_, ?_⟩
      · rw [Get_ok, triggerSave_services]
        exact GoMap.get?_set_self _ _ _
      · unfold ServiceStore.triggerSave
        split <;> simp_all
      · intro k hk
        rw [triggerSave_services]
        exact GoMap.get?_set_other _ _ _ _ (fun h => hk h.symm)

theorem add_refuses_existing_id_witness :
    sampleMonitor.store.Add sampleService
        = (some StoreError.ErrServiceExists, sampleMonitor.store) ∧
    (sampleMonitor.store.Add { sampleService with ID := "b" }).1 = none ∧
    (sampleMonitor.store.Add { sampleService with ID := "b" }).2.Get "b"
        = Except.ok { sampleService with ID := "b" } :=
  ⟨(add_refuses_existing_id sampleMonitor.store sampleService).2.1 rfl,
   ((add_refuses_existing_id sampleMonitor.store { sampleService with ID := "b" }).2.2 rfl).1,
   ((add_refuses_existing_id sampleMonitor.store { sampleService with ID := "b" }).2.2 rfl).2.1⟩

/-- C13: for a stored endpoint ID the delete-endpoint operation answers 200 and
afterwards `Get` on the service store fails with `ErrServiceNotFound`, the
history store has no log for the ID (`GetHistory` returns nil), the get-endpoint
and get-history requests for the ID are answered 404, and every other key of
either store maps to what it did before.  For an ID that is not stored,
`Delete` fails with `ErrServiceNotFound`, the operation answers 404 and both
stores are what they were. -/
theorem delete_removes_endpoint_and_log (st : MonitorService) (id : String) :
    (∀ service, st.store.Get id = Except.ok service →
      (ServiceHandler.DeleteService st id).code = 200 ∧
      (ServiceHandler.DeleteService st id).state.store.Get id
        = Except.error StoreError.ErrServiceNotFound ∧
      (ServiceHandler.DeleteService st id).state.history.GetHistory id = none ∧
      (ServiceHandler.GetService (ServiceHandler.DeleteService st id).state id).code = 404 ∧
      ServiceHandler.GetServiceHistory (ServiceHandler.DeleteService st id).state id
        = (404, none) ∧
      ∀ k, k ≠ id →
        (ServiceHandler.DeleteService st id).state.store.services.get? k
          = st.store.services.get? k ∧
        (ServiceHandler.DeleteService st id).state.history.histories.get? k
          = st.history.histories.get? k) ∧
    (st.store.Get id = Except.error StoreError.ErrServiceNotFound →
      (st.store.Delete id).1 = some StoreError.ErrServiceNotFound ∧
      ServiceHandler.DeleteService st id
        = { code := 404, body := none, state := st, sent := [] }) := by
  constructor
  · intro service hget
    have hg := (Get_ok _ _ _).mp hget
    have hdel : ServiceHandler.DeleteService st id =
        { code := 200, body := none,
          state :=
            { store := ServiceStore.triggerSave
                { st.store with services := st.store.services.erase id }
              history := st.history.DeleteHistory id }
          sent := [] } := by
      simp only [ServiceHandler.DeleteService, ServiceStore.Delete, hg]
    rw [hdel]
    have hgone : (ServiceStore.triggerSave
        { st.store with services := st.store.services.erase id }).Get id
        = Except.error StoreError.ErrServiceNotFound := by
      rw [Get_error, triggerSave_services]
      exact GoMap.get?_erase_self _ _
    refine ⟨rfl, hgone, ?_, ?_, ?_, ?_⟩
    · exact GoMap.get?_erase_self _ _
    · simp only [ServiceHandler.GetService, hgone]
    · simp only [ServiceHandler.GetServiceHistory, hgone]
    · intro k hk
      constructor
      · rw [triggerSave_services]
        exact GoMap.get?_erase_other _ _ _ hk
      · exact GoMap.get?_erase_other _ _ _ hk
  · intro hget
    have hg := (Get_error _ _).mp hget
    simp only [ServiceHandler.DeleteService, ServiceStore.Delete, hg, and_self]

theorem delete_removes_endpoint_and_log_witness :
    sampleMonitor.store.Get "a" = Except.ok sampleService ∧
    (ServiceHandler.DeleteService sampleMonitor "a").code = 200 ∧
    (ServiceHandler.DeleteService sampleMonitor "a").state.store.Get "a"
      = Except.error StoreError.ErrServiceNotFound ∧
    ServiceHandler.DeleteService sampleMonitor "z"
      = { code := 404, body := none, state := sampleMonitor, sent := [] } :=
  ⟨rfl,
   ((delete_removes_endpoint_and_log sampleMonitor "a").1 sampleService rfl).1,
   ((delete_removes_endpoint_and_log sampleMonitor "a").1 sampleService rfl).2.1,
   ((delete_removes_endpoint_and_log sampleMonitor "z").2 rfl).2⟩

theorem GoMap.mem_entriesAux {V : Type} (m : GoMap V) :
    ∀ (seen : List String) (k : String) (v : V),
      (k, v) ∈ GoMap.entriesAux seen m ↔ k ∉ seen ∧ m.get? k = some v := by
  induction m with
  | nil => intro seen k v; simp [GoMap.entriesAux, GoMap.get?]
  | cons p m ih =>
    intro seen k v
    obtain ⟨k0, v0⟩ := p
    by_cases hs : k0 ∈ seen
    · simp only [GoMap.entriesAux, hs, if_true, ih, GoMap.get?]
      by_cases hk : k0 = k
      · subst hk
        simp [hs]
      · simp [hk]
    · simp only [GoMap.entriesAux, hs, if_false, List.mem_cons, Prod.mk.injEq, ih, GoMap.get?]
      by_cases hk : k0 = k
      · subst hk
        simp [hs, eq_comm]
      · have hk' : ¬ k = k0 := fun h => hk h.symm
        simp [hk, hk']

theorem GoMap.nodup_entriesAux {V : Type} (m : GoMap V) :
    ∀ seen : List String, ((GoMap.entriesAux seen m).map (fun p => p.1)).Nodup := by
  induction m with
  | nil => intro seen; simp [GoMap.entriesAux]
  | cons p m ih =>
    intro seen
    obtain ⟨k0, v0⟩ := p
    by_cases hs : k0 ∈ seen
    · simp only [GoMap.entriesAux, hs, if_true]
      exact ih seen
    · simp only [GoMap.entriesAux, hs, if_false, List.map_cons, List.nodup_cons]
      refine ⟨?_, ih (k0 :: seen)⟩
      intro hmem
      obtain ⟨⟨k, v⟩, hp, hk⟩ := List.mem_map.mp hmem
      have := ((GoMap.mem_entriesAux m (k0 :: seen) k v).mp hp).1
      simp only at hk
      subst hk
      exact this (List.mem_cons_self _ _)

theorem mayPrecede_total : IsTotal MonitoredService mayPrecede :=
  ⟨fun a b => by
    unfold mayPrecede createdAfter
    rcases le_total a.CreatedAt b.CreatedAt with h | h
    · exact Or.inr (not_lt.mpr h)
    · exact Or.inl (not_lt.mpr h)⟩

theorem mayPrecede_trans : IsTrans MonitoredService mayPrecede :=
  ⟨fun a b c hab hbc => by
    unfold mayPrecede createdAfter at *
    exact not_lt.mpr (le_trans (not_lt.mp hbc) (not_lt.mp hab))⟩

/-- C15: for every store state `GetAll` returns the stored endpoints, each once: a
permutation of the values of the map's entries, of which there is one for each
key, holding the value the key maps to; and the result is ordered newest
first: no element is followed, at any distance, by an element with a strictly
later `CreatedAt`. -/
theorem getAll_newest_first (s : ServiceStore) :
    List.Perm s.GetAll ((GoMap.entries s.services).map (fun p => p.2)) ∧
    ((GoMap.entries s.services).map (fun p => p.1)).Nodup ∧
    (∀ k v, (k, v) ∈ GoMap.entries s.services ↔ s.services.get? k = some v) ∧
    List.Pairwise (fun a b => ¬ b.CreatedAt > a.CreatedAt) s.GetAll := by
  refine ⟨List.perm_insertionSort _ _, GoMap.nodup_entriesAux _ _, ?_, ?_⟩
  · intro k v
    rw [GoMap.entries, GoMap.mem_entriesAux]
    simp
  · haveI := mayPrecede_total
    haveI := mayPrecede_trans
    exact List.sorted_insertionSort mayPrecede _

/-! ## The handlers UpdateService and CreateService -/

/-- C16: for an endpoint stored under `id` and every outcome of binding the
request body, after `UpdateService` the endpoint stored under `id` has the
`ID`, `CreatedAt`, `Status` and `LastCheck` it had before, and the history store
is untouched.  When the endpoint is kept under its own ID and the body binds,
the answer is 200, the stored endpoint is the body with those four fields put
back, and every other key maps to what it did before. -/
theorem update_keeps_identity_and_status (st : MonitorService) (id : String)
    (bound : Option MonitoredService) (existing : MonitoredService)
    (hget : st.store.Get id = Except.ok existing) :
    ∃ service', (ServiceHandler.UpdateService st id bound).state.store.Get id
        = Except.ok service' ∧
      service'.ID = existing.ID ∧ service'.CreatedAt = existing.CreatedAt ∧
      service'.Status = existing.Status ∧ service'.LastCheck = existing.LastCheck ∧
      (ServiceHandler.UpdateService st id bound).state.history = st.history ∧
      (∀ req, bound = some req → existing.ID = id →
        (ServiceHandler.UpdateService st id bound).code = 200 ∧
        service' = { req with
                     ID := existing.ID
                     CreatedAt := existing.CreatedAt
                     Status := existing.Status
                     LastCheck := existing.LastCheck } ∧
        ∀ k, k ≠ id →
          (ServiceHandler.UpdateService st id bound).state.store.services.get? k
            = st.store.services.get? k) := by
  have hg := (Get_ok _ _ _).mp hget
  cases bound with
  | none =>
    refine ⟨existing, ?_, rfl, rfl, rfl, rfl, ?_, ?_⟩
    · simp only [ServiceHandler.UpdateService, hget]
    · simp only [ServiceHandler.UpdateService, hget]
    · intro req hreq
      exact Option.noConfusion hreq
  | some req =>
    by_cases hk : existing.ID = id
    · have hg' : st.store.services.get? existing.ID = some existing := by rw [hk]; exact hg
      refine ⟨{ req with
                ID := existing.ID
                CreatedAt := existing.CreatedAt
                Status := existing.Status
                LastCheck := existing.LastCheck }, ?_, rfl, rfl, rfl, rfl, ?_, ?_⟩
      · simp only [ServiceHandler.UpdateService, hget, ServiceStore.Update, hg']
        rw [Get_ok, triggerSave_services, ← hk]
        exact GoMap.get?_set_self _ _ _
      · simp only [ServiceHandler.UpdateService, hget, ServiceStore.Update, hg']
      · intro req' hreq _
        have hrr : req = req' := Option.some.inj hreq
        subst hrr
        simp only [ServiceHandler.UpdateService, hget, ServiceStore.Update, hg']
        refine ⟨trivial, trivial, ?_⟩
        intro k hkk
        rw [triggerSave_services]
        exact GoMap.get?_set_other _ _ _ _ (fun h => hkk (h.symm.trans hk))
    · refine ⟨existing, ?_, rfl, rfl, rfl, rfl, ?_, ?_⟩
      · simp only [ServiceHandler.UpdateService, hget, ServiceStore.Update]
        cases st.store.services.get? existing.ID with
        | none => exact hget
        | some other =>
          simp only []
          rw [Get_ok, triggerSave_services]
          rw [GoMap.get?_set_other _ _ _ _ hk]
          exact hg
      · simp only [ServiceHandler.UpdateService, hget, ServiceStore.Update]
        cases st.store.services.get? existing.ID with
        | none => rfl
        | some other => rfl
      · intro req' _ hid
        exact absurd hid hk

theorem update_keeps_identity_and_status_witness :
    sampleMonitor.store.Get "a" = Except.ok sampleService ∧
    ∃ service', (ServiceHandler.UpdateService sampleMonitor "a" (some sampleRequest)).state.store.Get
          "a" = Except.ok service' ∧
      service'.ID = "a" ∧ service'.Status = StatusUnknown ∧ service'.CreatedAt = 1 ∧
      service'.LastCheck = 0 ∧ service'.Name = "new site" := by
  refine ⟨rfl, ?_⟩
  obtain ⟨service', hget, h1, h2, h3, h4, -, hbody⟩ :=
    update_keeps_identity_and_status sampleMonitor "a" (some sampleRequest) sampleService rfl
  refine ⟨service', hget, h1, h3, h2, h4, ?_⟩
  rw [(hbody sampleRequest rfl rfl).2.1]
  rfl

theorem createDefaults_fields (req : MonitoredService) (id : String) (now : Time) :
    (createDefaults req id now).ID = id ∧
    (createDefaults req id now).Status = StatusUnknown ∧
    (createDefaults req id now).CreatedAt = now ∧
    (createDefaults req id now).CheckInterval
      = (if req.CheckInterval = 0 then 60 else req.CheckInterval) ∧
    (createDefaults req id now).Timeout = (if req.Timeout = 0 then 10 else req.Timeout) := by
  unfold createDefaults
  by_cases hi : req.CheckInterval = 0 <;> by_cases ht : req.Timeout = 0 <;> simp [hi, ht]

theorem checkSSLCertificate_frame (probe : Probe) (result : HealthCheckResult) :
    (checkSSLCertificate probe result).ServiceID = result.ServiceID ∧
    (checkSSLCertificate probe result).Status = result.Status ∧
    (checkSSLCertificate probe result).ErrorMessage = result.ErrorMessage := by
  unfold checkSSLCertificate
  cases probe.cert with
  | none => exact ⟨rfl, rfl, rfl⟩
  | some c => exact ⟨rfl, rfl, rfl⟩

theorem checkHTTP_id (service : MonitoredService) (result : HealthCheckResult)
    (probe : Probe) : (checkHTTP service result probe).ServiceID = result.ServiceID := by
  unfold checkHTTP
  cases probe.http with
  | failed err => rfl
  | response code =>
    simp only []
    split
    · rw [(checkSSLCertificate_frame _ _).1]
      split <;> rfl
    · split <;> rfl

theorem checkTCPPort_id (result : HealthCheckResult) (probe : Probe) :
    (checkTCPPort result probe).ServiceID = result.ServiceID := by
  unfold checkTCPPort
  cases probe.tcp <;> rfl

theorem checkUDPPort_id (result : HealthCheckResult) (probe : Probe) :
    (checkUDPPort result probe).ServiceID = result.ServiceID := by
  unfold checkUDPPort
  cases probe.udp with
  | readFailed err timeout => cases timeout <;> rfl
  | resolveFailed err => rfl
  | dialFailed err => rfl
  | writeFailed err => rfl
  | replied => rfl

theorem CheckService_id (service : MonitoredService) (now : Time) (probe : Probe) :
    (CheckService service now probe).ServiceID = service.ID := by
  unfold CheckService
  simp only []
  split_ifs <;>
    first
      | exact checkTCPPort_id _ _
      | exact checkUDPPort_id _ _
      | exact checkHTTP_id _ _ _

theorem updatedService_settings (service : MonitoredService) (r : HealthCheckResult) :
    (updatedService service r).CheckInterval = service.CheckInterval ∧
    (updatedService service r).Timeout = service.Timeout := by
  have hssl : (applySSL service r).1.CheckInterval = service.CheckInterval ∧
      (applySSL service r).1.Timeout = service.Timeout := by
    unfold applySSL
    simp only []
    split
    · split
      · exact ⟨rfl, rfl⟩
      · split <;> exact ⟨rfl, rfl⟩
    · exact ⟨rfl, rfl⟩
  have htr : ∀ s : MonitoredService,
      (applyTransition service.Status s r).1.CheckInterval = s.CheckInterval ∧
      (applyTransition service.Status s r).1.Timeout = s.Timeout := by
    intro s
    unfold applyTransition
    simp only []
    split
    · split <;> exact ⟨rfl, rfl⟩
    · split
      · split <;> exact ⟨rfl, rfl⟩
      · exact ⟨rfl, rfl⟩
  unfold updatedService
  exact ⟨(htr _).1.trans hssl.1, (htr _).2.trans hssl.2⟩

/-- C17: the endpoint that `CreateService` builds from a bound request has the
fresh ID, status unknown whatever the body says, `CheckInterval = 60` if the
request's interval is zero and the request's value otherwise, and
`Timeout = 10` if the request's timeout is zero and the request's value
otherwise.  When the ID is not yet a key, `Add` stores exactly this endpoint,
before the first check; and (history limits non-negative) the handler then
answers 201 and the stored endpoint still has that interval and timeout. -/
theorem create_sets_defaults (st : MonitorService) (req : MonitoredService) (id : String)
    (now checkedAt : Time) (probe : Probe)
    (hfresh : st.store.services.get? id = none) (hwf : st.history.NonNegative) :
    (createDefaults req id now).Status = StatusUnknown ∧
    (createDefaults req id now).CheckInterval
      = (if req.CheckInterval = 0 then 60 else req.CheckInterval) ∧
    (createDefaults req id now).Timeout = (if req.Timeout = 0 then 10 else req.Timeout) ∧
    (st.store.Add (createDefaults req id now)).1 = none ∧
    (st.store.Add (createDefaults req id now)).2.Get id
      = Except.ok (createDefaults req id now) ∧
    ∃ res service', ServiceHandler.CreateService st (some req) id now checkedAt probe
        = some res ∧
      res.code = 201 ∧
      res.state.store.Get id = Except.ok service' ∧
      service'.CheckInterval = (if req.CheckInterval = 0 then 60 else req.CheckInterval) ∧
      service'.Timeout = (if req.Timeout = 0 then 10 else req.Timeout) := by
  have hf := createDefaults_fields req id now
  have hfresh' : st.store.services.get? (createDefaults req id now).ID = none := by
    rw [hf.1]; exact hfresh
  obtain ⟨store', hadd, hserv⟩ : ∃ store' : ServiceStore,
      st.store.Add (createDefaults req id now) = (none, store') ∧
      store'.services = st.store.services.set (createDefaults req id now).ID
        (createDefaults req id now) :=
    ⟨ServiceStore.triggerSave (ServiceStore.mk
        (st.store.services.set (createDefaults req id now).ID (createDefaults req id now))
        st.store.hasOnSave st.store.saves),
      by simp only [ServiceStore.Add, hfresh'], triggerSave_services _⟩
  have hstored : (MonitorService.mk store' st.history).store.services.get?
        (CheckService (createDefaults req id now) checkedAt probe).ServiceID
      = some (createDefaults req id now) := by
    show store'.services.get? _ = _
    rw [hserv, CheckService_id]
    exact GoMap.get?_set_self _ _ _
  obtain ⟨history', hlog, -⟩ := AddCheckResult_nonneg st.history hwf
    (CheckService (createDefaults req id now) checkedAt probe).ServiceID
    (checkRecord (CheckService (createDefaults req id now) checkedAt probe))
  obtain ⟨out, hout, -, -, hafter, herr⟩ := UpdateServiceStatus_logged
    (MonitorService.mk store' st.history)
    (CheckService (createDefaults req id now) checkedAt probe)
    (createDefaults req id now) history' hstored hlog
  have herr' := herr (CheckService_id _ _ _).symm
  rw [CheckService_id, hf.1] at hafter
  refine ⟨hf.2.1, hf.2.2.2.1, hf.2.2.2.2, ?_, ?_, ?_⟩
  · rw [hadd]
  · rw [hadd, Get_ok]
    show store'.services.get? id = _
    rw [hserv, hf.1]
    exact GoMap.get?_set_self _ _ _
  · refine ⟨HandlerResult.mk 201 (out.state.store.services.get? (createDefaults req id now).ID)
        out.state out.sent,
      updatedService (createDefaults req id now)
        (CheckService (createDefaults req id now) checkedAt probe), ?_, rfl,
      (Get_ok _ _ _).mpr hafter, ?_, ?_⟩
    · simp only [ServiceHandler.CreateService, hadd, hout, herr']
    · rw [(updatedService_settings _ _).1, hf.2.2.2.1]
    · rw [(updatedService_settings _ _).2, hf.2.2.2.2]

theorem create_sets_defaults_witness :
    sampleMonitor.store.services.get? "fresh" = none ∧
    sampleMonitor.history.NonNegative ∧
    (createDefaults sampleRequest "fresh" 50).Status = StatusUnknown ∧
    (sampleMonitor.store.Add (createDefaults sampleRequest "fresh" 50)).2.Get "fresh"
      = Except.ok (createDefaults sampleRequest "fresh" 50) ∧
    ∃ res service',
      ServiceHandler.CreateService sampleMonitor (some sampleRequest) "fresh" 50 60 sampleProbe
        = some res ∧
      res.code = 201 ∧ res.state.store.Get "fresh" = Except.ok service' ∧
      service'.CheckInterval = 60 ∧ service'.Timeout = 25 := by
  obtain ⟨h1, -, -, -, h5, res, service', hres, hcode, hget, hi, ht⟩ :=
    create_sets_defaults sampleMonitor sampleRequest "fresh" 50 60 sampleProbe rfl (by decide)
  exact ⟨rfl, by decide, h1, h5, res, service', hres, hcode, hget, hi, ht⟩

/-! ## The checks -/

theorem append_ne_empty (s t : String) (hs : s.length ≠ 0) : s ++ t ≠ "" := by
  intro h
  have hl := congrArg String.length h
  rw [String.length_append] at hl
  have h0 : ("" : String).length = 0 := rfl
  omega

/-- C18: for a service whose check type is not tcp or udp (so that `CheckService`
runs `checkHTTP` on a fresh result).  When a response with status code `c` is
received, the result is up with empty error text iff `200 ≤ c < 400`, and
otherwise it is down with the error text "HTTP status code: c"; when the
request fails with a transport error, the result is down with that error's
text.  The reported status is always up or down. -/
theorem http_check_verdict (service : MonitoredService) (now : Time) (probe : Probe)
    (hkind : service.CheckType ≠ CheckTypeTCP ∧ service.CheckType ≠ CheckTypeUDP) :
    (∀ c, probe.http = HTTPReply.response c →
      (((CheckService service now probe).Status = StatusUp ∧
          (CheckService service now probe).ErrorMessage = "") ↔ 200 ≤ c ∧ c < 400) ∧
      (¬ (200 ≤ c ∧ c < 400) →
        (CheckService service now probe).Status = StatusDown ∧
        (CheckService service now probe).ErrorMessage = "HTTP status code: " ++ toString c)) ∧
    (∀ e, probe.http = HTTPReply.failed e →
      (CheckService service now probe).Status = StatusDown ∧
      (CheckService service now probe).ErrorMessage = e) ∧
    ((CheckService service now probe).Status = StatusUp ∨
      (CheckService service now probe).Status = StatusDown) := by
  have hcs : CheckService service now probe =
      checkHTTP service
        { ServiceID := service.ID, Status := "", ResponseTime := 0, ErrorMessage := "",
          CheckedAt := now, SSLCertExpiry := 0, SSLCertIssuer := "", SSLDaysLeft := 0 }
        probe := by
    unfold CheckService
    simp only []
    split_ifs with h1 h2 h3 h4 h5
    · exact absurd h2 (by decide)
    · exact absurd h3 (by decide)
    · rfl
    · exact absurd h4 hkind.1
    · exact absurd h5 hkind.2
    · rfl
  rw [hcs]
  cases hp : probe.http with
  | failed err =>
    refine ⟨?_, ?_, ?_⟩
    · intro c hc
      exact HTTPReply.noConfusion hc
    · intro e he
      have hee : err = e := HTTPReply.failed.inj he
      subst hee
      simp only [checkHTTP, hp, and_self]
    · right
      simp only [checkHTTP, hp]
  | response code =>
    have hframe := fun r => checkSSLCertificate_frame probe r
    by_cases hr : code ≥ 200 ∧ code < 400
    · have hst : (checkHTTP service
          { ServiceID := service.ID, Status := "", ResponseTime := 0, ErrorMessage := "",
            CheckedAt := now, SSLCertExpiry := 0, SSLCertIssuer := "", SSLDaysLeft := 0 }
          probe).Status = StatusUp ∧
          (checkHTTP service
          { ServiceID := service.ID, Status := "", ResponseTime := 0, ErrorMessage := "",
            CheckedAt := now, SSLCertExpiry := 0, SSLCertIssuer := "", SSLDaysLeft := 0 }
          probe).ErrorMessage = "" := by
        simp only [checkHTTP, hp, hr, and_self, if_true]
        split
        · rw [(hframe _).2.1, (hframe _).2.2]
          exact ⟨rfl, rfl⟩
        · exact ⟨rfl, rfl⟩
      refine ⟨?_, ?_, Or.inl hst.1⟩
      · intro c hc
        have hcc : code = c := HTTPReply.response.inj hc
        subst hcc
        exact ⟨⟨fun _ => hr, fun _ => hst⟩, fun hn => absurd hr hn⟩
      · intro e he
        exact HTTPReply.noConfusion he
    · have hst : (checkHTTP service
          { ServiceID := service.ID, Status := "", ResponseTime := 0, ErrorMessage := "",
            CheckedAt := now, SSLCertExpiry := 0, SSLCertIssuer := "", SSLDaysLeft := 0 }
          probe).Status = StatusDown ∧
          (checkHTTP service
          { ServiceID := service.ID, Status := "", ResponseTime := 0, ErrorMessage := "",
            CheckedAt := now, SSLCertExpiry := 0, SSLCertIssuer := "", SSLDaysLeft := 0 }
          probe).ErrorMessage = "HTTP status code: " ++ toString code := by
        simp only [checkHTTP, hp, hr, if_false]
        split
        · rw [(hframe _).2.1, (hframe _).2.2]
          exact ⟨rfl, rfl⟩
        · exact ⟨rfl, rfl⟩
      refine ⟨?_, ?_, Or.inr hst.1⟩
      · intro c hc
        have hcc : code = c := HTTPReply.response.inj hc
        subst hcc
        refine ⟨⟨fun h => ?_, fun h => absurd h hr⟩, fun _ => hst⟩
        rw [hst.1] at h
        exact absurd h.1 down_ne_up
      · intro e he
        exact HTTPReply.noConfusion he

theorem http_check_verdict_witness :
    (sampleService.CheckType ≠ CheckTypeTCP ∧ sampleService.CheckType ≠ CheckTypeUDP) ∧
    (CheckService sampleService 60 { sampleProbe with http := HTTPReply.response 503 }).Status
      = StatusDown ∧
    (CheckService sampleService 60
        { sampleProbe with http := HTTPReply.response 503 }).ErrorMessage
      = "HTTP status code: " ++ toString (503 : Int) :=
  ⟨by decide,
   (((http_check_verdict sampleService 60 { sampleProbe with http := HTTPReply.response 503 }
      (by decide)).1 503 rfl).2 (by decide)).1,
   (((http_check_verdict sampleService 60 { sampleProbe with http := HTTPReply.response 503 }
      (by decide)).1 503 rfl).2 (by decide)).2⟩

/-- C19: for a service whose check type is udp (so that `CheckService` runs
`checkUDPPort` on a fresh result).  If address resolution, opening the socket or
writing the probe fails, the result is down with non-empty error text; if the
reply read fails with a timeout, the result is up and carries the note "UDP
port is open (no response received, which is normal)"; if the read fails with
any other error, the result is down; if a reply is read, the result is up with
empty error text. -/
theorem udp_check_verdict (service : MonitoredService) (now : Time) (probe : Probe)
    (hkind : service.CheckType = CheckTypeUDP) :
    (∀ e, (probe.udp = UDPReply.resolveFailed e ∨ probe.udp = UDPReply.dialFailed e ∨
          probe.udp = UDPReply.writeFailed e) →
      (CheckService service now probe).Status = StatusDown ∧
      (CheckService service now probe).ErrorMessage ≠ "") ∧
    (∀ e, probe.udp = UDPReply.readFailed e true →
      (CheckService service now probe).Status = StatusUp ∧
      (CheckService service now probe).ErrorMessage
        = "UDP port is open (no response received, which is normal)") ∧
    (∀ e, probe.udp = UDPReply.readFailed e false →
      (CheckService service now probe).Status = StatusDown) ∧
    (probe.udp = UDPReply.replied →
      (CheckService service now probe).Status = StatusUp ∧
      (CheckService service now probe).ErrorMessage = "") := by
  have hcs : CheckService service now probe =
      checkUDPPort
        { ServiceID := service.ID, Status := "", ResponseTime := 0, ErrorMessage := "",
          CheckedAt := now, SSLCertExpiry := 0, SSLCertIssuer := "", SSLDaysLeft := 0 }
        probe := by
    unfold CheckService
    simp only [hkind]
    rfl
  rw [hcs]
  refine ⟨?_, ?_, ?_, ?_⟩
  · intro e he
    rcases he with he | he | he
    · simp only [checkUDPPort, he]
      exact ⟨trivial, append_ne_empty _ _ (by decide)⟩
    · simp only [checkUDPPort, he]
      exact ⟨trivial, append_ne_empty _ _ (by decide)⟩
    · simp only [checkUDPPort, he]
      exact ⟨trivial, append_ne_empty _ _ (by decide)⟩
  · intro e he
    simp only [checkUDPPort, he, if_true, and_self]
  · intro e he
    simp only [checkUDPPort, he]
    rfl
  · intro he
    simp only [checkUDPPort, he, and_self]

theorem udp_check_verdict_witness :
    ({ sampleService with CheckType := CheckTypeUDP } : MonitoredService).CheckType
      = CheckTypeUDP ∧
    (CheckService { sampleService with CheckType := CheckTypeUDP } 60
        { sampleProbe with udp := UDPReply.readFailed "i/o timeout" true }).Status = StatusUp ∧
    (CheckService { sampleService with CheckType := CheckTypeUDP } 60
        { sampleProbe with udp := UDPReply.readFailed "i/o timeout" true }).ErrorMessage
      = "UDP port is open (no response received, which is normal)" :=
  ⟨rfl,
   ((udp_check_verdict { sampleService with CheckType := CheckTypeUDP } 60
      { sampleProbe with udp := UDPReply.readFailed "i/o timeout" true } rfl).2.1
      "i/o timeout" rfl).1,
   ((udp_check_verdict { sampleService with CheckType := CheckTypeUDP } 60
      { sampleProbe with udp := UDPReply.readFailed "i/o timeout" true } rfl).2.1
      "i/o timeout" rfl).2⟩

/-! ## Resource alerts -/

theorem checkDisk_cpu (config : SystemAlertConfig) (acc : AlertState × List SystemAlertCall)
    (d : DiskInfo) :
    (checkDisk config acc d).1.CPUAlertSent = acc.1.CPUAlertSent ∧
    cpuAlerts (checkDisk config acc d).2 = cpuAlerts acc.2 := by
  unfold checkDisk
  split
  · split
    · exact ⟨rfl, by simp [cpuAlerts]⟩
    · split <;> exact ⟨rfl, rfl⟩
  · exact ⟨rfl, rfl⟩

theorem foldl_checkDisk_cpu (config : SystemAlertConfig) (disks : List DiskInfo) :
    ∀ acc : AlertState × List SystemAlertCall,
      (disks.foldl (checkDisk config) acc).1.CPUAlertSent = acc.1.CPUAlertSent ∧
      cpuAlerts (disks.foldl (checkDisk config) acc).2 = cpuAlerts acc.2 := by
  induction disks with
  | nil => intro acc; exact ⟨rfl, rfl⟩
  | cons d rest ih =>
    intro acc
    have h1 := ih (checkDisk config acc d)
    have h2 := checkDisk_cpu config acc d
    simp only [List.foldl_cons]
    exact ⟨h1.1.trans h2.1, h1.2.trans h2.2⟩

theorem checkMemory_cpu (config : SystemAlertConfig) (acc : AlertState × List SystemAlertCall)
    (info : SystemInfo) :
    (checkMemory config acc info).1.CPUAlertSent = acc.1.CPUAlertSent ∧
    cpuAlerts (checkMemory config acc info).2 = cpuAlerts acc.2 := by
  unfold checkMemory
  split
  · exact ⟨rfl, by simp [cpuAlerts]⟩
  · split <;> exact ⟨rfl, rfl⟩

theorem checkCPU_cpu (config : SystemAlertConfig) (acc : AlertState × List SystemAlertCall)
    (info : SystemInfo) :
    (checkCPU config acc info).1.CPUAlertSent
      = decide (info.CPUInfo.UsagePercent > config.CPUThreshold) ∧
    cpuAlerts (checkCPU config acc info).2 = cpuAlerts acc.2 ++
      (if info.CPUInfo.UsagePercent > config.CPUThreshold ∧ acc.1.CPUAlertSent = false then
        [{ alertType := "cpu", device := "", currentValue := info.CPUInfo.UsagePercent,
           threshold := config.CPUThreshold }]
      else []) := by
  unfold checkCPU
  by_cases hu : info.CPUInfo.UsagePercent > config.CPUThreshold
  · have hle : ¬ info.CPUInfo.UsagePercent ≤ config.CPUThreshold := not_le.mpr hu
    cases hf : acc.1.CPUAlertSent with
    | false => simp [hu, cpuAlerts]
    | true => simp [hu, hle, hf]
  · have hle : info.CPUInfo.UsagePercent ≤ config.CPUThreshold := not_lt.mp hu
    cases hf : acc.1.CPUAlertSent with
    | false => simp [hu, hf]
    | true => simp [hu, hle]

theorem checkResourceAlerts_cpu (config : SystemAlertConfig) (state : AlertState)
    (info : SystemInfo) :
    (checkResourceAlerts config state info).1.CPUAlertSent
      = decide (info.CPUInfo.UsagePercent > config.CPUThreshold) ∧
    cpuAlerts (checkResourceAlerts config state info).2 =
      (if info.CPUInfo.UsagePercent > config.CPUThreshold ∧ state.CPUAlertSent = false then
        [{ alertType := "cpu", device := "", currentValue := info.CPUInfo.UsagePercent,
           threshold := config.CPUThreshold }]
      else []) := by
  unfold checkResourceAlerts
  have h1 := foldl_checkDisk_cpu config info.DiskInfo (state, [])
  have h2 := checkCPU_cpu config (info.DiskInfo.foldl (checkDisk config) (state, [])) info
  have h3 := checkMemory_cpu config
    (checkCPU config (info.DiskInfo.foldl (checkDisk config) (state, [])) info) info
  refine ⟨h3.1.trans h2.1, ?_⟩
  rw [h3.2, h2.2, h1.2, h1.1]
  simp [cpuAlerts]

theorem resourceTrace_cpu (config : SystemAlertConfig) (infos : List SystemInfo) :
    ∀ state : AlertState,
      (resourceTrace config state infos).map (fun e => cpuAlerts e.2.1)
        = expectedCPUAlerts config.CPUThreshold state.CPUAlertSent
            (infos.map (fun info => info.CPUInfo.UsagePercent)) := by
  induction infos with
  | nil => intro state; rfl
  | cons info rest ih =>
    intro state
    have h := checkResourceAlerts_cpu config state info
    simp only [resourceTrace, List.map_cons, expectedCPUAlerts, ih, h.1, h.2]

/-- C20: for every alert configuration with CPU threshold `t`.  One call of
`checkResourceAlerts`: a cpu alert is dispatched iff the snapshot's CPU usage is
above `t` and the cpu flag was clear before the call, and after the call the
cpu flag says whether the usage is above `t`.  A sequence of calls: snapshot by
snapshot the cpu alerts are those of that rule, started from the flag before
the first call.  Hence with the flag clear at first the usages 95, 95, 85, 95
against `t = 90` dispatch a cpu alert on the 1st and on the 4th snapshot and
on no other. -/
theorem cpu_alert_debounced (config : SystemAlertConfig) (state : AlertState)
    (infos : List SystemInfo) :
    (∀ info : SystemInfo,
      ((∃ a ∈ (checkResourceAlerts config state info).2, a.alertType = "cpu") ↔
        info.CPUInfo.UsagePercent > config.CPUThreshold ∧ state.CPUAlertSent = false) ∧
      (checkResourceAlerts config state info).1.CPUAlertSent
        = decide (info.CPUInfo.UsagePercent > config.CPUThreshold)) ∧
    (resourceTrace config state infos).map (fun e => cpuAlerts e.2.1)
      = expectedCPUAlerts config.CPUThreshold state.CPUAlertSent
          (infos.map (fun info => info.CPUInfo.UsagePercent)) ∧
    (config.CPUThreshold = 90 → state.CPUAlertSent = false →
      infos.map (fun info => info.CPUInfo.UsagePercent) = [95, 95, 85, 95] →
      (resourceTrace config state infos).map (fun e => cpuAlerts e.2.1) =
        [[{ alertType := "cpu", device := "", currentValue := 95, threshold := 90 }], [], [],
          [{ alertType := "cpu", device := "", currentValue := 95, threshold := 90 }]]) := by
  refine ⟨?_, resourceTrace_cpu config infos state, ?_⟩
  · intro info
    have h := checkResourceAlerts_cpu config state info
    refine ⟨?_, h.1⟩
    constructor
    · rintro ⟨a, ha, hcpu⟩
      by_contra hc
      have hmem : a ∈ cpuAlerts (checkResourceAlerts config state info).2 :=
        List.mem_filter.mpr ⟨ha, by simpa using hcpu⟩
      rw [h.2, if_neg hc] at hmem
      exact List.not_mem_nil _ hmem
    · intro hc
      have hmem : SystemAlertCall.mk "cpu" "" info.CPUInfo.UsagePercent config.CPUThreshold
          ∈ cpuAlerts (checkResourceAlerts config state info).2 := by
        rw [h.2, if_pos hc]
        exact List.mem_singleton_self _
      exact ⟨_, (List.mem_filter.mp hmem).1, rfl⟩
  · intro ht hflag husage
    rw [resourceTrace_cpu, ht, hflag, husage]
    simp only [expectedCPUAlerts]
    norm_num

theorem cpu_alert_debounced_witness :
    defaultAlertConfig.CPUThreshold = 90 ∧
    (AlertState.mk false false false).CPUAlertSent = false ∧
    (resourceTrace defaultAlertConfig (AlertState.mk false false false)
        [sampleSnapshot 95, sampleSnapshot 95, sampleSnapshot 85, sampleSnapshot 95]).map
        (fun e => cpuAlerts e.2.1) =
      [[{ alertType := "cpu", device := "", currentValue := 95, threshold := 90 }], [], [],
        [{ alertType := "cpu", device := "", currentValue := 95, threshold := 90 }]] :=
  ⟨rfl, rfl,
   (cpu_alert_debounced defaultAlertConfig (AlertState.mk false false false)
      [sampleSnapshot 95, sampleSnapshot 95, sampleSnapshot 85, sampleSnapshot 95]).2.2
      rfl rfl rfl⟩

/-! ## Disk alerts -/

theorem checkDisk_other (config : SystemAlertConfig) (acc : AlertState × List SystemAlertCall)
    (d : DiskInfo) (hd : ¬ (d.Mountpoint = "/" ∨ d.Mountpoint = "/home")) :
    checkDisk config acc d = acc := by
  unfold checkDisk
  rw [if_neg hd]

theorem foldl_checkDisk_filter (config : SystemAlertConfig) (disks : List DiskInfo) :
    ∀ acc : AlertState × List SystemAlertCall,
      disks.foldl (checkDisk config) acc
        = (disks.filter alertableMount).foldl (checkDisk config) acc := by
  induction disks with
  | nil => intro acc; rfl
  | cons d rest ih =>
    intro acc
    by_cases hd : d.Mountpoint = "/" ∨ d.Mountpoint = "/home"
    · have : alertableMount d = true := by simp [alertableMount, hd]
      simp only [List.foldl_cons, List.filter_cons, this, if_true]
      exact ih _
    · have : alertableMount d = false := by simp [alertableMount, hd]
      simp only [List.foldl_cons, List.filter_cons, this, checkDisk_other config acc d hd]
      exact ih _

/-- What the disk loop may add to the alerts dispatched. -/
theorem foldl_checkDisk_sent (config : SystemAlertConfig) (all : List DiskInfo)
    (P : SystemAlertCall → Prop)
    (hP : ∀ d ∈ all, (d.Mountpoint = "/" ∨ d.Mountpoint = "/home") →
      P { alertType := "disk", device := d.Mountpoint, currentValue := d.UsedPercent,
          threshold := config.DiskSpaceThreshold })
    (disks : List DiskInfo) :
    ∀ acc : AlertState × List SystemAlertCall, (∀ d ∈ disks, d ∈ all) →
      (∀ a ∈ acc.2, P a) → ∀ a ∈ (disks.foldl (checkDisk config) acc).2, P a := by
  induction disks with
  | nil => intro acc _ hacc; exact hacc
  | cons d rest ih =>
    intro acc hsub hacc
    simp only [List.foldl_cons]
    apply ih _ (fun x hx => hsub x (List.mem_cons_of_mem _ hx))
    unfold checkDisk
    split
    · rename_i hm
      split
      · intro a ha
        rcases List.mem_append.mp ha with h | h
        · exact hacc a h
        · rw [List.mem_singleton.mp h]
          exact hP d (hsub d (List.mem_cons_self _ _)) hm
      · split
        · exact hacc
        · exact hacc
    · exact hacc

/-- C22: for every snapshot and every alert state, every disk alert that
`checkResourceAlerts` dispatches is for a disk entry of the snapshot whose mount
point is exactly "/" or "/home"; an entry with any other mount point leaves the
loop's state as it is (no alert, no change of the disk flag), whatever its
usage; so the call gives the same alerts and the same alert state as on the
snapshot without those entries. -/
theorem disk_alerts_only_root_and_home (config : SystemAlertConfig) (state : AlertState)
    (info : SystemInfo) :
    (∀ a ∈ (checkResourceAlerts config state info).2, a.alertType = "disk" →
      (a.device = "/" ∨ a.device = "/home") ∧
      ∃ d ∈ info.DiskInfo, d.Mountpoint = a.device ∧ d.UsedPercent = a.currentValue) ∧
    (∀ (acc : AlertState × List SystemAlertCall) (d : DiskInfo),
      ¬ (d.Mountpoint = "/" ∨ d.Mountpoint = "/home") → checkDisk config acc d = acc) ∧
    checkResourceAlerts config state info
      = checkResourceAlerts config state
          { info with DiskInfo := info.DiskInfo.filter alertableMount } := by
  refine ⟨?_, fun acc d hd => checkDisk_other config acc d hd, ?_⟩
  · have hdisk := foldl_checkDisk_sent config info.DiskInfo
      (fun a => a.alertType = "disk" →
        (a.device = "/" ∨ a.device = "/home") ∧
        ∃ d ∈ info.DiskInfo, d.Mountpoint = a.device ∧ d.UsedPercent = a.currentValue)
      (fun d hd hm _ => ⟨hm, d, hd, rfl, rfl⟩) info.DiskInfo (state, [])
      (fun d hd => hd) (fun a ha => absurd ha (List.not_mem_nil _))
    intro a ha
    unfold checkResourceAlerts checkMemory at ha
    split at ha
    · rcases List.mem_append.mp ha with h | h
      · unfold checkCPU at h
        split at h
        · rcases List.mem_append.mp h with h' | h'
          · exact hdisk a h'
          · rw [List.mem_singleton.mp h']
            intro hty
            exact absurd hty (show ¬ ("cpu" : String) = "disk" by decide)
        · split at h
          · exact hdisk a h
          · exact hdisk a h
      · rw [List.mem_singleton.mp h]
        intro hty
        exact absurd hty (show ¬ ("memory" : String) = "disk" by decide)
    · have hcpu : ∀ a ∈ (checkCPU config
          (info.DiskInfo.foldl (checkDisk config) (state, [])) info).2,
          a.alertType = "disk" →
          (a.device = "/" ∨ a.device = "/home") ∧
          ∃ d ∈ info.DiskInfo, d.Mountpoint = a.device ∧ d.UsedPercent = a.currentValue := by
        intro b hb
        unfold checkCPU at hb
        split at hb
        · rcases List.mem_append.mp hb with h' | h'
          · exact hdisk b h'
          · rw [List.mem_singleton.mp h']
            intro hty
            exact absurd hty (show ¬ ("cpu" : String) = "disk" by decide)
        · split at hb
          · exact hdisk b hb
          · exact hdisk b hb
      split at ha
      · exact hcpu a ha
      · exact hcpu a ha
  · unfold checkResourceAlerts
    rw [foldl_checkDisk_filter config info.DiskInfo (state, [])]
    have hidem : (info.DiskInfo.filter alertableMount).filter alertableMount
        = info.DiskInfo.filter alertableMount := by
      rw [List.filter_filter]
      simp
    rw [foldl_checkDisk_filter config (info.DiskInfo.filter alertableMount) (state, []), hidem]
    rfl

theorem disk_alerts_only_root_and_home_witness :
    ¬ (("/data" : String) = "/" ∨ ("/data" : String) = "/home") ∧
    checkDisk defaultAlertConfig (AlertState.mk false false false, [])
        { Device := "sdb1", Mountpoint := "/data", Total := 100, Used := 99, Free := 1,
          UsedPercent := 99 }
      = (AlertState.mk false false false, []) :=
  ⟨by decide,
   (disk_alerts_only_root_and_home defaultAlertConfig (AlertState.mk false false false)
      twoMountSnapshot).2.1 _ _ (by decide)⟩

/-- C21 on the code: two snapshots in a row, each listing "/" at 95 % and "/home"
at 10 %, against the disk threshold 80 with all flags clear.  The usage of "/"
stays above the threshold, yet `checkResourceAlerts` dispatches a disk alert for
"/" on the first snapshot and again on the second: the entry for "/home",
being at or under the threshold, clears the one disk flag that "/" has just
set. -/
theorem disk_alert_repeats_with_two_mounts :
    (resourceTrace defaultAlertConfig (AlertState.mk false false false)
        [twoMountSnapshot, twoMountSnapshot]).map (fun e => diskAlerts e.2.1) =
      [[{ alertType := "disk", device := "/", currentValue := 95, threshold := 80 }],
       [{ alertType := "disk", device := "/", currentValue := 95, threshold := 80 }]] ∧
    (checkResourceAlerts defaultAlertConfig (AlertState.mk false false false)
        twoMountSnapshot).1.DiskAlertSent = false := by
  decide

/-! ## Limits of the history log -/

theorem AddCheck_negative (h : ServiceHistory) (r : HealthCheckRecord) (hneg : h.MaxChecks < 0) :
    h.AddCheck r = none := by
  unfold ServiceHistory.AddCheck sliceFrom
  have hgt : ((h.Checks ++ [r]).length : Int) > h.MaxChecks := by
    have : (0 : Int) ≤ ((h.Checks ++ [r]).length : Int) := Int.natCast_nonneg _
    omega
  have hout : ¬ (0 ≤ ((h.Checks ++ [r]).length : Int) - h.MaxChecks ∧
      ((h.Checks ++ [r]).length : Int) - h.MaxChecks ≤ ((h.Checks ++ [r]).length : Int)) := by
    intro hb
    omega
  simp only [hgt, if_true, hout, if_false]

/-- C28: `AddCheck` returns exactly when `MaxChecks ≥ 0`: with `MaxChecks ≥ 0` it
returns for every record, with `MaxChecks < 0` the slice expression is out of
bounds on every call.  `NewServiceHistory` and `NewHistoryStore` replace only
the limit 0 by 100, so that with a negative limit the first `AddCheck` on a new
log, and with it `AddCheckResult`, panics.  A log with `MaxChecks = 0` is empty
after every `AddCheck`; no such log comes from `NewServiceHistory`, `AddCheck`
never changes `MaxChecks`, and `LoadFromMap` installs whatever logs it is
given. -/
theorem AddCheck_total_iff_limit_nonneg :
    (∀ (h : ServiceHistory) (r : HealthCheckRecord),
      (∃ h', h.AddCheck r = some h') ↔ 0 ≤ h.MaxChecks) ∧
    (∀ (h : ServiceHistory) (r : HealthCheckRecord), h.MaxChecks < 0 →
      sliceFrom (h.Checks ++ [r]) (((h.Checks ++ [r]).length : Int) - h.MaxChecks) = none ∧
      h.AddCheck r = none) ∧
    (∀ (id : String) (n : Int),
      (NewServiceHistory id n).MaxChecks = (if n = 0 then 100 else n) ∧
      (NewHistoryStore n).maxChecks = (if n = 0 then 100 else n) ∧
      (NewServiceHistory id n).MaxChecks ≠ 0) ∧
    (∀ (id : String) (n : Int) (r : HealthCheckRecord), n < 0 →
      (NewServiceHistory id n).AddCheck r = none ∧
      (NewHistoryStore n).AddCheckResult id r = none) ∧
    (∀ (h : ServiceHistory) (r : HealthCheckRecord), h.MaxChecks = 0 →
      h.AddCheck r = some { h with Checks := [] }) ∧
    (∀ (h h' : ServiceHistory) (r : HealthCheckRecord), h.AddCheck r = some h' →
      h'.MaxChecks = h.MaxChecks) ∧
    (∀ (s : HistoryStore) (loaded : GoMap ServiceHistory),
      (s.LoadFromMap (some loaded)).histories = loaded) := by
  refine ⟨?_, ?_, ?_, ?_, ?_, ?_, ?_⟩
  · intro h r
    constructor
    · rintro ⟨h', hh⟩
      by_contra hneg
      rw [AddCheck_negative h r (by omega)] at hh
      exact Option.noConfusion hh
    · intro hnn
      exact ⟨_, AddCheck_eq h r hnn⟩
  · intro h r hneg
    refine ⟨?_, AddCheck_negative h r hneg⟩
    unfold sliceFrom
    have : (0 : Int) ≤ ((h.Checks ++ [r]).length : Int) := Int.natCast_nonneg _
    rw [if_neg]
    intro hb
    omega
  · intro id n
    refine ⟨rfl, rfl, ?_⟩
    simp only [NewServiceHistory]
    split <;> omega
  · intro id n r hneg
    have hne : ¬ n = 0 := by omega
    have h1 : (NewServiceHistory id n).AddCheck r = none :=
      AddCheck_negative _ r (by simp only [NewServiceHistory, hne, if_false]; exact hneg)
    refine ⟨h1, ?_⟩
    have h2 : (NewHistoryStore n).maxChecks = n := by simp only [NewHistoryStore, hne, if_false]
    simp only [HistoryStore.AddCheckResult, NewHistoryStore, GoMap.get?, hne, if_false]
    rw [h1]
  · intro h r h0
    rw [AddCheck_eq h r (by omega), h0]
    simp [lastN]
  · intro h h' r hadd
    by_cases hnn : 0 ≤ h.MaxChecks
    · rw [AddCheck_eq h r hnn] at hadd
      rw [← Option.some.inj hadd]
    · rw [AddCheck_negative h r (by omega)] at hadd
      exact Option.noConfusion hadd
  · intro s loaded
    rfl

theorem AddCheck_total_iff_limit_nonneg_witness :
    ((-1 : Int) < 0) ∧
    (NewHistoryStore (-1)).AddCheckResult "a" (sampleRecord 0 StatusUp 10) = none ∧
    ServiceHistory.AddCheck { ServiceID := "a", Checks := [], MaxChecks := 0 }
        (sampleRecord 0 StatusUp 10)
      = some { ServiceID := "a", Checks := [], MaxChecks := 0 } :=
  ⟨by decide,
   (AddCheck_total_iff_limit_nonneg.2.2.2.1 "a" (-1) (sampleRecord 0 StatusUp 10)
      (by decide)).2,
   AddCheck_total_iff_limit_nonneg.2.2.2.2.1 _ _ rfl⟩

/-! ## Uptime plus downtime -/

theorem otherPeriodSum_cons_cons (p c : HealthCheckRecord) (rest : List HealthCheckRecord) :
    otherPeriodSum (p :: c :: rest)
      = (if ¬ p.Status = StatusUp ∧ ¬ p.Status = StatusDown
          then c.Timestamp - p.Timestamp else 0) + otherPeriodSum (c :: rest) := by
  by_cases hp : ¬ p.Status = StatusUp ∧ ¬ p.Status = StatusDown
  · simp [otherPeriodSum, consecutivePairs, List.filter_cons, hp]
  · rw [if_neg hp]
    simp only [otherPeriodSum, consecutivePairs, List.tail_cons, List.zip_cons_cons,
      List.filter_cons, hp, decide_False]
    simp

theorem periods_telescope (rest : List HealthCheckRecord) :
    ∀ (c last : HealthCheckRecord), (c :: rest).getLast? = some last →
      periodSum StatusUp (c :: rest) + periodSum StatusDown (c :: rest)
        + otherPeriodSum (c :: rest) = last.Timestamp - c.Timestamp := by
  induction rest with
  | nil =>
    intro c last hlast
    have hcl : c = last := by simpa using hlast
    subst hcl
    simp [periodSum_single, otherPeriodSum, consecutivePairs]
  | cons c1 rest ih =>
    intro c last hlast
    rw [List.getLast?_cons_cons] at hlast
    have h := ih c1 last hlast
    rw [periodSum_cons_cons, periodSum_cons_cons, otherPeriodSum_cons_cons]
    by_cases hu : c.Status = StatusUp
    · simp only [hu, up_ne_down, if_true, if_false, not_true_eq_false, false_and]
      linarith
    · by_cases hd : c.Status = StatusDown
      · simp only [hd, down_ne_up, if_true, if_false, not_true_eq_false, and_false]
        linarith
      · simp only [hu, hd, if_false, not_false_eq_true, and_self, if_true]
        linarith

theorem otherPeriodSum_zero (checks : List HealthCheckRecord)
    (hall : ∀ c ∈ checks, c.Status = StatusUp ∨ c.Status = StatusDown) :
    otherPeriodSum checks = 0 := by
  induction checks with
  | nil => simp [otherPeriodSum, consecutivePairs]
  | cons p rest ih =>
    cases rest with
    | nil => simp [otherPeriodSum, consecutivePairs]
    | cons c rest =>
      rw [otherPeriodSum_cons_cons, ih (fun x hx => hall x (List.mem_cons_of_mem _ hx))]
      have hp := hall p (List.mem_cons_self _ _)
      have : ¬ (¬ p.Status = StatusUp ∧ ¬ p.Status = StatusDown) := by
        rintro ⟨h1, h2⟩
        rcases hp with h | h
        · exact h1 h
        · exact h2 h
      rw [if_neg this]
      rfl

theorem countCheck_down (c : HealthCheckRecord) (a : StatsAcc) :
    (countCheck c a).downCount = a.downCount + (downRecords [c]).length := by
  by_cases hu : c.Status = StatusUp
  · have hd : ¬ c.Status = StatusDown := by rw [hu]; exact up_ne_down
    simp [countCheck, downRecords, hu, up_ne_down]
  · by_cases hd : c.Status = StatusDown
    · simp [countCheck, downRecords, hd, down_ne_up]
    · simp [countCheck, downRecords, hu, hd]

theorem statsLoop_down (checks : List HealthCheckRecord) :
    ∀ (prev : Option HealthCheckRecord) (a : StatsAcc),
      (statsLoop prev checks a).downCount = a.downCount + (downRecords checks).length := by
  induction checks with
  | nil => intro prev a; simp [statsLoop, downRecords]
  | cons c rest ih =>
    intro prev a
    have h1 := ih (some c) (trackPeriod prev c (countCheck c a))
    have h2 := (trackPeriod_counts prev c (countCheck c a)).2.1
    have h3 := countCheck_down c a
    have h4 : downRecords (c :: rest) = downRecords [c] ++ downRecords rest := by
      simp only [downRecords, ← List.filter_append, List.singleton_append]
    simp only [statsLoop, h1, h2, h3, h4, List.length_append]
    ring

theorem up_down_le_length (checks : List HealthCheckRecord) :
    (upRecords checks).length + (downRecords checks).length ≤ checks.length ∧
    ((∃ c ∈ checks, ¬ c.Status = StatusUp ∧ ¬ c.Status = StatusDown) →
      (upRecords checks).length + (downRecords checks).length < checks.length) := by
  induction checks with
  | nil => simp [upRecords, downRecords]
  | cons c rest ih =>
    have hup : (upRecords (c :: rest)).length
        = (if c.Status = StatusUp then 1 else 0) + (upRecords rest).length := by
      unfold upRecords
      by_cases hu : c.Status = StatusUp
      · simp [List.filter_cons, hu]
        omega
      · simp [List.filter_cons, hu]
    have hdown : (downRecords (c :: rest)).length
        = (if c.Status = StatusDown then 1 else 0) + (downRecords rest).length := by
      unfold downRecords
      by_cases hd : c.Status = StatusDown
      · simp [List.filter_cons, hd]
        omega
      · simp [List.filter_cons, hd]
    have hone : (if c.Status = StatusUp then 1 else 0) + (if c.Status = StatusDown then 1 else 0)
        ≤ 1 := by
      by_cases hu : c.Status = StatusUp
      · rw [hu]
        simp [up_ne_down]
      · by_cases hd : c.Status = StatusDown <;> simp [hu, hd, down_ne_up]
    rw [hup, hdown, List.length_cons]
    refine ⟨by omega, ?_⟩
    rintro ⟨x, hx, hxu, hxd⟩
    rcases List.mem_cons.mp hx with h | h
    · subst h
      have : (if x.Status = StatusUp then 1 else 0) + (if x.Status = StatusDown then 1 else 0)
          = 0 := by simp [hxu, hxd]
      omega
    · have := ih.2 ⟨x, h, hxu, hxd⟩
      omega

theorem GetStatistics_loop (lv : LoopVar) (now now24 : Time) (h : ServiceHistory)
    (last : HealthCheckRecord) (hlast : h.Checks.getLast? = some last) :
    (h.GetStatistics lv now now24).UpCount = (statsLoop none h.Checks StatsAcc.zero).upCount ∧
    (h.GetStatistics lv now now24).DownCount
      = (statsLoop none h.Checks StatsAcc.zero).downCount ∧
    (h.GetStatistics lv now now24).TotalUptime
      = wholeSeconds (statsLoop none h.Checks StatsAcc.zero).totalUptime ∧
    (h.GetStatistics lv now now24).TotalDowntime
      = wholeSeconds (statsLoop none h.Checks StatsAcc.zero).totalDowntime := by
  unfold ServiceHistory.GetStatistics
  simp only [hlast]
  exact ⟨trivial, trivial, trivial, trivial⟩

/-- C29: for a log of at least one record, `first` being its first and `last` its
last record, and the durations `totalUptime`, `totalDowntime` as the loop of
`GetStatistics` leaves them (the statistics report their whole seconds).  The
two durations and the intervals that begin at a record that is neither up nor
down add up to `last.Timestamp - first.Timestamp`; so when every status is up
or down the two durations alone sum to exactly that, and an interval that
begins at a record of another status is in neither.  When the log holds a
record of another status, `UpCount + DownCount` is strictly less than
`TotalChecks`. -/
theorem uptime_plus_downtime_spans_log (lv : LoopVar) (now now24 : Time) (h : ServiceHistory)
    (first last : HealthCheckRecord) (hfirst : h.Checks.head? = some first)
    (hlast : h.Checks.getLast? = some last) :
    (h.GetStatistics lv now now24).TotalUptime
      = wholeSeconds (statsLoop none h.Checks StatsAcc.zero).totalUptime ∧
    (h.GetStatistics lv now now24).TotalDowntime
      = wholeSeconds (statsLoop none h.Checks StatsAcc.zero).totalDowntime ∧
    (statsLoop none h.Checks StatsAcc.zero).totalUptime
        + (statsLoop none h.Checks StatsAcc.zero).totalDowntime + otherPeriodSum h.Checks
      = last.Timestamp - first.Timestamp ∧
    ((∀ c ∈ h.Checks, c.Status = StatusUp ∨ c.Status = StatusDown) →
      (statsLoop none h.Checks StatsAcc.zero).totalUptime
          + (statsLoop none h.Checks StatsAcc.zero).totalDowntime
        = last.Timestamp - first.Timestamp) ∧
    ((∃ c ∈ h.Checks, ¬ c.Status = StatusUp ∧ ¬ c.Status = StatusDown) →
      (h.GetStatistics lv now now24).UpCount + (h.GetStatistics lv now now24).DownCount
        < (h.GetStatistics lv now now24).TotalChecks) := by
  have hloop := GetStatistics_loop lv now now24 h last hlast
  have hper := statsLoop_periods h.Checks none StatsAcc.zero
  have e3 : StatsAcc.zero.totalUptime = 0 := rfl
  have e4 : StatsAcc.zero.totalDowntime = 0 := rfl
  rw [e3, e4] at hper
  simp only [Option.toList, List.nil_append, zero_add] at hper
  have htel : periodSum StatusUp h.Checks + periodSum StatusDown h.Checks
      + otherPeriodSum h.Checks = last.Timestamp - first.Timestamp := by
    cases hc : h.Checks with
    | nil =>
      rw [hc] at hfirst
      exact Option.noConfusion hfirst
    | cons c rest =>
      rw [hc] at hfirst hlast
      have hcf : c = first := by simpa using hfirst
      subst hcf
      exact periods_telescope rest c last hlast
  refine ⟨hloop.2.2.1, hloop.2.2.2, ?_, ?_, ?_⟩
  · rw [hper.1, hper.2]
    exact htel
  · intro hall
    rw [hper.1, hper.2]
    have h0 := otherPeriodSum_zero h.Checks hall
    rw [h0] at htel
    linarith
  · intro hother
    have hup := (statsLoop_up h.Checks none StatsAcc.zero).1
    have hdown := statsLoop_down h.Checks none StatsAcc.zero
    have e1 : StatsAcc.zero.upCount = 0 := rfl
    have e2 : StatsAcc.zero.downCount = 0 := rfl
    rw [e1] at hup
    rw [e2] at hdown
    rw [hloop.1, hloop.2.1, hup, hdown, (GetStatistics_fields lv now now24 h).1]
    have := (up_down_le_length h.Checks).2 hother
    omega

theorem uptime_plus_downtime_spans_log_witness :
    sampleHistory.Checks.head? = some (sampleRecord 0 StatusUp 10) ∧
    sampleHistory.Checks.getLast? = some (sampleRecord 25 StatusUp 30) ∧
    (statsLoop none sampleHistory.Checks StatsAcc.zero).totalUptime
        + (statsLoop none sampleHistory.Checks StatsAcc.zero).totalDowntime
      = (sampleRecord 25 StatusUp 30).Timestamp - (sampleRecord 0 StatusUp 10).Timestamp :=
  ⟨rfl, rfl,
   (uptime_plus_downtime_spans_log LoopVar.perIteration 30 30 sampleHistory
      (sampleRecord 0 StatusUp 10) (sampleRecord 25 StatusUp 30) rfl rfl).2.2.2.1
      (by decide)⟩

/-! ## UpdateService and the SSL flag -/

theorem UpdateService_stored (st : MonitorService) (id : String)
    (existing req : MonitoredService) (hget : st.store.Get id = Except.ok existing)
    (hid : existing.ID = id) :
    (ServiceHandler.UpdateService st id (some req)).state.store.services.get? id
      = some (preserveFields existing req) ∧
    (ServiceHandler.UpdateService st id (some req)).state.history = st.history := by
  have hg := (Get_ok _ _ _).mp hget
  have hg' : st.store.services.get? existing.ID = some existing := by rw [hid]; exact hg
  constructor
  · simp only [ServiceHandler.UpdateService, hget, ServiceStore.Update, hg']
    rw [triggerSave_services, ← hid]
    exact GoMap.get?_set_self _ _ _
  · simp only [ServiceHandler.UpdateService, hget, ServiceStore.Update, hg']

/-- C27: for an endpoint stored under its own ID and a bound request body that
leaves `ssl_alert_sent` unset (false), after `UpdateService` the stored endpoint
has `SSLAlertSent = false`, also when it was true before: the flag, like
`LastUptime`, `LastDowntime`, `ResponseTime`, `ErrorMessage` and the SSL
expiry, issuer and days-left, is the body's.  So the next check result for the
endpoint that carries TLS info with days-left in `(0, 30]` dispatches an
SSL-expiry notification, with no result of more than 30 days in between,
where the same result applied before the update, with the flag set, dispatches
none. -/
theorem update_forgets_ssl_alert_flag (st : MonitorService) (id : String)
    (existing req : MonitoredService) (r : HealthCheckResult)
    (hget : st.store.Get id = Except.ok existing) (hid : existing.ID = id)
    (hbody : req.SSLAlertSent = false)
    (hwf : st.history.NonNegative) (hr : r.ServiceID = id) (htls : carriesTLS r)
    (hdays : 0 < r.SSLDaysLeft ∧ r.SSLDaysLeft ≤ 30) :
    (existing.SSLAlertSent = true →
      ∃ before, st.UpdateServiceStatus r = some before ∧
        ¬ ∃ n ∈ before.sent, n.isSSL = true) ∧
    ∃ service', (ServiceHandler.UpdateService st id (some req)).state.store.Get id
        = Except.ok service' ∧
      service'.SSLAlertSent = false ∧
      service'.LastUptime = req.LastUptime ∧ service'.LastDowntime = req.LastDowntime ∧
      service'.ResponseTime = req.ResponseTime ∧ service'.ErrorMessage = req.ErrorMessage ∧
      service'.SSLCertExpiry = req.SSLCertExpiry ∧ service'.SSLCertIssuer = req.SSLCertIssuer ∧
      service'.SSLDaysLeft = req.SSLDaysLeft ∧
      ∃ out, (ServiceHandler.UpdateService st id (some req)).state.UpdateServiceStatus r
          = some out ∧
        ∃ n ∈ out.sent, n.isSSL = true := by
  have hupd := UpdateService_stored st id existing req hget hid
  have hstored : (ServiceHandler.UpdateService st id (some req)).state.store.services.get?
      r.ServiceID = some (preserveFields existing req) := by
    rw [hr]; exact hupd.1
  have hwf' : (ServiceHandler.UpdateService st id (some req)).state.history.NonNegative := by
    rw [hupd.2]; exact hwf
  obtain ⟨out, hout, hsent, -, -, -⟩ := UpdateServiceStatus_stored
    (ServiceHandler.UpdateService st id (some req)).state r (preserveFields existing req)
    hstored hwf'
  refine ⟨?_, preserveFields existing req, (Get_ok _ _ _).mpr hupd.1, hbody, rfl, rfl, rfl,
    rfl, rfl, rfl, rfl, out, hout, ?_⟩
  · intro hflag
    have hg : st.store.services.get? r.ServiceID = some existing := by
      rw [hr]; exact (Get_ok _ _ _).mp hget
    obtain ⟨before, hbefore, hsent0, -, -, -⟩ := UpdateServiceStatus_stored st r existing hg hwf
    refine ⟨before, hbefore, ?_⟩
    rw [hsent0]
    intro hn
    have := ((ssl_sent_iff existing r).mp hn).2.2.2
    rw [hflag] at this
    exact Bool.noConfusion this
  · rw [hsent]
    exact (ssl_sent_iff _ r).mpr ⟨htls, hdays.1, hdays.2, hbody⟩

theorem update_forgets_ssl_alert_flag_witness :
    flaggedMonitor.store.Get "a" = Except.ok { sampleService with SSLAlertSent := true } ∧
    sampleRequest.SSLAlertSent = false ∧ flaggedMonitor.history.NonNegative ∧
    carriesTLS (sampleTLSResult 20) ∧
    (∃ before, flaggedMonitor.UpdateServiceStatus (sampleTLSResult 20) = some before ∧
      ¬ ∃ n ∈ before.sent, n.isSSL = true) ∧
    (∃ out,
      (ServiceHandler.UpdateService flaggedMonitor "a" (some sampleRequest)).state.UpdateServiceStatus
          (sampleTLSResult 20) = some out ∧
      ∃ n ∈ out.sent, n.isSSL = true) := by
  obtain ⟨hbefore, service', -, -, -, -, -, -, -, -, -, hafter⟩ :=
    update_forgets_ssl_alert_flag flaggedMonitor "a" { sampleService with SSLAlertSent := true }
      sampleRequest (sampleTLSResult 20) rfl rfl rfl (by decide) rfl (by decide) (by decide)
  exact ⟨rfl, rfl, by decide, by decide, hbefore rfl, hafter⟩

/-! ## Telegram: effective configuration, escaping, masking -/

theorem replaceAll_single (s : GoString) (b : Nat) (new : GoString) :
    replaceAll s [b] new = some (replaceAllLoop [b] new 0 s) := by
  simp [replaceAll]

theorem escape_passes_total (bs : List Nat) :
    ∀ text : GoString, ∃ out,
      (bs.map (fun b => (([b], [92, b]) : GoString × GoString))).foldlM
        (fun result p => replaceAll result p.1 p.2) text = some out := by
  induction bs with
  | nil => intro text; exact ⟨text, rfl⟩
  | cons b rest ih =>
    intro text
    obtain ⟨out, hout⟩ := ih (replaceAllLoop [b] [92, b] 0 text)
    refine ⟨out, ?_⟩
    simp only [List.map_cons, List.foldlM_cons, replaceAll_single]
    exact hout

theorem escapeMarkdown_total (text : GoString) : ∃ out, escapeMarkdown text = some out :=
  escape_passes_total reservedBytes text

theorem downAlertMessage_total (service : MonitoredService) (timeText : String) :
    ∃ message, downAlertMessage service timeText = some message := by
  obtain ⟨n, hn⟩ := escapeMarkdown_total (utf8 service.Name)
  obtain ⟨u, hu⟩ := escapeMarkdown_total (utf8 service.URL)
  obtain ⟨e, he⟩ := escapeMarkdown_total (utf8 service.ErrorMessage)
  unfold downAlertMessage
  rw [hn, hu, he]
  exact ⟨_, rfl⟩

/-- C23: for every default configuration `d` and endpoint `e`,
`getEffectiveConfig` resolves each field on its own: the token is
`e.TelegramBotToken` if that is non-empty and `d.BotToken` otherwise, the chat
is `e.TelegramChatID` if that is non-empty and `d.ChatID` otherwise, enabled is
the value `e.TelegramEnabled` points to if it is non-nil and `d.Enabled`
otherwise.  `SendServiceDownAlert` returns; it posts iff the resolved enabled is
true and the resolved token and chat are both non-empty, and then it posts to
the resolved token and chat; otherwise it returns nil without posting. -/
theorem effective_config_gates_sending (d : TelegramConfig) (e : MonitoredService)
    (timeText : String) (reply : PostReply) :
    (getEffectiveConfig d e).1
      = (if e.TelegramBotToken ≠ "" then e.TelegramBotToken else d.BotToken) ∧
    (getEffectiveConfig d e).2.1
      = (if e.TelegramChatID ≠ "" then e.TelegramChatID else d.ChatID) ∧
    (getEffectiveConfig d e).2.2 = e.TelegramEnabled.getD d.Enabled ∧
    ∃ res, SendServiceDownAlert d e timeText reply = some res ∧
      (res.posted.isSome = true ↔
        (getEffectiveConfig d e).2.2 = true ∧ (getEffectiveConfig d e).1 ≠ "" ∧
          (getEffectiveConfig d e).2.1 ≠ "") ∧
      (∀ post, res.posted = some post →
        post.url = "https://api.telegram.org/bot" ++ (getEffectiveConfig d e).1
            ++ "/sendMessage" ∧
        post.chatID = (getEffectiveConfig d e).2.1) ∧
      (¬ ((getEffectiveConfig d e).2.2 = true ∧ (getEffectiveConfig d e).1 ≠ "" ∧
          (getEffectiveConfig d e).2.1 ≠ "") →
        res = { posted := none, err := none }) := by
  refine ⟨rfl, rfl, ?_, ?_⟩
  · unfold getEffectiveConfig
    cases e.TelegramEnabled <;> rfl
  · obtain ⟨message, hm⟩ := downAlertMessage_total e timeText
    by_cases hen : (getEffectiveConfig d e).2.2 = true ∧ (getEffectiveConfig d e).1 ≠ "" ∧
        (getEffectiveConfig d e).2.1 ≠ ""
    · have hgate : isEnabledForService d e = true := by
        unfold isEnabledForService
        simp [hen.1, hen.2.1, hen.2.2]
      refine ⟨sendMessageWithConfig message (getEffectiveConfig d e).1
        (getEffectiveConfig d e).2.1 reply, ?_, ?_, ?_, ?_⟩
      · simp only [SendServiceDownAlert, hgate, hm, Bool.not_true, Bool.false_eq_true,
          if_false]
      · exact ⟨fun _ => hen, fun _ => rfl⟩
      · intro post hpost
        have hp : TelegramPost.mk
            ("https://api.telegram.org/bot" ++ (getEffectiveConfig d e).1 ++ "/sendMessage")
            (getEffectiveConfig d e).2.1 message = post := Option.some.inj hpost
        rw [← hp]
        exact ⟨rfl, rfl⟩
      · intro hn
        exact absurd hen hn
    · have hgate : isEnabledForService d e = false := by
        unfold isEnabledForService
        by_contra hc
        have ht : (getEffectiveConfig d e).2.2 = true ∧ ¬ (getEffectiveConfig d e).1 = "" ∧
            ¬ (getEffectiveConfig d e).2.1 = "" := by simpa using hc
        exact hen ht
      refine ⟨{ posted := none, err := none }, ?_, ?_, ?_, ?_⟩
      · simp only [SendServiceDownAlert, hgate, Bool.not_false, if_true]
      · constructor
        · intro h
          exact Bool.noConfusion h
        · intro h
          exact absurd h hen
      · intro post hpost
        exact Option.noConfusion hpost
      · intro _
        rfl

theorem replaceAllLoop_high (c : Nat) (new : GoString) (hc : c < 128) (s : GoString) :
    highBytes s →
      highBytes (replaceAllLoop [c] new 0 s) ∧
      (replaceAllLoop [c] new 0 s).length = 2 * s.length := by
  induction s with
  | nil => intro _; exact ⟨fun b hb => absurd hb (List.not_mem_nil _), rfl⟩
  | cons b rest ih =>
    intro hs
    have hb := hs b (List.mem_cons_self _ _)
    have hrest := ih (fun x hx => hs x (List.mem_cons_of_mem _ hx))
    have hne : ¬ [c] <+: b :: rest := by
      rw [List.cons_prefix_cons]
      intro h
      omega
    have hbyte : byteToString b = [192 + b / 64, 128 + b % 64] := by
      unfold byteToString
      rw [if_neg (by omega)]
    simp only [replaceAllLoop, hne, if_false, hbyte]
    constructor
    · intro x hx
      simp only [List.cons_append, List.nil_append, List.mem_cons] at hx
      rcases hx with h | h | h
      · omega
      · omega
      · exact hrest.1 x h
    · simp only [List.cons_append, List.nil_append, List.length_cons, hrest.2]
      omega

theorem escape_passes_high (bs : List Nat) (hbs : ∀ c ∈ bs, c < 128) :
    ∀ text : GoString, highBytes text → ∃ out,
      (bs.map (fun b => (([b], [92, b]) : GoString × GoString))).foldlM
        (fun result p => replaceAll result p.1 p.2) text = some out ∧
      out.length = 2 ^ bs.length * text.length := by
  induction bs with
  | nil => intro text _; exact ⟨text, rfl, by simp⟩
  | cons b rest ih =>
    intro text htext
    have hb := hbs b (List.mem_cons_self _ _)
    have hstep := replaceAllLoop_high b [92, b] hb text htext
    obtain ⟨out, hout, hlen⟩ := ih (fun x hx => hbs x (List.mem_cons_of_mem _ hx))
      (replaceAllLoop [b] [92, b] 0 text) hstep.1
    refine ⟨out, ?_, ?_⟩
    · simp only [List.map_cons, List.foldlM_cons, replaceAll_single]
      exact hout
    · rw [hlen, hstep.2, List.length_cons, pow_succ]
      ring

/-- C24 on the code: the text "é" (the two bytes 195, 169) holds no reserved
character, so escaping should give it back, two bytes long.  `replaceAll`
copies a byte by `string(s[i])`, which for a byte from 128 on is the two-byte
UTF-8 encoding of that code point: the first pass alone turns the text into the
four bytes 195, 131, 194, 169, and `escapeMarkdown`, after its 18 passes,
returns 524288 bytes. -/
theorem escapeMarkdown_garbles_non_ascii :
    utf8 "é" = [195, 169] ∧
    (∀ b ∈ utf8 "é", b ∉ reservedBytes) ∧
    replaceAll (utf8 "é") [95] [92, 95] = some [195, 131, 194, 169] ∧
    ∃ out, escapeMarkdown (utf8 "é") = some out ∧ out.length = 524288 := by
  refine ⟨by decide, by decide, by decide, ?_⟩
  obtain ⟨out, hout, hlen⟩ := escape_passes_high reservedBytes (by decide) (utf8 "é")
    (by decide)
  refine ⟨out, hout, ?_⟩
  rw [hlen]
  decide

theorem maskToken_ten (t : GoString) (ht : t.length = 10) :
    maskToken t = t.take 5 ++ [46, 46, 46] ++ t.drop 5 := by
  have hne : ¬ t = [] := by
    intro h
    rw [h] at ht
    exact absurd ht (by decide)
  unfold maskToken
  rw [if_neg hne, if_neg (by omega), ht]

theorem maskToken_ten_injective (t t' : GoString) (ht : t.length = 10) (ht' : t'.length = 10)
    (h : maskToken t' = maskToken t) : t' = t := by
  rw [maskToken_ten t ht, maskToken_ten t' ht', List.append_assoc, List.append_assoc] at h
  have hlen : (t'.take 5).length = (t.take 5).length := by
    simp only [List.length_take]
    omega
  obtain ⟨h1, h2⟩ := List.append_inj h hlen
  have h3 : t'.drop 5 = t.drop 5 := List.append_cancel_left h2
  rw [← List.take_append_drop 5 t', ← List.take_append_drop 5 t, h1, h3]

/-- C25 on the code: the token "0123456789" is 10 bytes long, so `maskToken`
returns its first 5 bytes, "..." and its last 5 bytes, "01234...56789", which
is every byte of the token: `GetConfig` hands out that text, and no other token
of 10 bytes has the same masked value. -/
theorem maskToken_shows_ten_byte_token :
    (utf8 "0123456789").length = 10 ∧
    maskToken (utf8 "0123456789") = utf8 "01234...56789" ∧
    (GetConfig { BotToken := "0123456789", ChatID := "42", Enabled := true }).BotToken
      = utf8 "01234...56789" ∧
    ∀ t' : GoString, t'.length = (utf8 "0123456789").length →
      maskToken t' = maskToken (utf8 "0123456789") → t' = utf8 "0123456789" := by
  refine ⟨by decide, by decide, by decide, ?_⟩
  intro t' hlen hmask
  exact maskToken_ten_injective (utf8 "0123456789") t' (by decide) (by rw [hlen]; decide) hmask

/-! ## Two calls of UpdateServiceStatus at once -/

/-- The two steps, run one right after the other, are `UpdateServiceStatus`. -/
theorem UpdateServiceStatus_two_steps (m : MonitorService) (r : HealthCheckResult) :
    m.UpdateServiceStatus r =
      match m.store.Get r.ServiceID with
      | Except.error err => some { err := some err, state := m, sent := [] }
      | Except.ok service => finishUpdate service.Status service m r := by
  unfold MonitorService.UpdateServiceStatus finishUpdate
  cases m.store.Get r.ServiceID with
  | error err => rfl
  | ok service => rfl

/-- C26 on the code: endpoint "a" is up and two checks of it come back down at the
same time (a scheduler tick and a run-check-now request).  Run one after the
other, the two calls of `UpdateServiceStatus` dispatch one down notification.
In the schedule where call A has read `previousStatus = up`, call B then runs
from start to end, and call A then finishes, each of the two calls dispatches
a down notification: two for the one transition from up to down. -/
theorem concurrent_updates_notify_twice :
    (applyResults upMonitor [sampleResult StatusDown, sampleResult StatusDown]).map
        (fun p => p.2.map (fun e => e.2))
      = some [[Notification.SendServiceDownAlert "a"], []] ∧
    (interleavedUpdates upMonitor (sampleResult StatusDown) (sampleResult StatusDown)).map
        (fun p => (p.1.sent, p.2.sent))
      = some ([Notification.SendServiceDownAlert "a"],
          [Notification.SendServiceDownAlert "a"]) := by
  decide

/-! ## readCPUStats -/

/-- The guard of `readCPUStats` lets a first line of exactly five fields through,
and exactly then the read of `fields[5]` is out of range. -/
theorem readCPUStats_panics_iff (data : String) :
    readCPUStats (some data) = none ↔
      ∃ line rest, splitLines data.toList = line :: rest ∧
        (strFields line).length = 5 ∧ (strFields line)[0]? = some "cpu".toList := by
  unfold readCPUStats
  simp only [String.toList]
  generalize splitLines data.data = lines
  rcases lines with _ | ⟨line, rest⟩
  · simp
  · simp only [List.cons.injEq]
    constructor
    · intro h
      refine ⟨line, rest, ⟨rfl, rfl⟩, ?_⟩
      generalize strFields line = fields at h ⊢
      rcases fields with _ | ⟨f0, _ | ⟨f1, _ | ⟨f2, _ | ⟨f3, _ | ⟨f4, _ | ⟨f5, _ | ⟨f6, _ | ⟨f7, tl⟩⟩⟩⟩⟩⟩⟩⟩
      all_goals simp at h ⊢
      · exact h
      all_goals (split at h <;> cases h)
    · rintro ⟨l, r, ⟨rfl, rfl⟩, h5, h0⟩
      generalize strFields line = fields at h5 h0 ⊢
      rcases fields with _ | ⟨f0, _ | ⟨f1, _ | ⟨f2, _ | ⟨f3, _ | ⟨f4, _ | ⟨f5, tl⟩⟩⟩⟩⟩⟩
      all_goals simp at h5
      simp at h0
      simp [h0]


/-- C30 on the code: a first line "cpu 1 2 3 4" of /proc/stat has five fields, the
first being "cpu", so it passes the guard of `readCPUStats`; the function then
reads `fields[5]`, which is out of range, and panics.  With a sixth field the
same line gives the counters, a first line that fails the guard gives nil, and
a first line panics exactly when it has five fields of which the first is
"cpu". -/
theorem readCPUStats_five_fields_out_of_range :
    strFields "cpu 1 2 3 4".toList
      = ["cpu".toList, "1".toList, "2".toList, "3".toList, "4".toList] ∧
    ¬ ((strFields "cpu 1 2 3 4".toList).length < 5 ∨
        (strFields "cpu 1 2 3 4".toList)[0]? ≠ some "cpu".toList) ∧
    (strFields "cpu 1 2 3 4".toList)[5]? = none ∧
    readCPUStats (some "cpu 1 2 3 4") = none ∧
    readCPUStats (some "cpu 1 2 3 4\ncpu0 1 2 3 4 5 6 7 8 9 10\n") = none ∧
    readCPUStats (some "cpu  1 2 3 4 5\n")
      = some (some { user := 1, system := 3, idle := 4, total := 15 }) ∧
    readCPUStats (some "intr 1 2 3 4\n") = some none ∧
    ∀ data : String, readCPUStats (some data) = none ↔
      ∃ line rest, splitLines data.toList = line :: rest ∧
        (strFields line).length = 5 ∧ (strFields line)[0]? = some "cpu".toList := by
  refine ⟨by decide, by decide, by decide, by decide, by decide, by decide, by decide, ?_⟩
  exact readCPUStats_panics_iff

end Monitoring
